import Mathlib

/-!
# IBC keepers, migrations and client events: a shallow embedding

Go functions are embedded as Lean functions.  A Go call that may panic returns
`Except String α`, where `Except.error msg` is a panic with message `msg`; a Go
`error` result is an `Option` (`none` is the nil error).  A method that writes to
the store reached through `sdk.Context` takes the store as an argument and returns
the new store.  Interface values (keepers, codecs) are records of the methods that
the embedded functions call.
-/

namespace ibc

/-! ## Bytes, Go strings and the key-value store -/

/-- A byte. -/
abbrev Byte := Fin 256

/-- A byte slice, represented by its contents. -/
abbrev Bytes := List Byte

/-- A Go string where the code converts it to and from bytes: an immutable byte sequence,
so that the conversions `[]byte(s)` and `string(b)` are the identity and `<` is the
bytewise lexicographic order. -/
abbrev GoString := List Byte

/-- The byte with value `n` modulo 256. -/
def byte (n : Nat) : Byte := ⟨n % 256, Nat.mod_lt _ (by decide)⟩

/-- Decidable equality of call results. -/
instance instDecidableEqExcept {ε α : Type} [DecidableEq ε] [DecidableEq α] :
    DecidableEq (Except ε α) := fun x y =>
  match x, y with
  | .ok a, .ok b => if h : a = b then isTrue (by rw [h]) else isFalse (fun h' => by cases h'; exact h rfl)
  | .error a, .error b =>
    if h : a = b then isTrue (by rw [h]) else isFalse (fun h' => by cases h'; exact h rfl)
  | .ok _, .error _ => isFalse (fun h' => by cases h')
  | .error _, .ok _ => isFalse (fun h' => by cases h')

/-- The module's key-value store reached through `ctx.KVStore(storeKey)`: a finite map
from keys to values.  A stored value is never nil, so `Get` returns `none` exactly for
an absent key. -/
abbrev KVStore := AList (fun _ : Bytes => Bytes)

namespace KVStore

/-- The method `KVStore.Get`; `none` is the nil result for an absent key. -/
def Get (store : KVStore) (key : Bytes) : Option Bytes := store.lookup key

/-- The method `KVStore.Has`. -/
def Has (store : KVStore) (key : Bytes) : Bool := (store.lookup key).isSome

/-- The method `KVStore.Set`. -/
def Set (store : KVStore) (key value : Bytes) : KVStore := store.insert key value

/-- The stored pairs in ascending key order, the order in which the store iterates. -/
def ascending (store : KVStore) : List (Bytes × Bytes) :=
  (store.entries.map (fun e => (e.1, e.2))).insertionSort (fun a b => a.1 ≤ b.1)

/-- The pairs visited by `sdk.KVStorePrefixIterator(store, pfx)`: those whose key starts
with `pfx`, in ascending key order, with their full keys. -/
def PrefixIterator (store : KVStore) (pfx : Bytes) : List (Bytes × Bytes) :=
  (ascending store).filter (fun e => pfx.isPrefixOf e.1)

end KVStore

/-- A store `prefix.NewStore(parent, pfx)`: every key is prepended with `pfx`. -/
structure PrefixStore where
  parent : KVStore
  pfx : Bytes

namespace PrefixStore

/-- The method `prefix.Store.Get`. -/
def Get (s : PrefixStore) (key : Bytes) : Option Bytes := s.parent.Get (s.pfx ++ key)

/-- The method `prefix.Store.Has`. -/
def Has (s : PrefixStore) (key : Bytes) : Bool := s.parent.Has (s.pfx ++ key)

/-- The method `prefix.Store.Set`; returns the parent store after the write. -/
def Set (s : PrefixStore) (key value : Bytes) : KVStore := s.parent.Set (s.pfx ++ key) value

end PrefixStore

/-! ## Decimal formatting (`%d`) -/

/-- The decimal digit of `d % 10`. -/
def digitChar (d : Nat) : Char := Char.ofNat (48 + d % 10)

/-- Digits of `n`, most significant first, in front of `acc`; `fuel` bounds the number
of digits. -/
def formatUintAux : Nat → Nat → List Char → List Char
  | 0, _, acc => acc
  | fuel + 1, n, acc =>
    if n < 10 then digitChar n :: acc else formatUintAux fuel (n / 10) (digitChar n :: acc)

/-- The base-10 rendering of an unsigned integer (`%d`, `strconv.FormatUint(n, 10)`). -/
def formatUint (n : Nat) : String := ⟨formatUintAux (n + 1) n []⟩

/-- The base-10 rendering of a signed integer (`%d`, `strconv.FormatInt(i, 10)`). -/
def formatInt (i : Int) : String :=
  if i < 0 then "-" ++ formatUint i.natAbs else formatUint i.toNat

/-! ## 27-interchain-accounts, controller submodule: capability migration -/

namespace controller

/-- Sentinel errors of the capability module that the migration wraps. -/
inductive CapabilityError where
  | ErrCapabilityNotFound
  | ErrCapabilityNotOwned
  deriving DecidableEq, Repr

/-- Result of `errorsmod.Wrapf(sentinel, format, args...)`: the wrapped sentinel and
the formatted description. -/
structure WrappedError where
  cause : CapabilityError
  description : String
  deriving DecidableEq, Repr

/-- The call `errorsmod.Wrapf(err, format, args...)`, with the description already formatted. -/
def Wrapf (err : CapabilityError) (description : String) : WrappedError :=
  { cause := err, description := description }

/-- A capability handle (`*capabilitytypes.Capability`). -/
structure Capability where
  index : Nat
  deriving DecidableEq, Repr

/-- Modelled from the spec: the type `channeltypes.IdentifiedChannel` (04-channel is not
among the sources), with the fields that the migration reads. -/
structure IdentifiedChannel where
  PortId : String
  ChannelId : String
  ConnectionHops : List String
  deriving DecidableEq, Repr

/-- The methods of the scoped capability keeper that the migration calls.  They read the
capability module's own stores, which the migration never writes. -/
structure ScopedKeeper where
  GetCapability : String → Option Capability
  AuthenticateCapability : Capability → String → Bool

/-- The method of the channel keeper that the migration calls. -/
structure ChannelKeeper where
  GetAllChannelsWithPortPrefix : String → List IdentifiedChannel

/-- The controller keeper: the collaborators reached by the migration. -/
structure Keeper where
  channelKeeper : ChannelKeeper
  scopedKeeper : ScopedKeeper

/-- The controller submodule's store, as far as the migration touches it: the
middleware-enabled flag of every (portID, connectionID) pair. -/
structure Store where
  middlewareEnabled : String → String → Bool

/-- Modelled from the spec: `icatypes.ControllerPortPrefix`, declared in a file that is
not among the sources; the port prefix of the interchain-accounts controller. -/
def ControllerPortPrefix : String := "icacontroller-"

/-- Modelled from the spec: `controllertypes.SubModuleName`, declared in a file that is
not among the sources. -/
def SubModuleName : String := "icacontroller"

/-- Modelled from the spec: `host.ChannelCapabilityPath` (24-host, not among the sources),
the capability name of a channel, following the persisted layout
`capabilities/ports/{portID}/channels/{channelID}`. -/
def ChannelCapabilityPath (portID channelID : String) : String :=
  "capabilities/ports/" ++ portID ++ "/channels/" ++ channelID

/-- Modelled from the spec: `Keeper.SetMiddlewareEnabled` (controller keeper, not among the
sources) sets the middleware-enabled flag stored for the pair (portID, connectionID) and
leaves every other pair as it was. -/
def SetMiddlewareEnabled (store : Store) (portID connectionID : String) : Store :=
  { middlewareEnabled := fun p c =>
      if p = portID ∧ c = connectionID then true else store.middlewareEnabled p c }

/-- Migrator of the controller submodule; `keeper` is a pointer and may be nil. -/
structure Migrator where
  keeper : Option Keeper

/-- The function `NewMigrator`. -/
def NewMigrator (keeper : Option Keeper) : Migrator := { keeper := keeper }

/-- The loop body of `AssertChannelCapabilityMigrations` over the remaining channels.
Returns the error result (`none` is nil) and the store reached; `Except.error` is the
index-out-of-range panic of `ch.ConnectionHops[0]`.  The calls of the logger write no
state and are left out. -/
def assertChannels (k : Keeper) :
    List IdentifiedChannel → Store → Except String (Option WrappedError × Store)
  | [], store => .ok (none, store)
  | ch :: rest, store =>
    let name := ChannelCapabilityPath ch.PortId ch.ChannelId
    match k.scopedKeeper.GetCapability name with
    | none =>
      .ok (some (Wrapf .ErrCapabilityNotFound ("failed to find capability: " ++ name)), store)
    | some capability =>
      let isAuthenticated := k.scopedKeeper.AuthenticateCapability capability name
      if !isAuthenticated then
        .ok (some (Wrapf .ErrCapabilityNotOwned ("expected capability owner: " ++ SubModuleName)),
          store)
      else
        match ch.ConnectionHops with
        | [] => .error "runtime error: index out of range [0] with length 0"
        | hop :: _ => assertChannels k rest (SetMiddlewareEnabled store ch.PortId hop)

/-- The method `Migrator.AssertChannelCapabilityMigrations`. -/
def AssertChannelCapabilityMigrations (m : Migrator) (store : Store) :
    Except String (Option WrappedError × Store) :=
  match m.keeper with
  | some k =>
    let filteredChannels := k.channelKeeper.GetAllChannelsWithPortPrefix ControllerPortPrefix
    assertChannels k filteredChannels store
  | none => .ok (none, store)

/-- The capability of channel `ch` is found by the scoped keeper and authenticated by it. -/
def capabilityOwned (k : Keeper) (ch : IdentifiedChannel) : Prop :=
  ∃ capability,
    k.scopedKeeper.GetCapability (ChannelCapabilityPath ch.PortId ch.ChannelId) = some capability ∧
    k.scopedKeeper.AuthenticateCapability capability
      (ChannelCapabilityPath ch.PortId ch.ChannelId) = true

/-- The store after the flag of each channel in `chs` has been set, in list order, with
the first connection hop of each channel. -/
def enableAll (store : Store) (chs : List IdentifiedChannel) : Store :=
  chs.foldl (fun st ch => SetMiddlewareEnabled st ch.PortId (ch.ConnectionHops.headD "")) store

/-- Sample keeper: two controller channels, the capability of the first one is owned, the
capability of the second one is missing. -/
def sampleKeeper : Keeper :=
  { channelKeeper :=
      { GetAllChannelsWithPortPrefix := fun _ =>
          [ { PortId := "icacontroller-alice", ChannelId := "channel-0",
              ConnectionHops := ["connection-0"] },
            { PortId := "icacontroller-bob", ChannelId := "channel-1",
              ConnectionHops := ["connection-1"] } ] }
    scopedKeeper :=
      { GetCapability := fun name =>
          if name = "capabilities/ports/icacontroller-alice/channels/channel-0" then some ⟨1⟩
          else none
        AuthenticateCapability := fun _ _ => true } }

/-- Sample store: no middleware-enabled flag is set. -/
def sampleStore : Store := { middlewareEnabled := fun _ _ => false }

end controller

/-! ## 27-interchain-accounts, host submodule: parameter migration -/

namespace host

/-- Modelled from the spec: the type `types.Params` of the host submodule (host/types is
not among the sources but for its tests): the enabled flag and the allow list. -/
structure Params where
  HostEnabled : Bool
  AllowMessages : List String
  deriving DecidableEq, Repr

/-- The function `unicode.IsSpace` of the Go standard library. -/
def isSpace (c : Char) : Bool :=
  c.toNat = 0x09 || c.toNat = 0x0A || c.toNat = 0x0B || c.toNat = 0x0C || c.toNat = 0x0D ||
  c.toNat = 0x20 || c.toNat = 0x85 || c.toNat = 0xA0 || c.toNat = 0x1680 ||
  (0x2000 ≤ c.toNat && c.toNat ≤ 0x200A) || c.toNat = 0x2028 || c.toNat = 0x2029 ||
  c.toNat = 0x202F || c.toNat = 0x205F || c.toNat = 0x3000

/-- The test `strings.TrimSpace(s) == ""`: every character of `s` is white space. -/
def isBlank (s : String) : Bool := s.data.all isSpace

/-- The error of `Params.Validate`: the allow list holds a blank entry. -/
inductive ParamsError where
  | emptyAllowMessage (allowMsgs : List String)
  deriving DecidableEq, Repr

/-- Modelled from the spec: `Params.Validate` (host/types/params.go is not among the
sources), as its tests fix it: a boolean `HostEnabled` is always valid, and the allow
list is rejected exactly when one of its entries is empty or only white space. -/
def Params.Validate (p : Params) : Option ParamsError :=
  if p.AllowMessages.any isBlank then some (.emptyAllowMessage p.AllowMessages) else none

/-- The methods of the binary codec that the host keeper calls on `Params`; an
`Except.error` is the error that the `Must` variants turn into a panic. -/
structure BinaryCodec where
  Marshal : Params → Except String Bytes
  Unmarshal : Bytes → Except String Params

/-- The legacy x/params subspace: `GetParamSet` reads the parameter set, and panics when
it cannot be read. -/
structure ParamSubspace where
  GetParamSet : Except String Params

/-- The host keeper: the collaborators reached by the migration. -/
structure Keeper where
  cdc : BinaryCodec
  legacySubspace : ParamSubspace

/-- Modelled from the spec: `types.ParamsKey`, the bytes of the string "params", the key
of the parameters in the host keeper's own store (host/types/keys.go is not among the
sources). -/
def ParamsKey : Bytes := [112, 97, 114, 97, 109, 115]

/-- Modelled from the spec: `Keeper.SetParams` (host keeper.go is not among the sources)
marshals the parameters and writes them to the keeper's own store under `ParamsKey`. -/
def SetParams (k : Keeper) (ctx : KVStore) (params : Params) : Except String KVStore :=
  match k.cdc.Marshal params with
  | .error err => .error err
  | .ok bz => .ok (ctx.Set ParamsKey bz)

/-- Modelled from the spec: `Keeper.GetParams` (host keeper.go is not among the sources)
reads the parameters from the keeper's own store and panics when they are not set, as
`TestUnsetParams` requires. -/
def GetParams (k : Keeper) (ctx : KVStore) : Except String Params :=
  match ctx.Get ParamsKey with
  | none => .error "ica/host params are not set in store"
  | some bz => k.cdc.Unmarshal bz

/-- Migrator of the host submodule; `keeper` is a pointer. -/
structure Migrator where
  keeper : Option Keeper

/-- The function `NewMigrator`. -/
def NewMigrator (k : Option Keeper) : Migrator := { keeper := k }

/-- The method `Migrator.MigrateParams`: the returned error (`none` is nil) and the
keeper's own store after the call; `Except.error` is a panic. -/
def MigrateParams (m : Migrator) (ctx : KVStore) :
    Except String (Option ParamsError × KVStore) :=
  match m.keeper with
  | none => .error "runtime error: invalid memory address or nil pointer dereference"
  | some keeper =>
    match keeper.legacySubspace.GetParamSet with
    | .error msg => .error msg
    | .ok params =>
      match params.Validate with
      | some err => .ok (some err, ctx)
      | none =>
        match SetParams keeper ctx params with
        | .error msg => .error msg
        | .ok ctx' => .ok (none, ctx')

/-- Sample codec for `Params` with an empty allow list: one byte holding `HostEnabled`. -/
def sampleCodec : BinaryCodec :=
  { Marshal := fun p =>
      if p.AllowMessages = [] then .ok [if p.HostEnabled then 1 else 0]
      else .error "allow list not supported"
    Unmarshal := fun bz =>
      match bz with
      | [b] => .ok { HostEnabled := decide (b = 1), AllowMessages := [] }
      | _ => .error "unexpected length" }

/-- Sample keeper whose legacy subspace holds `params`. -/
def sampleKeeper (params : Params) : Keeper :=
  { cdc := sampleCodec, legacySubspace := { GetParamSet := .ok params } }

end host

/-! ## transfer: the keeper -/

namespace transfer

/-- Modelled from the spec: `types.ModuleName` (transfer/types/keys.go is not among the
sources), the name of the IBC transfer module. -/
def ModuleName : String := "transfer"

/-- Modelled from the spec: `types.PortKey` (transfer/types/keys.go is not among the
sources), the key of the port ID in the module's store. -/
def PortKey : Bytes := [0x01]

/-- Modelled from the spec: `types.DenomTraceKey` (transfer/types/keys.go is not among
the sources), the key prefix of the denomination traces in the module's store. -/
def DenomTraceKey : Bytes := [0x02]

/-- Modelled from the spec: the message `types.DenomTrace` (transfer/types is not among
the sources): the trace path and the base denomination. -/
structure DenomTrace where
  Path : GoString
  BaseDenom : GoString
  deriving DecidableEq, Repr

/-- Modelled from the spec: `DenomTrace.GetPrefix` (transfer/types/trace.go is not among
the sources): the path followed by "/". -/
def DenomTrace.GetPrefix (dt : DenomTrace) : GoString := dt.Path ++ [0x2f]

/-- Modelled from the spec: `DenomTrace.GetFullDenomPath` (transfer/types/trace.go is not
among the sources): the base denomination when there is no trace, otherwise the path,
"/" and the base denomination. -/
def DenomTrace.GetFullDenomPath (dt : DenomTrace) : GoString :=
  if dt.Path = [] then dt.BaseDenom else dt.GetPrefix ++ dt.BaseDenom

/-- The SHA-256 function of the standard library, a collaborator of `DenomTrace.Hash`;
its digests have 32 bytes. -/
structure Sha256 where
  Sum256 : Bytes → Bytes
  size : ∀ b, (Sum256 b).length = 32

/-- Modelled from the spec: `DenomTrace.Hash` (transfer/types/trace.go is not among the
sources): the SHA-256 digest of the full denomination path. -/
def DenomTrace.Hash (sha : Sha256) (dt : DenomTrace) : Bytes :=
  sha.Sum256 dt.GetFullDenomPath

/-- The type `types.Traces`, a slice of traces. -/
abbrev Traces := List DenomTrace

/-- Modelled from the spec: `Traces.Sort` (transfer/types/trace.go is not among the
sources) sorts the traces by `GetFullDenomPath`, its `Less` being the string order `<`.
The sort of the standard library is represented by an insertion sort; the theorems use
only what every sort provides, a sorted permutation. -/
def Traces.Sort (t : Traces) : Traces :=
  t.insertionSort (fun a b => a.GetFullDenomPath ≤ b.GetFullDenomPath)

/-- The methods of `codec.BinaryCodec` that the keeper calls on `DenomTrace`; an
`Except.error` is the error that the `Must` variants turn into a panic. -/
structure BinaryCodec where
  Marshal : DenomTrace → Except String Bytes
  Unmarshal : Bytes → Except String DenomTrace

/-- The type `sdk.StoreKey`, identified by its name. -/
structure StoreKey where
  name : String
  deriving DecidableEq, Repr

/-- The type `paramtypes.KeyTable`: the keys of its map.  Key tables and subspaces are
those built by `NewKeyTable` and by the params keeper, whose maps are allocated. -/
structure KeyTable where
  m : List String
  deriving DecidableEq, Repr

/-- The type `paramtypes.Subspace`: its name and its key table. -/
structure Subspace where
  name : String
  table : KeyTable
  deriving DecidableEq, Repr

/-- The method `Subspace.HasKeyTable`: `len(s.table.m) > 0`. -/
def Subspace.HasKeyTable (s : Subspace) : Bool := decide (s.table.m.length > 0)

/-- The method `Subspace.WithKeyTable`: copies the entries of `table` into the table of
the subspace, which must be empty. -/
def Subspace.WithKeyTable (s : Subspace) (table : KeyTable) : Except String Subspace :=
  if s.table.m.length ≠ 0 then .error "SetKeyTable() called on already initialized Subspace"
  else .ok { s with table := { m := s.table.m ++ table.m } }

/-- Modelled from the spec: `types.ParamKeyTable()` (transfer/types/params.go is not
among the sources), the key table of the transfer parameters. -/
def ParamKeyTable : KeyTable := { m := ["SendEnabled", "ReceiveEnabled"] }

/-- Collaborator `types.ICS4Wrapper`, identified by a handle. -/
structure ICS4Wrapper where
  handle : Nat
  deriving DecidableEq, Repr

/-- Collaborator `types.ChannelKeeper`, identified by a handle. -/
structure ChannelKeeper where
  handle : Nat
  deriving DecidableEq, Repr

/-- Collaborator `types.PortKeeper`, identified by a handle. -/
structure PortKeeper where
  handle : Nat
  deriving DecidableEq, Repr

/-- Collaborator `types.BankKeeper`, identified by a handle. -/
structure BankKeeper where
  handle : Nat
  deriving DecidableEq, Repr

/-- Collaborator `capabilitykeeper.ScopedKeeper`, identified by a handle. -/
structure ScopedKeeper where
  handle : Nat
  deriving DecidableEq, Repr

/-- Collaborator `types.AccountKeeper`: `GetModuleAddress` returns nil (`none`) for a
module without an account. -/
structure AccountKeeper where
  GetModuleAddress : String → Option Bytes

/-- Modelled from the spec: the non-nil values of the interface `types.AddressHandler`
(transfer/types is not among the sources): `SeiAddressHandler{}` and any other handler. -/
inductive AddressHandler where
  | SeiAddressHandler
  | other (handle : Nat)
  deriving DecidableEq, Repr

/-- The IBC fungible transfer keeper. -/
structure Keeper where
  storeKey : StoreKey
  cdc : BinaryCodec
  paramSpace : Subspace
  ics4Wrapper : ICS4Wrapper
  channelKeeper : ChannelKeeper
  portKeeper : PortKeeper
  authKeeper : AccountKeeper
  bankKeeper : BankKeeper
  scopedKeeper : ScopedKeeper
  addressHandler : Option AddressHandler

/-- The function `NewKeeper`. -/
def NewKeeper (cdc : BinaryCodec) (key : StoreKey) (paramSpace : Subspace)
    (ics4Wrapper : ICS4Wrapper) (channelKeeper : ChannelKeeper) (portKeeper : PortKeeper)
    (authKeeper : AccountKeeper) (bankKeeper : BankKeeper) (scopedKeeper : ScopedKeeper) :
    Except String Keeper :=
  match authKeeper.GetModuleAddress ModuleName with
  | none => .error "the IBC transfer module account has not been set"
  | some _ =>
    match (if !paramSpace.HasKeyTable then paramSpace.WithKeyTable ParamKeyTable
           else .ok paramSpace) with
    | .error msg => .error msg
    | .ok paramSpace =>
      .ok { cdc := cdc
            storeKey := key
            paramSpace := paramSpace
            ics4Wrapper := ics4Wrapper
            channelKeeper := channelKeeper
            portKeeper := portKeeper
            authKeeper := authKeeper
            bankKeeper := bankKeeper
            scopedKeeper := scopedKeeper
            addressHandler := some .SeiAddressHandler }

/-- The function `NewKeeperWithAddressHandler`; a nil `addressHandler` is `none`. -/
def NewKeeperWithAddressHandler (cdc : BinaryCodec) (key : StoreKey) (paramSpace : Subspace)
    (ics4Wrapper : ICS4Wrapper) (channelKeeper : ChannelKeeper) (portKeeper : PortKeeper)
    (authKeeper : AccountKeeper) (bankKeeper : BankKeeper) (scopedKeeper : ScopedKeeper)
    (addressHandler : Option AddressHandler) : Except String Keeper :=
  match NewKeeper cdc key paramSpace ics4Wrapper channelKeeper portKeeper authKeeper
      bankKeeper scopedKeeper with
  | .error msg => .error msg
  | .ok keeper =>
    let keeper := { keeper with addressHandler := addressHandler }
    if keeper.addressHandler = none then
      .error "the IBC transfer module address handler has not been set"
    else .ok keeper

/-- Modelled from the spec: `Keeper.MustMarshalDenomTrace` (transfer/keeper/encoding.go is
not among the sources) calls the codec's `MustMarshal`, which panics with the error of
`Marshal`. -/
def Keeper.MustMarshalDenomTrace (k : Keeper) (denomTrace : DenomTrace) : Except String Bytes :=
  k.cdc.Marshal denomTrace

/-- Modelled from the spec: `Keeper.MustUnmarshalDenomTrace` (transfer/keeper/encoding.go
is not among the sources) calls the codec's `MustUnmarshal`, which panics with the error
of `Unmarshal`. -/
def Keeper.MustUnmarshalDenomTrace (k : Keeper) (bz : Bytes) : Except String DenomTrace :=
  k.cdc.Unmarshal bz

/-- The method `Keeper.GetPort`; `ctx` is the module's store, `string(nil)` is "". -/
def Keeper.GetPort (_k : Keeper) (ctx : KVStore) : GoString :=
  let store := ctx
  match store.Get PortKey with
  | none => []
  | some bz => bz

/-- The method `Keeper.SetPort`. -/
def Keeper.SetPort (_k : Keeper) (ctx : KVStore) (portID : GoString) : KVStore :=
  let store := ctx
  store.Set PortKey portID

/-- The method `Keeper.GetDenomTrace`. -/
def Keeper.GetDenomTrace (k : Keeper) (ctx : KVStore) (denomTraceHash : Bytes) :
    Except String (DenomTrace × Bool) :=
  let store : PrefixStore := { parent := ctx, pfx := DenomTraceKey }
  match store.Get denomTraceHash with
  | none => .ok ({ Path := [], BaseDenom := [] }, false)
  | some bz =>
    match k.MustUnmarshalDenomTrace bz with
    | .error msg => .error msg
    | .ok denomTrace => .ok (denomTrace, true)

/-- The method `Keeper.HasDenomTrace`. -/
def Keeper.HasDenomTrace (_k : Keeper) (ctx : KVStore) (denomTraceHash : Bytes) : Bool :=
  let store : PrefixStore := { parent := ctx, pfx := DenomTraceKey }
  store.Has denomTraceHash

/-- The method `Keeper.SetDenomTrace`. -/
def Keeper.SetDenomTrace (sha : Sha256) (k : Keeper) (ctx : KVStore) (denomTrace : DenomTrace) :
    Except String KVStore :=
  let store : PrefixStore := { parent := ctx, pfx := DenomTraceKey }
  match k.MustMarshalDenomTrace denomTrace with
  | .error msg => .error msg
  | .ok bz => .ok (store.Set (denomTrace.Hash sha) bz)

/-- The loop of `Keeper.IterateDenomTraces` over the pairs the iterator still has to
visit; the callback `cb` updates the variables it captures, of type `σ`, and returns
true to stop. -/
def Keeper.iterateLoop {σ : Type} (k : Keeper) (cb : σ → DenomTrace → σ × Bool) :
    List (Bytes × Bytes) → σ → Except String σ
  | [], captured => .ok captured
  | entry :: rest, captured =>
    match k.MustUnmarshalDenomTrace entry.2 with
    | .error msg => .error msg
    | .ok denomTrace =>
      if (cb captured denomTrace).2 then .ok (cb captured denomTrace).1
      else Keeper.iterateLoop k cb rest (cb captured denomTrace).1

/-- The method `Keeper.IterateDenomTraces`. -/
def Keeper.IterateDenomTraces {σ : Type} (k : Keeper) (ctx : KVStore)
    (cb : σ → DenomTrace → σ × Bool) (captured : σ) : Except String σ :=
  let store := ctx
  let iterator := store.PrefixIterator DenomTraceKey
  k.iterateLoop cb iterator captured

/-- The method `Keeper.GetAllDenomTraces`. -/
def Keeper.GetAllDenomTraces (k : Keeper) (ctx : KVStore) : Except String Traces :=
  match k.IterateDenomTraces ctx (fun (traces : Traces) denomTrace =>
      (traces ++ [denomTrace], false)) [] with
  | .error msg => .error msg
  | .ok traces => .ok traces.Sort

end transfer

/-! ## transfer: the protobuf encoding of `DenomTrace`, used for concrete keepers -/

namespace transfer

/-- The function `encodeVarintTransfer`: the base-128 encoding of `v`, low group first. -/
def encodeVarint : Nat → Nat → Bytes
  | 0, v => [byte v]
  | fuel + 1, v =>
    if v ≥ 128 then byte (v % 128 + 128) :: encodeVarint fuel (v / 128) else [byte v]

/-- A length-delimited string field with the given tag byte; an empty string is left out. -/
def encodeStringField (tag : Byte) (s : GoString) : Bytes :=
  if s.length > 0 then tag :: (encodeVarint 9 s.length ++ s) else []

/-- Modelled from the spec: the method `DenomTrace.Marshal` of the generated protobuf code
(transfer/types/transfer.pb.go is not among the sources): field 1 is the path, field 2
the base denomination. -/
def DenomTrace.Marshal (dt : DenomTrace) : Bytes :=
  encodeStringField 0x0a dt.Path ++ encodeStringField 0x12 dt.BaseDenom

/-- The varint loop of the generated decoders: reads a `uint64` at index `i` of `d` and
returns it with the index after it. -/
def readVarint (d : Bytes) : Nat → Nat → Nat → Nat → Except String (Nat × Nat)
  | 0, _, _, _ => .error "proto: integer overflow"
  | fuel + 1, shift, acc, i =>
    match d[i]? with
    | none => .error "unexpected EOF"
    | some b =>
      if b.val < 0x80 then .ok ((acc ||| ((b.val &&& 0x7F) <<< shift)) % 2 ^ 64, i + 1)
      else readVarint d fuel (shift + 7) ((acc ||| ((b.val &&& 0x7F) <<< shift)) % 2 ^ 64) (i + 1)

/-- The varint loop of `skipTransfer` for wire type 0: skips a varint at index `i`. -/
def skipVarint (d : Bytes) : Nat → Nat → Except String Nat
  | 0, _ => .error "proto: integer overflow"
  | fuel + 1, i =>
    match d[i]? with
    | none => .error "unexpected EOF"
    | some b => if b.val < 0x80 then .ok (i + 1) else skipVarint d fuel (i + 1)

/-- The function `skipTransfer` of the generated code, on the slice `d`: the number of
bytes of the field that starts `d`. -/
def skipTransfer (d : Bytes) : Nat → Nat → Nat → Except String Nat
  | 0, _, _ => .error "unexpected EOF"
  | fuel + 1, i, depth =>
    if i < d.length then
      match readVarint d 10 0 0 i with
      | .error msg => .error msg
      | .ok (wire, i1) =>
        let next : Except String (Nat × Nat) :=
          match wire &&& 0x7 with
          | 0 =>
            match skipVarint d 10 i1 with
            | .error msg => .error msg
            | .ok i2 => .ok (i2, depth)
          | 1 => .ok (i1 + 8, depth)
          | 2 =>
            match readVarint d 10 0 0 i1 with
            | .error msg => .error msg
            | .ok (length, i2) =>
              if length ≥ 2 ^ 63 then .error "proto: negative length found during unmarshaling"
              else .ok (i2 + length, depth)
          | 3 => .ok (i1, depth + 1)
          | 4 =>
            if depth = 0 then .error "proto: unexpected end of group" else .ok (i1, depth - 1)
          | 5 => .ok (i1 + 4, depth)
          | wireType => .error ("proto: illegal wireType " ++ formatUint wireType)
        match next with
        | .error msg => .error msg
        | .ok (i2, depth2) =>
          if i2 ≥ 2 ^ 63 then .error "proto: negative length found during unmarshaling"
          else if depth2 = 0 then .ok i2
          else skipTransfer d fuel i2 depth2
    else .error "unexpected EOF"

/-- A string field of the decoder: checks the wire type, reads the length and the bytes;
returns the string and the index after it. -/
def readStringField (d : Bytes) (field : String) (wireType i : Nat) :
    Except String (GoString × Nat) :=
  if wireType ≠ 2 then
    .error ("proto: wrong wireType = " ++ formatUint wireType ++ " for field " ++ field)
  else
    match readVarint d 10 0 0 i with
    | .error msg => .error msg
    | .ok (stringLen, i1) =>
      if stringLen ≥ 2 ^ 63 then .error "proto: negative length found during unmarshaling"
      else if i1 + stringLen ≥ 2 ^ 63 then
        .error "proto: negative length found during unmarshaling"
      else if i1 + stringLen > d.length then .error "unexpected EOF"
      else .ok ((d.drop i1).take stringLen, i1 + stringLen)

/-- The field number `int32(wire >> 3)` as a signed integer. -/
def fieldNumber (wire : Nat) : Int :=
  if (wire >>> 3) % 2 ^ 32 < 2 ^ 31 then ((wire >>> 3) % 2 ^ 32 : Nat)
  else ((wire >>> 3) % 2 ^ 32 : Nat) - (2 ^ 32 : Nat)

/-- The loop of the method `DenomTrace.Unmarshal` of the generated code, from index `i`
of `d` with the message `m` decoded so far. -/
def unmarshalFrom (d : Bytes) : Nat → Nat → DenomTrace → Except String DenomTrace
  | 0, _, _ => .error "unexpected EOF"
  | fuel + 1, i, m =>
    if i < d.length then
      match readVarint d 10 0 0 i with
      | .error msg => .error msg
      | .ok (wire, i1) =>
        if wire &&& 0x7 = 4 then .error "proto: DenomTrace: wiretype end group for non-group"
        else if fieldNumber wire ≤ 0 then
          .error ("proto: DenomTrace: illegal tag " ++ formatInt (fieldNumber wire)
            ++ " (wire type " ++ formatUint wire ++ ")")
        else if fieldNumber wire = 1 then
          match readStringField d "Path" (wire &&& 0x7) i1 with
          | .error msg => .error msg
          | .ok (s, i2) => unmarshalFrom d fuel i2 { m with Path := s }
        else if fieldNumber wire = 2 then
          match readStringField d "BaseDenom" (wire &&& 0x7) i1 with
          | .error msg => .error msg
          | .ok (s, i2) => unmarshalFrom d fuel i2 { m with BaseDenom := s }
        else
          match skipTransfer (d.drop i) ((d.drop i).length + 1) 0 0 with
          | .error msg => .error msg
          | .ok skippy =>
            if i + skippy ≥ 2 ^ 63 then .error "proto: negative length found during unmarshaling"
            else if i + skippy > d.length then .error "unexpected EOF"
            else unmarshalFrom d fuel (i + skippy) m
    else if i > d.length then .error "unexpected EOF"
    else .ok m

/-- Modelled from the spec: the method `DenomTrace.Unmarshal` of the generated protobuf
code (transfer/types/transfer.pb.go is not among the sources). -/
def DenomTrace.Unmarshal (d : Bytes) : Except String DenomTrace :=
  unmarshalFrom d (d.length + 1) 0 { Path := [], BaseDenom := [] }

/-- The protobuf codec on `DenomTrace`. -/
def protoCodec : BinaryCodec :=
  { Marshal := fun dt => .ok dt.Marshal
    Unmarshal := DenomTrace.Unmarshal }

/-- A stand-in for SHA-256 in concrete examples: the first 32 bytes of the input padded
with zeros. -/
def sampleSha : Sha256 :=
  { Sum256 := fun b => (b ++ List.replicate 32 0).take 32
    size := fun b => by simp }

/-- Sample keeper with the protobuf codec. -/
def sampleKeeper : Keeper :=
  { storeKey := { name := "transfer" }
    cdc := protoCodec
    paramSpace := { name := "transfer", table := ParamKeyTable }
    ics4Wrapper := { handle := 1 }
    channelKeeper := { handle := 2 }
    portKeeper := { handle := 3 }
    authKeeper := { GetModuleAddress := fun name => if name = ModuleName then some [7] else none }
    bankKeeper := { handle := 4 }
    scopedKeeper := { handle := 5 }
    addressHandler := some .SeiAddressHandler }

/-- Sample trace: path "transfer/channel-0", base denomination "uatom". -/
def sampleTrace : DenomTrace :=
  { Path := [116, 114, 97, 110, 115, 102, 101, 114, 47, 99, 104, 97, 110, 110, 101, 108, 45, 48]
    BaseDenom := [117, 97, 116, 111, 109] }

/-- Sample hash, 32 bytes. -/
def sampleHash : Bytes := List.replicate 32 0xab

/-- Sample store: one value under the denom-trace prefix that is not the encoding of a
trace (a varint that never ends). -/
def corruptStore : KVStore := (∅ : KVStore).Set (DenomTraceKey ++ sampleHash) [0xff]

end transfer

/-! ## transfer: stores for concrete examples -/

namespace transfer

/-- The values stored under the keys that start with `pfx`, one for each such key. -/
def valuesUnder (store : KVStore) (pfx : Bytes) : List Bytes :=
  (store.entries.filter (fun e => pfx.isPrefixOf e.1)).map (fun e => e.2)

/-- Sample trace without a path: base denomination "uatom". -/
def nativeTrace : DenomTrace := { Path := [], BaseDenom := [117, 97, 116, 111, 109] }

/-- Sample store: the port "transfer" and the two sample traces, each under its hash. -/
def tracedStore : KVStore :=
  (((∅ : KVStore).Set PortKey [116, 114, 97, 110, 115, 102, 101, 114]).Set
    (DenomTraceKey ++ nativeTrace.Hash sampleSha) nativeTrace.Marshal).Set
    (DenomTraceKey ++ sampleTrace.Hash sampleSha) sampleTrace.Marshal

end transfer

/-! ## 02-client: the events of the client keeper -/

namespace client

/-- An event attribute (`sdk.Attribute`). -/
structure Attribute where
  Key : String
  Value : String
  deriving DecidableEq, Repr

/-- An event (`sdk.Event`); `Type_` is its field `Type`. -/
structure Event where
  Type_ : String
  Attributes : List Attribute
  deriving DecidableEq, Repr

/-- The function `sdk.NewAttribute`. -/
def NewAttribute (k v : String) : Attribute := { Key := k, Value := v }

/-- The function `sdk.NewEvent`. -/
def NewEvent (ty : String) (attrs : List Attribute) : Event := { Type_ := ty, Attributes := attrs }

/-- The event manager of the context (`ctx.EventManager()`): the events emitted so far. -/
structure EventManager where
  events : List Event
  deriving DecidableEq, Repr

/-- The method `EventManager.EmitEvents`: appends the events. -/
def EventManager.EmitEvents (em : EventManager) (events : List Event) : EventManager :=
  { events := em.events ++ events }

/-- The value of the first attribute of the event with the given key. -/
def Event.attribute (e : Event) (key : String) : Option String :=
  (e.Attributes.find? (fun a => a.Key = key)).map (fun a => a.Value)

/-- Modelled from the spec: the event types and attribute keys of
02-client/types/events.go and of the SDK, which are not among the sources. -/
def EventTypeCreateClient : String := "create_client"

/-- Modelled from the spec: see `EventTypeCreateClient`. -/
def EventTypeUpdateClient : String := "update_client"

/-- Modelled from the spec: see `EventTypeCreateClient`. -/
def EventTypeUpgradeClient : String := "upgrade_client"

/-- Modelled from the spec: see `EventTypeCreateClient`. -/
def EventTypeSubmitMisbehaviour : String := "client_misbehaviour"

/-- Modelled from the spec: see `EventTypeCreateClient`. -/
def EventTypeUpdateClientProposal : String := "update_client_proposal"

/-- Modelled from the spec: see `EventTypeCreateClient`. -/
def EventTypeUpgradeClientProposal : String := "upgrade_client_proposal"

/-- Modelled from the spec: see `EventTypeCreateClient`. -/
def EventTypeUpgradeChain : String := "upgrade_chain"

/-- Modelled from the spec: see `EventTypeCreateClient`. -/
def EventTypeMessage : String := "message"

/-- Modelled from the spec: see `EventTypeCreateClient`. -/
def AttributeKeyModule : String := "module"

/-- Modelled from the spec: see `EventTypeCreateClient`. -/
def AttributeValueCategory : String := "ibc_client"

/-- Modelled from the spec: see `EventTypeCreateClient`. -/
def AttributeKeyClientID : String := "client_id"

/-- Modelled from the spec: see `EventTypeCreateClient`. -/
def AttributeKeySubjectClientID : String := "subject_client_id"

/-- Modelled from the spec: see `EventTypeCreateClient`. -/
def AttributeKeyClientType : String := "client_type"

/-- Modelled from the spec: see `EventTypeCreateClient`. -/
def AttributeKeyConsensusHeight : String := "consensus_height"

/-- Modelled from the spec: see `EventTypeCreateClient`. -/
def AttributeKeyConsensusHeights : String := "consensus_heights"

/-- Modelled from the spec: see `EventTypeCreateClient`. -/
def AttributeKeyHeader : String := "header"

/-- Modelled from the spec: see `EventTypeCreateClient`. -/
def AttributeKeyUpgradeStore : String := "upgrade_store"

/-- Modelled from the spec: see `EventTypeCreateClient`. -/
def AttributeKeyUpgradePlanHeight : String := "upgrade_plan_height"

/-- Modelled from the spec: see `EventTypeCreateClient`. -/
def AttributeKeyUpgradePlanTitle : String := "title"

/-- Modelled from the spec: `upgradetypes.StoreKey` of the SDK, not among the sources. -/
def UpgradeStoreKey : String := "upgrade"

/-- Modelled from the spec: the type `Height` (02-client/types/height.go is not among the
sources), the pair (revisionNumber, revisionHeight) of unsigned integers. -/
structure Height where
  RevisionNumber : Nat
  RevisionHeight : Nat
  deriving DecidableEq, Repr

/-- Modelled from the spec: `Height.String` (02-client/types/height.go is not among the
sources) renders a height as `{revisionNumber}-{revisionHeight}`, both in base 10. -/
def Height.String (h : Height) : String :=
  formatUint h.RevisionNumber ++ "-" ++ formatUint h.RevisionHeight

/-- The methods of `exported.ClientState` that the events read. -/
structure ClientState where
  ClientType : String
  GetLatestHeight : Height
  deriving DecidableEq, Repr

/-- A non-nil client message (`exported.ClientMessage`): its type URL and the encoding of
its value. -/
structure ClientMessage where
  typeURL : String
  value : Bytes
  deriving DecidableEq, Repr

/-- The method of `codec.BinaryCodec` behind `MarshalClientMessage`; a nil message is
`none`, and an `Except.error` is the error that the `Must` variant turns into a panic. -/
structure BinaryCodec where
  MarshalInterface : Option ClientMessage → Except String Bytes

/-- Modelled from the spec: `types.MustMarshalClientMessage` (02-client/types/codec.go is
not among the sources) marshals the message as an interface and panics with the codec's
error. -/
def MustMarshalClientMessage (cdc : BinaryCodec) (clientMessage : Option ClientMessage) :
    Except String Bytes :=
  cdc.MarshalInterface clientMessage

/-- The table `hextable` of `encoding/hex`. -/
def hextable : List Char :=
  ['0', '1', '2', '3', '4', '5', '6', '7', '8', '9', 'a', 'b', 'c', 'd', 'e', 'f']

/-- The characters of the function `hex.EncodeToString`: two digits for each byte, the
high half first. -/
def hexEncode : Bytes → List Char
  | [] => []
  | v :: rest => hextable.getD (v.val >>> 4) '0' :: hextable.getD (v.val &&& 0x0f) '0'
      :: hexEncode rest

/-- The function `hex.EncodeToString`. -/
def EncodeToString (src : Bytes) : String := ⟨hexEncode src⟩

/-- The function `strings.Join`. -/
def Join (elems : List String) (sep : String) : String :=
  match elems with
  | [] => ""
  | [a] => a
  | a :: rest => rest.foldl (fun b s => b ++ sep ++ s) a

/-- The loop `for i, height := range consensusHeights` of `emitUpdateClientEvent`, from
index `i` on: stores the rendering of each height at its index of `attr`. -/
def fillHeights : List Height → Nat → List String → List String
  | [], _, attr => attr
  | height :: rest, i, attr => fillHeights rest (i + 1) (attr.set i height.String)

/-- The message event that every emit function appends after its own event. -/
def messageEvent : Event :=
  NewEvent EventTypeMessage [NewAttribute AttributeKeyModule AttributeValueCategory]

/-- The function `emitCreateClientEvent`. -/
def emitCreateClientEvent (em : EventManager) (clientID : String) (clientState : ClientState) :
    EventManager :=
  em.EmitEvents
    [ NewEvent EventTypeCreateClient
        [ NewAttribute AttributeKeyClientID clientID,
          NewAttribute AttributeKeyClientType clientState.ClientType,
          NewAttribute AttributeKeyConsensusHeight clientState.GetLatestHeight.String ],
      NewEvent EventTypeMessage [NewAttribute AttributeKeyModule AttributeValueCategory] ]

/-- The function `emitUpdateClientEvent`; `Except.error` is the panic of
`MustMarshalClientMessage`. -/
def emitUpdateClientEvent (em : EventManager) (clientID clientType : String)
    (consensusHeights : List Height) (cdc : BinaryCodec) (clientMsg : Option ClientMessage) :
    Except String EventManager :=
  match MustMarshalClientMessage cdc clientMsg with
  | .error msg => .error msg
  | .ok bz =>
    let clientMsgStr := EncodeToString bz
    let consensusHeightAttr : String :=
      match consensusHeights with
      | [] => ""
      | first :: _ => first.String
    let consensusHeightsAttr :=
      fillHeights consensusHeights 0 (List.replicate consensusHeights.length "")
    .ok (em.EmitEvents
      [ NewEvent EventTypeUpdateClient
          [ NewAttribute AttributeKeyClientID clientID,
            NewAttribute AttributeKeyClientType clientType,
            NewAttribute AttributeKeyConsensusHeight consensusHeightAttr,
            NewAttribute AttributeKeyConsensusHeights (Join consensusHeightsAttr ","),
            NewAttribute AttributeKeyHeader clientMsgStr ],
        NewEvent EventTypeMessage [NewAttribute AttributeKeyModule AttributeValueCategory] ])

/-- The function `emitUpgradeClientEvent`. -/
def emitUpgradeClientEvent (em : EventManager) (clientID : String) (clientState : ClientState) :
    EventManager :=
  em.EmitEvents
    [ NewEvent EventTypeUpgradeClient
        [ NewAttribute AttributeKeyClientID clientID,
          NewAttribute AttributeKeyClientType clientState.ClientType,
          NewAttribute AttributeKeyConsensusHeight clientState.GetLatestHeight.String ],
      NewEvent EventTypeMessage [NewAttribute AttributeKeyModule AttributeValueCategory] ]

/-- The function `emitUpdateClientProposalEvent`. -/
def emitUpdateClientProposalEvent (em : EventManager) (clientID clientType : String) :
    EventManager :=
  em.EmitEvents
    [ NewEvent EventTypeUpdateClientProposal
        [ NewAttribute AttributeKeySubjectClientID clientID,
          NewAttribute AttributeKeyClientType clientType ],
      NewEvent EventTypeMessage [NewAttribute AttributeKeyModule AttributeValueCategory] ]

/-- The function `emitUpgradeClientProposalEvent`; `height` is an `int64`, rendered by
`fmt.Sprintf("%d", height)`. -/
def emitUpgradeClientProposalEvent (em : EventManager) (title : String) (height : Int) :
    EventManager :=
  em.EmitEvents
    [ NewEvent EventTypeUpgradeClientProposal
        [ NewAttribute AttributeKeyUpgradePlanTitle title,
          NewAttribute AttributeKeyUpgradePlanHeight (formatInt height) ],
      NewEvent EventTypeMessage [NewAttribute AttributeKeyModule AttributeValueCategory] ]

/-- The function `emitSubmitMisbehaviourEvent`. -/
def emitSubmitMisbehaviourEvent (em : EventManager) (clientID : String)
    (clientState : ClientState) : EventManager :=
  em.EmitEvents
    [ NewEvent EventTypeSubmitMisbehaviour
        [ NewAttribute AttributeKeyClientID clientID,
          NewAttribute AttributeKeyClientType clientState.ClientType ],
      NewEvent EventTypeMessage [NewAttribute AttributeKeyModule AttributeValueCategory] ]

/-- The function `EmitUpgradeChainEvent`; `height` is an `int64`, rendered by
`strconv.FormatInt(height, 10)`. -/
def EmitUpgradeChainEvent (em : EventManager) (height : Int) : EventManager :=
  em.EmitEvents
    [ NewEvent EventTypeUpgradeChain
        [ NewAttribute AttributeKeyUpgradePlanHeight (formatInt height),
          NewAttribute AttributeKeyUpgradeStore UpgradeStoreKey ],
      NewEvent EventTypeMessage [NewAttribute AttributeKeyModule AttributeValueCategory] ]

/-- Sample codec: a nil message is an error, a message is encoded by its value. -/
def sampleCodec : BinaryCodec :=
  { MarshalInterface := fun m =>
      match m with
      | none => .error "can't proto marshal <nil>"
      | some msg => .ok msg.value }

end client

/-! ## 02-client: hex decoding, the inverse of the header attribute's encoding -/

namespace client

/-- The table `reverseHexTable` of `encoding/hex`: the value of a hex digit, `none` for
any other character. -/
def fromHexChar (c : Char) : Option Nat :=
  if '0' ≤ c ∧ c ≤ '9' then some (c.toNat - '0'.toNat)
  else if 'a' ≤ c ∧ c ≤ 'f' then some (c.toNat - 'a'.toNat + 10)
  else if 'A' ≤ c ∧ c ≤ 'F' then some (c.toNat - 'A'.toNat + 10)
  else none

/-- The function `hex.Decode` on the characters of the source: one byte for each pair of
hex digits; an invalid character or an odd length is an error. -/
def hexDecode : List Char → Except String Bytes
  | [] => .ok []
  | [p] =>
    match fromHexChar p with
    | none => .error ("encoding/hex: invalid byte: " ++ p.toString)
    | some _ => .error "encoding/hex: odd length hex string"
  | p :: q :: rest =>
    match fromHexChar p, fromHexChar q with
    | none, _ => .error ("encoding/hex: invalid byte: " ++ p.toString)
    | some _, none => .error ("encoding/hex: invalid byte: " ++ q.toString)
    | some a, some b =>
      match hexDecode rest with
      | .error msg => .error msg
      | .ok bz => .ok (byte (a <<< 4 ||| b) :: bz)

/-- The function `hex.DecodeString`. -/
def DecodeString (s : String) : Except String Bytes := hexDecode s.data

end client

/-! ## e2e test suite: gRPC queries -/

namespace e2e

/-- The message `tmservice.Validator` of the SDK's consensus service. -/
structure Validator where
  Address : GoString
  PubKey : Bytes
  VotingPower : Int
  ProposerPriority : Int
  deriving DecidableEq, Repr

/-- The message `tmservice.GetValidatorSetByHeightRequest`. -/
structure GetValidatorSetByHeightRequest where
  Height : Int
  deriving DecidableEq, Repr

/-- The message `tmservice.GetValidatorSetByHeightResponse`. -/
structure GetValidatorSetByHeightResponse where
  BlockHeight : Int
  Validators : List Validator
  deriving DecidableEq, Repr

/-- The message `tmproto.Header` of a block, with the fields the suite reads; the time is
in nanoseconds. -/
structure TmHeader where
  ChainID : String
  Height : Int
  Time : Nat
  LastCommitHash : Bytes
  AppHash : Bytes
  ProposerAddress : Bytes
  deriving DecidableEq, Repr

/-- The message `tmservice.Header` of an SDK block, with the fields the suite reads; the
proposer address is a string. -/
structure SdkHeader where
  ChainID : String
  Height : Int
  Time : Nat
  LastCommitHash : Bytes
  AppHash : Bytes
  ProposerAddress : GoString
  deriving DecidableEq, Repr

/-- The message `tmproto.Block`: its header and the encoding of its other fields. -/
structure TmBlock where
  Header : TmHeader
  value : Bytes
  deriving DecidableEq, Repr

/-- The message `tmservice.Block`: its header and the encoding of its other fields. -/
structure SdkBlock where
  Header : SdkHeader
  value : Bytes
  deriving DecidableEq, Repr

/-- The message `tmservice.GetBlockByHeightRequest`. -/
structure GetBlockByHeightRequest where
  Height : Int
  deriving DecidableEq, Repr

/-- The message `tmservice.GetBlockByHeightResponse`; its fields `Block` and `SdkBlock`
are pointers, `none` is nil. -/
structure GetBlockByHeightResponse where
  Block : Option TmBlock
  SdkBlock : Option SdkBlock
  deriving DecidableEq, Repr

/-- The interface `testsuite.Header`: a pointer to the header of an SDK block or to the
header of a block. -/
inductive Header where
  | sdk (h : SdkHeader)
  | tm (h : TmHeader)
  deriving DecidableEq, Repr

/-- The methods of the consensus service client that the queries call; `Except.error` is
the error a method returns. -/
structure ConsensusServiceClient where
  GetValidatorSetByHeight :
    GetValidatorSetByHeightRequest → Except String GetValidatorSetByHeightResponse
  GetBlockByHeight : GetBlockByHeightRequest → Except String GetBlockByHeightResponse

/-- The conversion `int64(height)` of a `uint64`. -/
def int64 (height : Nat) : Int :=
  if height % 2 ^ 64 < 2 ^ 63 then (height % 2 ^ 64 : Nat)
  else ((height % 2 ^ 64 : Nat) : Int) - (2 ^ 64 : Nat)

/-- The function `sort.SliceStable` of the standard library with the comparison `less`:
a stable sort, here an insertion sort that puts an element in front of the first element
that is not less than it.  A stable sort has one result, whatever its algorithm. -/
def SliceStable {α : Type} (x : List α) (less : α → α → Bool) : List α :=
  x.insertionSort (fun a b => less b a = false)

/-- The method `E2ETestSuite.GetValidatorSetByHeight`; `Except.error err` is the result
`(nil, err)`. -/
def GetValidatorSetByHeight (tmService : ConsensusServiceClient) (height : Nat) :
    Except String (List Validator) :=
  match tmService.GetValidatorSetByHeight { Height := int64 height } with
  | .error err => .error err
  | .ok res =>
    .ok (SliceStable res.Validators (fun vi vj => decide (vi.Address < vj.Address)))

/-- Sample validators: two with the same address around one with a smaller address. -/
def sampleValidators : List Validator :=
  [ { Address := [99], PubKey := [1], VotingPower := 10, ProposerPriority := 0 },
    { Address := [97, 98], PubKey := [2], VotingPower := 20, ProposerPriority := 0 },
    { Address := [99], PubKey := [3], VotingPower := 30, ProposerPriority := 0 } ]

/-- The method `E2ETestSuite.GetBlockHeaderByHeight`.  The inner `Except.error err` is the
result `(nil, err)`; the outer `Except.error` is the run-time panic of `res.Block.Header`
on a nil `res.Block`. -/
def GetBlockHeaderByHeight (tmService : ConsensusServiceClient) (height : Nat) :
    Except String (Except String Header) :=
  match tmService.GetBlockByHeight { Height := int64 height } with
  | .error err => .ok (.error err)
  | .ok res =>
    match res.SdkBlock with
    | some sdkBlock => .ok (.ok (Header.sdk sdkBlock.Header))
    | none =>
      match res.Block with
      | some block => .ok (.ok (Header.tm block.Header))
      | none => .error "runtime error: invalid memory address or nil pointer dereference"

/-- Sample header of a block at the given height. -/
def sampleTmHeader (height : Int) : TmHeader :=
  { ChainID := "chainB-1", Height := height, Time := 1700000000000000000,
    LastCommitHash := [1, 2], AppHash := [3, 4], ProposerAddress := [5] }

/-- Sample header of an SDK block at the given height. -/
def sampleSdkHeader (height : Int) : SdkHeader :=
  { ChainID := "chainB-1", Height := height, Time := 1700000000000000000,
    LastCommitHash := [1, 2], AppHash := [3, 4], ProposerAddress := [99] }

/-- Sample client: answers every height below 100 with the sample validators; its blocks
below height 10 have the `Block` field only, from height 10 on both fields. -/
def sampleClient : ConsensusServiceClient :=
  { GetValidatorSetByHeight := fun req =>
      if req.Height < 100 then .ok { BlockHeight := req.Height, Validators := sampleValidators }
      else .error "rpc error: height must not be greater than the current height"
    GetBlockByHeight := fun req =>
      if req.Height < 10 then
        .ok { Block := some { Header := sampleTmHeader req.Height, value := [] },
              SdkBlock := none }
      else if req.Height < 100 then
        .ok { Block := some { Header := sampleTmHeader req.Height, value := [] },
              SdkBlock := some { Header := sampleSdkHeader req.Height, value := [] } }
      else .error "rpc error: height must not be greater than the current height" }

/-- Sample client whose successful response has neither block. -/
def emptyBlockClient : ConsensusServiceClient :=
  { GetValidatorSetByHeight := fun _ => .error "rpc error: not implemented"
    GetBlockByHeight := fun _ => .ok { Block := none, SdkBlock := none } }

end e2e

/-! ## 27-interchain-accounts, host submodule: parameter constructors -/

namespace host

/-- Modelled from the spec: `types.NewParams` (host/types/params.go is not among the
sources) builds the parameter set from its two fields; a nil allow list is the empty
list. -/
def NewParams (enableHost : Bool) (allowMsgs : List String) : Params :=
  { HostEnabled := enableHost, AllowMessages := allowMsgs }

/-- Modelled from the spec: `types.DefaultHostEnabled` (host/types/params.go is not among
the sources). -/
def DefaultHostEnabled : Bool := true

/-- Modelled from the spec: `types.AllowAllHostMsgs` (host/types/params.go is not among the
sources), the wildcard entry of the default allow list. -/
def AllowAllHostMsgs : String := "*"

/-- Modelled from the spec: `types.DefaultParams` (host/types/params.go is not among the
sources): the host is enabled and every message is allowed. -/
def DefaultParams : Params := NewParams DefaultHostEnabled [AllowAllHostMsgs]

end host

/-! ## transfer: validation of the packet data -/

namespace transfer

/-- Modelled from the spec: the message `types.FungibleTokenPacketData` (transfer/types is
not among the sources but for its tests). -/
structure FungibleTokenPacketData where
  Denom : String
  Amount : String
  Sender : String
  Receiver : String
  Memo : String
  deriving DecidableEq, Repr

/-- Modelled from the spec: `types.NewFungibleTokenPacketData` (transfer/types/packet.go is
not among the sources). -/
def NewFungibleTokenPacketData (denom amount sender receiver memo : String) :
    FungibleTokenPacketData :=
  { Denom := denom, Amount := amount, Sender := sender, Receiver := receiver, Memo := memo }

/-- The value of a string of decimal digits, read after the value `acc`; `none` when a
character is not a digit. -/
def parseDigits : List Char → Nat → Option Nat
  | [], acc => some acc
  | c :: cs, acc =>
    if '0' ≤ c ∧ c ≤ '9' then parseDigits cs (acc * 10 + (c.toNat - '0'.toNat)) else none

/-- The integer written by a string: an optional sign followed by at least one decimal
digit, as the amounts of the packet data are written. -/
def parseInteger (s : String) : Option Int :=
  match s.data with
  | [] => none
  | '-' :: ds => if ds = [] then none else (parseDigits ds 0).map (fun n => -(n : Int))
  | '+' :: ds => if ds = [] then none else (parseDigits ds 0).map (fun n => (n : Int))
  | ds => (parseDigits ds 0).map (fun n => (n : Int))

/-- Modelled from the spec: `sdk.NewIntFromString`, the parser of amounts: the string has
to write an integer, and the integer has to fit in 256 bits. -/
def NewIntFromString (s : String) : Option Int :=
  match parseInteger s with
  | none => none
  | some i => if i.natAbs ≥ 2 ^ 256 then none else some i

/-- The errors of `FungibleTokenPacketData.ValidateBasic`. -/
inductive PacketError where
  | ErrInvalidAmount (description : String)
  | ErrInvalidAddress (description : String)
  | ErrInvalidDenomForTransfer (description : String)
  deriving DecidableEq, Repr

/-- Modelled from the spec: `types.ValidatePrefixedDenom` (transfer/types/trace.go is not
among the sources), the validity check of a denomination; it rejects the empty
denomination. -/
structure DenomValidator where
  ValidatePrefixedDenom : String → Option PacketError
  empty_invalid : ValidatePrefixedDenom "" ≠ none

/-- Modelled from the spec: `FungibleTokenPacketData.ValidateBasic` (transfer/types/packet.go
is not among the sources; its test is): the amount has to parse and to be strictly
positive, the sender and the receiver must not be blank, and the denomination has to be
valid; the memo is not looked at. -/
def FungibleTokenPacketData.ValidateBasic (v : DenomValidator) (ftpd : FungibleTokenPacketData) :
    Option PacketError :=
  match NewIntFromString ftpd.Amount with
  | none =>
    some (.ErrInvalidAmount
      ("unable to parse transfer amount (" ++ ftpd.Amount ++ ") into math.Int"))
  | some amount =>
    if ¬ 0 < amount then
      some (.ErrInvalidAmount ("amount must be strictly positive: got " ++ formatInt amount))
    else if host.isBlank ftpd.Sender then
      some (.ErrInvalidAddress "sender address cannot be blank")
    else if host.isBlank ftpd.Receiver then
      some (.ErrInvalidAddress "receiver address cannot be blank")
    else v.ValidatePrefixedDenom ftpd.Denom

/-- Sample denomination check: a denomination is valid when it is not blank. -/
def sampleDenomValidator : DenomValidator :=
  { ValidatePrefixedDenom := fun denom =>
      if host.isBlank denom then
        some (.ErrInvalidDenomForTransfer "base denomination cannot be blank")
      else none
    empty_invalid := by decide }

end transfer

/-! ## transfer: the total escrow of each denomination -/

namespace KVStore

/-- The method `KVStore.Delete`. -/
def Delete (store : KVStore) (key : Bytes) : KVStore := store.erase key

end KVStore

namespace transfer

/-- Modelled from the spec: the type `sdk.Coin`, a denomination with an amount.
Denominations are taken to be well formed; their check by the SDK is not modelled. -/
structure Coin where
  Denom : GoString
  Amount : Int
  deriving DecidableEq, Repr

/-- Modelled from the spec: `sdk.NewCoin`, which panics for a negative amount, as
`TestSetGetTotalEscrowForDenom` requires. -/
def NewCoin (denom : GoString) (amount : Int) : Except String Coin :=
  if amount < 0 then .error ("negative coin amount: " ++ formatInt amount)
  else .ok { Denom := denom, Amount := amount }

/-- Modelled from the spec: `types.KeyTotalEscrowPrefix` (transfer/types/keys.go is not
among the sources), the bytes of the string "totalEscrowForDenom". -/
def KeyTotalEscrowPrefix : Bytes :=
  [116, 111, 116, 97, 108, 69, 115, 99, 114, 111, 119, 70, 111, 114, 68, 101, 110, 111, 109]

/-- Modelled from the spec: `types.TotalEscrowForDenomKey` (transfer/types/keys.go is not
among the sources): the prefix, "/" and the denomination. -/
def TotalEscrowForDenomKey (denom : GoString) : Bytes :=
  KeyTotalEscrowPrefix ++ [0x2f] ++ denom

/-- The methods of the codec that the keeper calls on the amount (`sdk.IntProto`); an
`Except.error` is an error of the codec. -/
structure IntProtoCodec where
  Marshal : Int → Except String Bytes
  Unmarshal : Bytes → Except String Int

/-- Modelled from the spec: `Keeper.SetTotalEscrowForDenom` (the keeper of this version is
not among the sources; its test is): writes the marshalled amount under the key of the
denomination, removes the key for a zero amount, and panics for a negative amount. -/
def SetTotalEscrowForDenom (cdc : IntProtoCodec) (ctx : KVStore) (coin : Coin) :
    Except String KVStore :=
  if coin.Amount < 0 then .error ("amount cannot be negative: " ++ formatInt coin.Amount)
  else if coin.Amount = 0 then .ok (ctx.Delete (TotalEscrowForDenomKey coin.Denom))
  else
    match cdc.Marshal coin.Amount with
    | .error msg => .error msg
    | .ok bz => .ok (ctx.Set (TotalEscrowForDenomKey coin.Denom) bz)

/-- Modelled from the spec: `Keeper.GetTotalEscrowForDenom` (the keeper of this version is
not among the sources; its test is): the coin of the stored amount, and the zero coin when
nothing is stored under the key of the denomination. -/
def GetTotalEscrowForDenom (cdc : IntProtoCodec) (ctx : KVStore) (denom : GoString) :
    Except String Coin :=
  match ctx.Get (TotalEscrowForDenomKey denom) with
  | none => NewCoin denom 0
  | some bz =>
    if bz.length = 0 then NewCoin denom 0
    else
      match cdc.Unmarshal bz with
      | .error msg => .error msg
      | .ok amount => NewCoin denom amount

/-- The function `strings.TrimPrefix`. -/
def TrimPrefix (s pfx : GoString) : GoString :=
  if pfx.isPrefixOf s then s.drop pfx.length else s

/-- The loop of `Keeper.IterateTokensInEscrow` over the pairs the iterator still has to
visit: an entry with an empty denomination or with a value that is not an amount is
skipped; the callback `cb` updates the variables it captures and returns true to stop. -/
def iterateTokensLoop {σ : Type} (cdc : IntProtoCodec) (cb : σ → Coin → σ × Bool) :
    List (Bytes × Bytes) → σ → σ
  | [], captured => captured
  | entry :: rest, captured =>
    let denom := TrimPrefix entry.1 (KeyTotalEscrowPrefix ++ [0x2f])
    if denom = [] then iterateTokensLoop cdc cb rest captured
    else
      match cdc.Unmarshal entry.2 with
      | .error _ => iterateTokensLoop cdc cb rest captured
      | .ok amount =>
        if (cb captured { Denom := denom, Amount := amount }).2 then
          (cb captured { Denom := denom, Amount := amount }).1
        else
          iterateTokensLoop cdc cb rest (cb captured { Denom := denom, Amount := amount }).1

/-- Modelled from the spec: `Keeper.IterateTokensInEscrow` (the keeper of this version is
not among the sources): visits the entries whose key starts with `storeprefix`. -/
def IterateTokensInEscrow {σ : Type} (cdc : IntProtoCodec) (ctx : KVStore)
    ( storeprefix : Bytes)
    (cb : σ → Coin → σ × Bool) (captured : σ) : σ :=
  iterateTokensLoop cdc cb (ctx.PrefixIterator storeprefix) captured

/-- Modelled from the spec: `Keeper.GetAllTotalEscrowed` (the keeper of this version is not
among the sources; its test is): the coins of all the entries stored under the keys of
`TotalEscrowForDenomKey`. -/
def GetAllTotalEscrowed (cdc : IntProtoCodec) (ctx : KVStore) : List Coin :=
  IterateTokensInEscrow cdc ctx (TotalEscrowForDenomKey [])
    (fun (escrows : List Coin) denomEscrow => (escrows ++ [denomEscrow], false)) []

/-- The bytes of the decimal digits of `n`. -/
def decimalBytes (n : Nat) : Bytes := (formatUint n).data.map (fun c => byte c.toNat)

/-- The number written by the bytes of decimal digits, read after the value `acc`. -/
def parseDecimalBytes : Bytes → Nat → Option Nat
  | [], acc => some acc
  | b :: bs, acc =>
    if 48 ≤ b.val ∧ b.val ≤ 57 then parseDecimalBytes bs (acc * 10 + (b.val - 48)) else none

/-- Sample codec for amounts: a non-negative amount is written in decimal digits. -/
def sampleIntCodec : IntProtoCodec :=
  { Marshal := fun a =>
      if a < 0 then .error "negative amount" else .ok (decimalBytes a.toNat)
    Unmarshal := fun bz =>
      match bz with
      | [] => .error "empty amount"
      | _ =>
        match parseDecimalBytes bz 0 with
        | none => .error "not an integer"
        | some n => .ok (n : Int) }

/-- The bytes of "uatom". -/
def uatom : GoString := [117, 97, 116, 111, 109]

/-- The bytes of "ibc/123-456". -/
def ibcDenom : GoString := [105, 98, 99, 47, 49, 50, 51, 45, 52, 53, 54]

/-- Sample store of the escrow test: the totals of "uatom" and "ibc/123-456", an entry for
the empty denomination and an entry under the key "wrong-prefix/uatom". -/
def escrowStore : KVStore :=
  ((((∅ : KVStore).Set (TotalEscrowForDenomKey uatom) (decimalBytes 100)).Set
    (TotalEscrowForDenomKey ibcDenom) (decimalBytes 50)).Set
    (TotalEscrowForDenomKey []) (decimalBytes 7)).Set
    ([119, 114, 111, 110, 103, 45, 112, 114, 101, 102, 105, 120, 47] ++ uatom) (decimalBytes 9)

end transfer

namespace transfer

/-- The coin that an entry of the store contributes to `GetAllTotalEscrowed`: none for an
empty denomination or for a value that is not an amount. -/
def escrowCoin (cdc : IntProtoCodec) (entry : Bytes × Bytes) : Option Coin :=
  if TrimPrefix entry.1 (KeyTotalEscrowPrefix ++ [0x2f]) = [] then none
  else
    match cdc.Unmarshal entry.2 with
    | .error _ => none
    | .ok amount =>
      some { Denom := TrimPrefix entry.1 (KeyTotalEscrowPrefix ++ [0x2f]), Amount := amount }

end transfer

/-! ## 02-client: packing client values into `Any` -/

namespace client

/-- Modelled from the spec: a non-nil `exported.ConsensusState` (solo machine or
tendermint): its client type, its timestamp and the encoding of its other fields. -/
structure ConsensusState where
  ClientType : String
  Timestamp : Nat
  value : Bytes
  deriving DecidableEq, Repr

/-- A non-nil `proto.Message`: a client state, a consensus state, a client message, or a
message of another type. -/
inductive ProtoMessage where
  | clientState (cs : ClientState)
  | consensusState (cs : ConsensusState)
  | clientMessage (msg : ClientMessage)
  | other (typeURL : String)
  deriving DecidableEq, Repr

/-- The type `codectypes.Any`: the type URL, the encoded value and the cached value. -/
structure Any where
  TypeUrl : String
  Value : Bytes
  cachedValue : Option ProtoMessage
  deriving DecidableEq, Repr

/-- The functions `proto.Marshal` and `proto.MessageName` on the messages; the generated
`Marshal` methods of the client types do not fail. -/
structure ProtoMarshaler where
  Marshal : ProtoMessage → Bytes
  MessageName : ProtoMessage → String

/-- The errors of the pack and unpack functions. -/
inductive CodecError where
  | ErrPackAny (description : String)
  | ErrUnpackAny (description : String)
  deriving DecidableEq, Repr

/-- The description of a codec error. -/
def CodecError.description : CodecError → String
  | .ErrPackAny d => d
  | .ErrUnpackAny d => d

/-- Modelled from the spec: `codectypes.NewAnyWithValue` of the SDK: a nil value is an
error; otherwise the `Any` holds the type URL, the encoding and the value itself as its
cached value. -/
def NewAnyWithValue (pm : ProtoMarshaler) (v : Option ProtoMessage) :
    Option Any × Option CodecError :=
  match v with
  | none => (none, some (.ErrPackAny "Expecting non nil value to create a new Any"))
  | some msg =>
    (some { TypeUrl := "/" ++ pm.MessageName msg, Value := pm.Marshal msg,
            cachedValue := some msg }, none)

/-- Modelled from the spec: `types.PackClientState` (02-client/types/codec.go is not among
the sources; its test is): a nil client state is an error; otherwise the state is packed
by `NewAnyWithValue`. -/
def PackClientState (pm : ProtoMarshaler) (clientState : Option ClientState) :
    Option Any × Option CodecError :=
  match clientState with
  | none => (none, some (.ErrPackAny "cannot proto marshal <nil>"))
  | some cs =>
    match NewAnyWithValue pm (some (.clientState cs)) with
    | (_, some err) => (none, some (.ErrPackAny err.description))
    | (anyClientState, none) => (anyClientState, none)

/-- Modelled from the spec: `types.UnpackClientState` (02-client/types/codec.go is not
among the sources; its test is): a nil `Any` is an error; otherwise the cached value is
returned when it is a client state. -/
def UnpackClientState (any : Option Any) : Option ClientState × Option CodecError :=
  match any with
  | none => (none, some (.ErrUnpackAny "protobuf Any message cannot be nil"))
  | some a =>
    match a.cachedValue with
    | some (.clientState cs) => (some cs, none)
    | _ => (none, some (.ErrUnpackAny ("cannot unpack Any into ClientState " ++ a.TypeUrl)))

/-- Modelled from the spec: `types.PackConsensusState` (02-client/types/codec.go is not
among the sources; its test is). -/
def PackConsensusState (pm : ProtoMarshaler) (consensusState : Option ConsensusState) :
    Option Any × Option CodecError :=
  match consensusState with
  | none => (none, some (.ErrPackAny "cannot proto marshal <nil>"))
  | some cs =>
    match NewAnyWithValue pm (some (.consensusState cs)) with
    | (_, some err) => (none, some (.ErrPackAny err.description))
    | (anyConsensusState, none) => (anyConsensusState, none)

/-- Modelled from the spec: `types.UnpackConsensusState` (02-client/types/codec.go is not
among the sources; its test is). -/
def UnpackConsensusState (any : Option Any) : Option ConsensusState × Option CodecError :=
  match any with
  | none => (none, some (.ErrUnpackAny "protobuf Any message cannot be nil"))
  | some a =>
    match a.cachedValue with
    | some (.consensusState cs) => (some cs, none)
    | _ => (none, some (.ErrUnpackAny ("cannot unpack Any into ConsensusState " ++ a.TypeUrl)))

/-- Modelled from the spec: `types.PackClientMessage` (02-client/types/codec.go is not
among the sources; its test is). -/
def PackClientMessage (pm : ProtoMarshaler) (clientMessage : Option ClientMessage) :
    Option Any × Option CodecError :=
  match clientMessage with
  | none => (none, some (.ErrPackAny "cannot proto marshal <nil>"))
  | some msg =>
    match NewAnyWithValue pm (some (.clientMessage msg)) with
    | (_, some err) => (none, some (.ErrPackAny err.description))
    | (anyClientMessage, none) => (anyClientMessage, none)

/-- Modelled from the spec: `types.UnpackClientMessage` (02-client/types/codec.go is not
among the sources; its test is). -/
def UnpackClientMessage (any : Option Any) : Option ClientMessage × Option CodecError :=
  match any with
  | none => (none, some (.ErrUnpackAny "protobuf Any message cannot be nil"))
  | some a =>
    match a.cachedValue with
    | some (.clientMessage msg) => (some msg, none)
    | _ => (none, some (.ErrUnpackAny ("cannot unpack Any into ClientMessage " ++ a.TypeUrl)))

/-- Sample marshaler: a message is encoded by its stored bytes and named by its type. -/
def sampleMarshaler : ProtoMarshaler :=
  { Marshal := fun m =>
      match m with
      | .clientState _ => [1]
      | .consensusState cs => cs.value
      | .clientMessage msg => msg.value
      | .other _ => []
    MessageName := fun m =>
      match m with
      | .clientState cs => "ibc.lightclients." ++ cs.ClientType ++ ".ClientState"
      | .consensusState cs => "ibc.lightclients." ++ cs.ClientType ++ ".ConsensusState"
      | .clientMessage msg => msg.typeURL
      | .other typeURL => typeURL }

end client

/-! ## core: the IBC keeper -/

namespace core

/-- The value of a field of a keeper struct. -/
inductive FieldValue where
  | str (s : String)
  | num (n : Int)
  | pointer (target : Option Nat)
  deriving DecidableEq, Repr

/-- The method `reflect.Value.IsZero` on a field: the empty string, zero, the nil
pointer. -/
def FieldValue.IsZero : FieldValue → Bool
  | .str s => decide (s = "")
  | .num n => decide (n = 0)
  | .pointer target => target.isNone

/-- A struct value: the name of its type and the values of its fields. -/
structure StructValue where
  typeName : String
  fields : List FieldValue
  deriving DecidableEq, Repr

/-- The method `reflect.Value.IsZero` on a struct: every field is zero. -/
def StructValue.IsZero (s : StructValue) : Bool := s.fields.all FieldValue.IsZero

/-- A non-nil value of a keeper interface (`clienttypes.StakingKeeper`,
`clienttypes.UpgradeKeeper`): a struct, or a pointer to a struct. -/
inductive KeeperInterface where
  | value (s : StructValue)
  | pointer (s : StructValue)
  deriving DecidableEq, Repr

/-- Modelled from the spec: the function `isEmpty` of core/keeper/keeper.go (not among the
sources): the keeper is an empty struct or a pointer to an empty struct. -/
def isEmpty : KeeperInterface → Bool
  | .pointer s => s.IsZero
  | .value s => s.IsZero

/-- The IBC keeper, as far as its constructor's checks are concerned: the keepers it was
given. -/
structure Keeper where
  stakingKeeper : KeeperInterface
  upgradeKeeper : KeeperInterface
  scopedKeeper : StructValue
  deriving DecidableEq, Repr

/-- Modelled from the spec: `ibckeeper.NewKeeper` (core/keeper/keeper.go is not among the
sources; its test is): panics if any of the keepers passed in is empty. -/
def NewKeeper (stakingKeeper upgradeKeeper : KeeperInterface) (scopedKeeper : StructValue) :
    Except String Keeper :=
  if isEmpty stakingKeeper then .error "cannot initialize IBC keeper: empty staking keeper"
  else if isEmpty upgradeKeeper then .error "cannot initialize IBC keeper: empty upgrade keeper"
  else if scopedKeeper.IsZero then .error "cannot initialize IBC keeper: empty scoped keeper"
  else .ok { stakingKeeper := stakingKeeper, upgradeKeeper := upgradeKeeper,
             scopedKeeper := scopedKeeper }

/-- The test's type `MockStakingKeeper`, a struct with the one field `mockField`. -/
def MockStakingKeeper (mockField : String) : KeeperInterface :=
  .value { typeName := "MockStakingKeeper", fields := [.str mockField] }

/-- Sample non-empty staking keeper of the application. -/
def appStakingKeeper : KeeperInterface :=
  .pointer { typeName := "stakingkeeper.Keeper", fields := [.pointer (some 1), .str "gov"] }

/-- Sample non-empty upgrade keeper of the application. -/
def appUpgradeKeeper : KeeperInterface :=
  .pointer { typeName := "upgradekeeper.Keeper", fields := [.str "/tmp", .pointer (some 2)] }

/-- Sample non-empty scoped keeper of the application. -/
def appScopedKeeper : StructValue :=
  { typeName := "capabilitykeeper.ScopedKeeper", fields := [.pointer (some 3), .str "ibc"] }

end core

namespace core

/-- The zero value `stakingkeeper.Keeper{}`. -/
def emptyStakingKeeper : StructValue :=
  { typeName := "stakingkeeper.Keeper", fields := [.pointer none, .str ""] }

/-- The zero value `upgradekeeper.Keeper{}`. -/
def emptyUpgradeKeeper : StructValue :=
  { typeName := "upgradekeeper.Keeper", fields := [.str "", .pointer none] }

/-- The zero value `capabilitykeeper.ScopedKeeper{}`. -/
def emptyScopedKeeper : StructValue :=
  { typeName := "capabilitykeeper.ScopedKeeper", fields := [.pointer none, .str ""] }

end core

/-! ## 27-interchain-accounts, host submodule: the registered accounts -/

namespace host

/-- Modelled from the spec: `icatypes.OwnerKeyPrefix` (27-interchain-accounts/types is not
among the sources), the bytes of the string "owner". -/
def OwnerKeyPrefix : Bytes := [111, 119, 110, 101, 114]

/-- Modelled from the spec: `icatypes.KeyOwnerAccount` (27-interchain-accounts/types is
not among the sources): the path `owner/{portID}/{connectionID}`. -/
def KeyOwnerAccount (portID connectionID : GoString) : Bytes :=
  OwnerKeyPrefix ++ [0x2f] ++ portID ++ [0x2f] ++ connectionID

/-- Modelled from the spec: the message `genesistypes.RegisteredInterchainAccount`
(27-interchain-accounts/genesis is not among the sources). -/
structure RegisteredInterchainAccount where
  ConnectionId : GoString
  PortId : GoString
  AccountAddress : GoString
  deriving DecidableEq, Repr

/-- The function `strings.Split` with a separator of one byte. -/
def Split : GoString → Byte → List GoString
  | [], _ => [[]]
  | b :: rest, sep =>
    if b = sep then [] :: Split rest sep
    else
      match Split rest sep with
      | [] => [[b]]
      | piece :: pieces => (b :: piece) :: pieces

/-- Modelled from the spec: `Keeper.SetInterchainAccountAddress` (host keeper.go is not
among the sources; its test is): stores the address under the key of the port and the
connection. -/
def SetInterchainAccountAddress (ctx : KVStore) (connectionID portID address : GoString) :
    KVStore :=
  ctx.Set (KeyOwnerAccount portID connectionID) address

/-- Modelled from the spec: `Keeper.GetInterchainAccountAddress` (host keeper.go is not
among the sources; its test is): the stored address and true, or the empty string and
false when nothing is stored for the port and the connection. -/
def GetInterchainAccountAddress (ctx : KVStore) (connectionID portID : GoString) :
    GoString × Bool :=
  let key := KeyOwnerAccount portID connectionID
  if !ctx.Has key then ([], false)
  else
    match ctx.Get key with
    | none => ([], true)
    | some bz => (bz, true)

/-- The loop of `Keeper.GetAllInterchainAccounts` over the pairs the iterator still has to
visit; `Except.error` is the index-out-of-range panic of `keySplit[2]` or `keySplit[1]`. -/
def getAllInterchainAccountsLoop :
    List (Bytes × Bytes) → List RegisteredInterchainAccount →
      Except String (List RegisteredInterchainAccount)
  | [], interchainAccounts => .ok interchainAccounts
  | entry :: rest, interchainAccounts =>
    let keySplit := Split entry.1 0x2f
    match keySplit[2]?, keySplit[1]? with
    | some connectionId, some portId =>
      getAllInterchainAccountsLoop rest
        (interchainAccounts ++
          [{ ConnectionId := connectionId, PortId := portId, AccountAddress := entry.2 }])
    | _, _ =>
      .error ("runtime error: index out of range with length " ++ formatUint keySplit.length)

/-- Modelled from the spec: `Keeper.GetAllInterchainAccounts` (host keeper.go is not among
the sources; its test is): one account for each entry under the owner prefix, its port
and its connection read from the key. -/
def GetAllInterchainAccounts (ctx : KVStore) :
    Except String (List RegisteredInterchainAccount) :=
  getAllInterchainAccountsLoop (ctx.PrefixIterator OwnerKeyPrefix) []

/-- An identifier of a port or of a connection: it has no "/". -/
def isIdentifier (id : GoString) : Prop := (0x2f : Byte) ∉ id

instance instDecidableIsIdentifier (id : GoString) : Decidable (isIdentifier id) :=
  inferInstanceAs (Decidable ((0x2f : Byte) ∉ id))

/-- The store holds, under the owner prefix, only accounts registered for a port and a
connection. -/
def ownerKeysRegistered (ctx : KVStore) : Prop :=
  ∀ key, OwnerKeyPrefix.isPrefixOf key = true → ctx.Get key ≠ none →
    ∃ portID connectionID, isIdentifier portID ∧ isIdentifier connectionID ∧
      key = KeyOwnerAccount portID connectionID

/-- The bytes of "connection-0". -/
def connection0 : GoString := [99, 111, 110, 110, 101, 99, 116, 105, 111, 110, 45, 48]

/-- The bytes of "test-port". -/
def testPort : GoString := [116, 101, 115, 116, 45, 112, 111, 114, 116]

/-- The bytes of "test-acc-addr". -/
def testAccAddr : GoString := [116, 101, 115, 116, 45, 97, 99, 99, 45, 97, 100, 100, 114]

/-- The bytes of "icacontroller-alice". -/
def alicePort : GoString :=
  [105, 99, 97, 99, 111, 110, 116, 114, 111, 108, 108, 101, 114, 45, 97, 108, 105, 99, 101]

/-- Sample store: the parameters and two accounts registered on "connection-0". -/
def accountStore : KVStore :=
  SetInterchainAccountAddress
    (SetInterchainAccountAddress ((∅ : KVStore).Set ParamsKey [1]) connection0 alicePort [7, 7])
    connection0 testPort testAccAddr

end host

namespace host

/-- The account the loop of `Keeper.GetAllInterchainAccounts` builds from one entry whose
key has at least three parts. -/
def accountOfEntry (entry : Bytes × Bytes) : RegisteredInterchainAccount :=
  { ConnectionId := (Split entry.1 0x2f).getD 2 []
    PortId := (Split entry.1 0x2f).getD 1 []
    AccountAddress := entry.2 }

end host

/-! ## 02-client: the governance proposal handler -/

namespace client

/-- Modelled from the spec: `types.ZeroHeight` (02-client/types/height.go is not among the
sources), the height of a client that is not frozen. -/
def ZeroHeight : Height := { RevisionNumber := 0, RevisionHeight := 0 }

/-- Modelled from the spec: `Height.IsZero` (02-client/types/height.go is not among the
sources). -/
def Height.IsZero (h : Height) : Bool := h.RevisionNumber = 0 && h.RevisionHeight = 0

/-- Modelled from the spec: the type `exported.Status` (core/exported is not among the
sources), the four statuses the spec lists. -/
inductive Status where
  | Active
  | Expired
  | Frozen
  | Unknown
  deriving DecidableEq, Repr

/-- Modelled from the spec: the trust level of a client state, a fraction such as 1/3. -/
structure Fraction where
  Numerator : Nat
  Denominator : Nat
  deriving DecidableEq, Repr

/-- Modelled from the spec: the tendermint client state `ibctm.ClientState`
(light-clients/07-tendermint is not among the sources), with the fields the spec lists
and the two flags the proposal handler test sets; durations are in nanoseconds. -/
structure TendermintClientState where
  ChainId : String
  TrustLevel : Fraction
  TrustingPeriod : Nat
  UnbondingPeriod : Nat
  MaxClockDrift : Nat
  FrozenHeight : Height
  LatestHeight : Height
  ProofSpecs : Bytes
  UpgradePath : List String
  AllowUpdateAfterExpiry : Bool
  AllowUpdateAfterMisbehaviour : Bool
  deriving DecidableEq, Repr

/-- The client type of the tendermint light client. -/
def Tendermint : String := "07-tendermint"

/-- The methods `ClientType` and `GetLatestHeight` of a tendermint client state. -/
def TendermintClientState.exported (cs : TendermintClientState) : ClientState :=
  { ClientType := Tendermint, GetLatestHeight := cs.LatestHeight }

/-- Modelled from the spec: the upgrade plan of an `UpgradeProposal` (the upgrade module
is not among the sources): its name and its height, an `int64`. -/
structure Plan where
  Name : String
  Height : Int
  deriving DecidableEq, Repr

/-- Modelled from the spec: the tendermint consensus state `ibctm.ConsensusState`
(light-clients/07-tendermint is not among the sources), the snapshot at a height: the
timestamp in nanoseconds, the commitment root and the hash of the next validator set. -/
structure TendermintConsensusState where
  Timestamp : Nat
  Root : Bytes
  NextValidatorsHash : Bytes
  deriving DecidableEq, Repr

/-- Modelled from the spec: the tendermint header `ibctm.Header` (light-clients/07-tendermint
is not among the sources): its height, its time in nanoseconds, its app hash, the hash of
its next validator set, the trusted height it is verified from, and its encoding, the
signatures included. -/
structure Header where
  Height : client.Height
  Time : Nat
  AppHash : Bytes
  NextValidatorsHash : Bytes
  TrustedHeight : client.Height
  value : Bytes
  deriving DecidableEq, Repr

/-- Modelled from the spec: the context of a transaction or of a proposal, that is the
block time in nanoseconds, the next client sequence, the client states under
`clients/{clientID}/clientState`, the consensus states under
`clients/{clientID}/consensusStates/{height}`, the scheduled upgrade with its upgraded
client state, and the event manager. -/
structure Context where
  BlockTime : Nat
  nextClientSequence : Nat
  clientStates : AList (fun _ : String => TendermintClientState)
  consensusStates : AList (fun _ : String × Height => TendermintConsensusState)
  upgrade : Option (Plan × TendermintClientState)
  em : EventManager
  deriving DecidableEq

/-- Modelled from the spec: `types.ClientUpdateProposal` (02-client/types/proposal.go is
not among the sources). -/
structure ClientUpdateProposal where
  Title : String
  Description : String
  SubjectClientId : String
  SubstituteClientId : String
  deriving DecidableEq, Repr

/-- Modelled from the spec: `types.UpgradeProposal` (02-client/types/proposal.go is not
among the sources); `UpgradedClientState` is `none` when the packed client state cannot
be unpacked. -/
structure UpgradeProposal where
  Title : String
  Description : String
  Plan : Plan
  UpgradedClientState : Option TendermintClientState
  deriving DecidableEq, Repr

/-- A non-nil `govtypes.Content`: one of the two client proposals, or a proposal of another
module, such as a `CommunityPoolSpendProposal`, given by the name of its type. -/
inductive Content where
  | clientUpdate (p : ClientUpdateProposal)
  | upgrade (p : UpgradeProposal)
  | other (typeName : String)
  deriving DecidableEq, Repr

/-- Modelled from the spec: the errors of the client lifecycle manager that the proposal
handler returns, with the error of an unrecognised content. -/
inductive ProposalError where
  | ErrClientNotFound (description : String)
  | ErrInvalidSubstitute (description : String)
  | ErrInvalidUpgradeProposal (description : String)
  | ErrUnknownRequest (description : String)
  | ErrUpgrade (description : String)
  deriving DecidableEq, Repr

/-- Modelled from the spec: the upgrade keeper the client keeper holds (the upgrade module
is not among the sources): scheduling a plan gives an error or not. -/
structure UpgradeKeeper where
  ScheduleUpgrade : Plan → Option String

/-- Modelled from the spec: the signature check of the light client verifier
(light-clients/07-tendermint is not among the sources): whether validators holding at
least the trust level of the voting power of the trusted validator set, the one the
trusted consensus state commits to, have validly signed the header. -/
structure Verifier where
  VerifyCommit : TendermintConsensusState → Header → Fraction → Bool

/-- Modelled from the spec: the client keeper (02-client/keeper/keeper.go is not among the
sources), as far as the client lifecycle and the proposal handler use it. -/
structure Keeper where
  cdc : BinaryCodec
  verifier : Verifier
  upgradeKeeper : UpgradeKeeper

/-- Modelled from the spec: `Keeper.GetClientState` (02-client/keeper/keeper.go is not
among the sources). -/
def Keeper.GetClientState (_k : Keeper) (ctx : Context) (clientID : String) :
    Option TendermintClientState :=
  ctx.clientStates.lookup clientID

/-- Modelled from the spec: `Keeper.GetClientConsensusState` (02-client/keeper/keeper.go
is not among the sources). -/
def Keeper.GetClientConsensusState (_k : Keeper) (ctx : Context) (clientID : String)
    (height : Height) : Option TendermintConsensusState :=
  ctx.consensusStates.lookup (clientID, height)

/-- Modelled from the spec: `ClientState.Status` of the tendermint light client
(light-clients/07-tendermint is not among the sources): Frozen when the frozen height is
set; otherwise Expired when `now − latestConsensusState.timestamp > trustingPeriod`, and
also when there is no consensus state at the latest height; otherwise Active. -/
def Keeper.GetClientStatus (k : Keeper) (ctx : Context) (clientState : TendermintClientState)
    (clientID : String) : Status :=
  if !clientState.FrozenHeight.IsZero then Status.Frozen
  else
    match k.GetClientConsensusState ctx clientID clientState.LatestHeight with
    | none => Status.Expired
    | some consState =>
      if (ctx.BlockTime : Int) - (consState.Timestamp : Int) > (clientState.TrustingPeriod : Int)
      then Status.Expired
      else Status.Active

/-- Modelled from the spec: the client parameters of the subject and of the substitute
match when the two client states differ at most in the chain identifier, the trusting
period, the latest height and the frozen height. -/
def IsMatchingClientState (subject substitute : TendermintClientState) : Bool :=
  decide
    ({ subject with
        ChainId := "", TrustingPeriod := 0, LatestHeight := ZeroHeight,
        FrozenHeight := ZeroHeight } =
      ({ substitute with
        ChainId := "", TrustingPeriod := 0, LatestHeight := ZeroHeight,
        FrozenHeight := ZeroHeight } : TendermintClientState))

/-- Modelled from the spec: `ClientState.CheckSubstituteAndUpdateState` of the tendermint
light client (light-clients/07-tendermint is not among the sources): fails unless the
client parameters match; copies the substitute's client state onto the subject, keeping
the subject's trust level, clears the frozen height, and copies the substitute's
consensus state at its latest height.  The trusting period is a field that may change:
the subject of `TestClientUpdateProposal_Succeeds` is created with a trusting period that
is too short and is Active after the substitution. -/
def CheckSubstituteAndUpdateState (k : Keeper) (ctx : Context) (subjectClientID : String)
    (subject : TendermintClientState) (substituteClientID : String)
    (substitute : TendermintClientState) : Option ProposalError × Context :=
  if !IsMatchingClientState subject substitute then
    (some (ProposalError.ErrInvalidSubstitute
      "subject client state does not match substitute client state"), ctx)
  else
    match k.GetClientConsensusState ctx substituteClientID substitute.LatestHeight with
    | none =>
      (some (ProposalError.ErrInvalidSubstitute
        "unable to retrieve latest consensus state for substitute client"), ctx)
    | some consensusState =>
      let updated : TendermintClientState :=
        { substitute with
          TrustLevel := subject.TrustLevel
          FrozenHeight := ZeroHeight }
      (none,
        { ctx with
          clientStates := ctx.clientStates.insert subjectClientID updated
          consensusStates :=
            ctx.consensusStates.insert (subjectClientID, substitute.LatestHeight)
              consensusState })

/-- Modelled from the spec: `Keeper.ClientUpdateProposal` (02-client/keeper/proposal.go is
not among the sources), the governance substitution: the subject and the substitute must
exist and the substitute must be Active; then the substitute is copied onto the subject
and the update-client-proposal event is emitted.  An error leaves the context as it
was. -/
def Keeper.ClientUpdateProposal (k : Keeper) (ctx : Context) (p : ClientUpdateProposal) :
    Option ProposalError × Context :=
  match k.GetClientState ctx p.SubjectClientId with
  | none =>
    (some (ProposalError.ErrClientNotFound ("subject client with ID " ++ p.SubjectClientId)),
      ctx)
  | some subjectClientState =>
    match k.GetClientState ctx p.SubstituteClientId with
    | none =>
      (some (ProposalError.ErrClientNotFound
        ("substitute client with ID " ++ p.SubstituteClientId)), ctx)
    | some substituteClientState =>
      if k.GetClientStatus ctx substituteClientState p.SubstituteClientId ≠ Status.Active then
        (some (ProposalError.ErrInvalidSubstitute "substitute client is not Active"), ctx)
      else
        match CheckSubstituteAndUpdateState k ctx p.SubjectClientId subjectClientState
            p.SubstituteClientId substituteClientState with
        | (some err, _) => (some err, ctx)
        | (none, ctx') =>
          (none,
            { ctx' with
              em := emitUpdateClientProposalEvent ctx'.em p.SubjectClientId
                substituteClientState.exported.ClientType })

/-- Modelled from the spec: `Keeper.HandleUpgradeProposal` (02-client/keeper/proposal.go
is not among the sources): the upgraded client state must unpack and the plan must be
scheduled by the upgrade keeper; then the plan and the client state are stored and the
upgrade-client-proposal event is emitted.  An error leaves the context as it was. -/
def Keeper.HandleUpgradeProposal (k : Keeper) (ctx : Context) (p : UpgradeProposal) :
    Option ProposalError × Context :=
  match p.UpgradedClientState with
  | none =>
    (some (ProposalError.ErrInvalidUpgradeProposal "could not unpack UpgradedClientState"), ctx)
  | some clientState =>
    match k.upgradeKeeper.ScheduleUpgrade p.Plan with
    | some err => (some (ProposalError.ErrUpgrade err), ctx)
    | none =>
      (none,
        { ctx with
          upgrade := some (p.Plan, clientState)
          em := emitUpgradeClientProposalEvent ctx.em p.Title p.Plan.Height })

/-- Modelled from the spec: `NewClientProposalHandler` (02-client/proposal_handler.go is
not among the sources; its test is): the handler dispatches on the type of the content;
a nil content (`none`) and a content of another type give an error. -/
def NewClientProposalHandler (k : Keeper) (ctx : Context) (content : Option Content) :
    Option ProposalError × Context :=
  match content with
  | some (Content.clientUpdate c) => k.ClientUpdateProposal ctx c
  | some (Content.upgrade c) => k.HandleUpgradeProposal ctx c
  | some (Content.other typeName) =>
    (some (ProposalError.ErrUnknownRequest
      ("unrecognized ibc proposal content type: " ++ typeName)), ctx)
  | none =>
    (some (ProposalError.ErrUnknownRequest "unrecognized ibc proposal content type: <nil>"),
      ctx)

/-- Sample keeper: the sample codec, a verifier that accepts the headers whose encoding
starts with the byte 1, and an upgrade keeper that schedules every plan. -/
def sampleKeeper : Keeper :=
  { cdc := sampleCodec
    verifier := { VerifyCommit := fun _ header _ => decide (header.value.head? = some 1) }
    upgradeKeeper := { ScheduleUpgrade := fun _ => none } }

/-- Sample tendermint client state of "testchain2" at height 1-5, not frozen, with a
trusting period of 30 seconds. -/
def sampleClientState : TendermintClientState :=
  { ChainId := "testchain2"
    TrustLevel := { Numerator := 1, Denominator := 3 }
    TrustingPeriod := 30000000000
    UnbondingPeriod := 60000000000
    MaxClockDrift := 10000000000
    FrozenHeight := ZeroHeight
    LatestHeight := { RevisionNumber := 1, RevisionHeight := 5 }
    ProofSpecs := []
    UpgradePath := ["upgrade", "upgradedIBCState"]
    AllowUpdateAfterExpiry := false
    AllowUpdateAfterMisbehaviour := true }

/-- Sample context at time 100s: the subject "07-tendermint-0" is frozen at its latest
height 1-5; the substitute "07-tendermint-1", with the same parameters, was updated to
height 1-7 at time 90s. -/
def sampleContext : Context :=
  { BlockTime := 100000000000
    nextClientSequence := 2
    clientStates :=
      ((∅ : AList (fun _ : String => TendermintClientState)).insert "07-tendermint-0"
        { sampleClientState with FrozenHeight := sampleClientState.LatestHeight }).insert
        "07-tendermint-1"
        { sampleClientState with LatestHeight := { RevisionNumber := 1, RevisionHeight := 7 } }
    consensusStates :=
      ((∅ : AList (fun _ : String × Height => TendermintConsensusState)).insert
        ("07-tendermint-0", { RevisionNumber := 1, RevisionHeight := 5 })
        { Timestamp := 50000000000, Root := [5], NextValidatorsHash := [9] }).insert
        ("07-tendermint-1", { RevisionNumber := 1, RevisionHeight := 7 })
        { Timestamp := 90000000000, Root := [7], NextValidatorsHash := [9] }
    upgrade := none
    em := { events := [] } }

/-- Sample proposal: substitute "07-tendermint-1" for the subject "07-tendermint-0". -/
def sampleProposal : ClientUpdateProposal :=
  { Title := "title"
    Description := "description"
    SubjectClientId := "07-tendermint-0"
    SubstituteClientId := "07-tendermint-1" }

end client

/-! ## 02-client: the order of heights -/

namespace client

/-- Modelled from the spec: `Height.Compare` (02-client/types/height.go is not among the
sources): -1, 0 or 1, comparing first the revision numbers and, when they are equal, the
revision heights. -/
def Height.Compare (h other : Height) : Int :=
  if h.RevisionNumber ≠ other.RevisionNumber then
    if h.RevisionNumber < other.RevisionNumber then -1 else 1
  else if h.RevisionHeight < other.RevisionHeight then -1
  else if h.RevisionHeight = other.RevisionHeight then 0
  else 1

/-- Modelled from the spec: `Height.LT` (02-client/types/height.go is not among the
sources). -/
def Height.LT (h other : Height) : Bool := h.Compare other = -1

/-- Modelled from the spec: `Height.LTE` (02-client/types/height.go is not among the
sources). -/
def Height.LTE (h other : Height) : Bool := decide (h.Compare other ≤ 0)

/-- Modelled from the spec: `Height.GT` (02-client/types/height.go is not among the
sources). -/
def Height.GT (h other : Height) : Bool := h.Compare other = 1

/-- Modelled from the spec: `Height.GTE` (02-client/types/height.go is not among the
sources). -/
def Height.GTE (h other : Height) : Bool := decide (h.Compare other ≥ 0)

/-- Modelled from the spec: `Height.EQ` (02-client/types/height.go is not among the
sources). -/
def Height.EQ (h other : Height) : Bool := h.Compare other = 0

end client

/-! ## 02-client: the client lifecycle -/

namespace client

/-- Modelled from the spec: the errors of the client lifecycle manager and of the light
client verifier, from the spec's taxonomy. -/
inductive ClientError where
  | ErrClientNotFound (description : String)
  | ErrClientFrozen (description : String)
  | ErrClientExpired (description : String)
  | ErrInvalidHeader (description : String)
  | ErrInvalidClient (description : String)
  deriving DecidableEq, Repr

/-- Modelled from the spec: `types.FormatClientIdentifier` (02-client/types/keys.go is not
among the sources): the client ID `<clientType>-<sequence>`. -/
def FormatClientIdentifier (clientType : String) (sequence : Nat) : String :=
  clientType ++ "-" ++ formatUint sequence

/-- Modelled from the spec: `Keeper.CreateClient` (02-client/keeper/client.go is not among
the sources): fails if the trusting period is not below the unbonding period or the trust
level is outside (0, 1]; otherwise allocates the next sequence number, persists the
client state and the consensus state at its latest height, and emits the create-client
event.  An error leaves the context as it was. -/
def Keeper.CreateClient (_k : Keeper) (ctx : Context) (clientState : TendermintClientState)
    (consensusState : TendermintConsensusState) : Except ClientError String × Context :=
  if clientState.TrustingPeriod ≥ clientState.UnbondingPeriod then
    (.error (ClientError.ErrInvalidClient
      "trusting period should be less than the unbonding period"), ctx)
  else if clientState.TrustLevel.Numerator = 0 ∨
      clientState.TrustLevel.Numerator > clientState.TrustLevel.Denominator then
    (.error (ClientError.ErrInvalidClient "trust level must be within (0, 1]"), ctx)
  else
    let clientID := FormatClientIdentifier clientState.exported.ClientType ctx.nextClientSequence
    (.ok clientID,
      { ctx with
        nextClientSequence := ctx.nextClientSequence + 1
        clientStates := ctx.clientStates.insert clientID clientState
        consensusStates :=
          ctx.consensusStates.insert (clientID, clientState.LatestHeight) consensusState
        em := emitCreateClientEvent ctx.em clientID clientState.exported })

/-- Modelled from the spec: the consensus state derived from a header
(light-clients/07-tendermint is not among the sources). -/
def Header.ConsensusState (header : Header) : TendermintConsensusState :=
  { Timestamp := header.Time
    Root := header.AppHash
    NextValidatorsHash := header.NextValidatorsHash }

/-- Modelled from the spec: the client message of a header, as the events encode it. -/
def Header.ClientMessage (header : Header) : ClientMessage :=
  { typeURL := "/ibc.lightclients.tendermint.v1.Header", value := header.value }

/-- Modelled from the spec: `VerifyHeader` of the light client verifier
(light-clients/07-tendermint is not among the sources).  It rejects a header whose height
is not above the trusted height, unless the call is a misbehaviour check; a header whose
timestamp is not strictly greater than the trusted one or exceeds `now + maxClockDrift`;
a trusted state with `now − timestamp > trustingPeriod`; and a header that validators
holding the trust level of the trusted validator set have not validly signed.  On
success it returns the consensus state derived from the header. -/
def Verifier.VerifyHeader (v : Verifier) (now : Nat) (clientState : TendermintClientState)
    (trustedConsensusState : TendermintConsensusState) (header : Header)
    (misbehaviourCheck : Bool) : Except ClientError TendermintConsensusState :=
  if header.Height.LTE header.TrustedHeight && !misbehaviourCheck then
    .error (ClientError.ErrInvalidHeader "header height is not above the trusted height")
  else if header.Time ≤ trustedConsensusState.Timestamp then
    .error (ClientError.ErrInvalidHeader
      "header timestamp is not greater than the trusted timestamp")
  else if header.Time > now + clientState.MaxClockDrift then
    .error (ClientError.ErrInvalidHeader "header timestamp is too far in the future")
  else if (now : Int) - (trustedConsensusState.Timestamp : Int)
      > (clientState.TrustingPeriod : Int) then
    .error (ClientError.ErrClientExpired "trusted consensus state has expired")
  else if !v.VerifyCommit trustedConsensusState header clientState.TrustLevel then
    .error (ClientError.ErrInvalidHeader "invalid signatures")
  else .ok header.ConsensusState

/-- Modelled from the spec: `CheckMisbehaviour` for an update
(light-clients/07-tendermint is not among the sources): the verified header conflicts
with the consensus state already stored at its height when their commitment roots
differ. -/
def CheckMisbehaviour (existing : Option TendermintConsensusState) (header : Header) : Bool :=
  match existing with
  | none => false
  | some consensusState => decide (consensusState.Root ≠ header.AppHash)

/-- Modelled from the spec: `Keeper.UpdateClient` (02-client/keeper/client.go is not among
the sources): fails with `ClientNotFound` if the client is absent and with `ClientFrozen`
if its frozen height is set; delegates to the verifier, from the consensus state at the
header's trusted height; on a conflicting header it freezes the client at the
conflicting height instead of updating it, emits the misbehaviour event and succeeds;
a header at a height not above the latest height fails otherwise; else it stores the new
consensus state, advances the latest height and emits the update-client event.  An error
leaves the context as it was; `Except.error` is the panic of `emitUpdateClientEvent`. -/
def Keeper.UpdateClient (k : Keeper) (ctx : Context) (clientID : String) (header : Header) :
    Except String (Option ClientError × Context) :=
  match k.GetClientState ctx clientID with
  | none => .ok (some (ClientError.ErrClientNotFound clientID), ctx)
  | some clientState =>
    if !clientState.FrozenHeight.IsZero then
      .ok (some (ClientError.ErrClientFrozen clientID), ctx)
    else
      match k.GetClientConsensusState ctx clientID header.TrustedHeight with
      | none =>
        .ok (some (ClientError.ErrInvalidHeader
          "consensus state not found at the trusted height"), ctx)
      | some trustedConsensusState =>
        match k.verifier.VerifyHeader ctx.BlockTime clientState trustedConsensusState header
            false with
        | .error err => .ok (some err, ctx)
        | .ok consensusState =>
          if CheckMisbehaviour (k.GetClientConsensusState ctx clientID header.Height) header then
            let frozen : TendermintClientState :=
              { clientState with FrozenHeight := header.Height }
            .ok (none,
              { ctx with
                clientStates := ctx.clientStates.insert clientID frozen
                em := emitSubmitMisbehaviourEvent ctx.em clientID frozen.exported })
          else if header.Height.LTE clientState.LatestHeight then
            .ok (some (ClientError.ErrInvalidHeader
              "header height is not above the latest height"), ctx)
          else
            match emitUpdateClientEvent ctx.em clientID clientState.exported.ClientType
                [header.Height] k.cdc (some header.ClientMessage) with
            | .error msg => .error msg
            | .ok em =>
              .ok (none,
                { ctx with
                  clientStates :=
                    ctx.clientStates.insert clientID
                      { clientState with LatestHeight := header.Height }
                  consensusStates :=
                    ctx.consensusStates.insert (clientID, header.Height) consensusState
                  em := em })

/-- Modelled from the spec: `Keeper.GetClientStatus` by client ID, the query
`ClientStatus`; `none` when the client is absent. -/
def Keeper.Status (k : Keeper) (ctx : Context) (clientID : String) : Option Status :=
  (k.GetClientState ctx clientID).map (fun clientState =>
    k.GetClientStatus ctx clientState clientID)

/-- The context at a later block time, with the stored state as it is. -/
def Context.atTime (ctx : Context) (now : Nat) : Context := { ctx with BlockTime := now }

/-- Sample header for the subject-like client "07-tendermint-1" of the sample context: at
the latest height 1-7, trusted from 1-5, with another app hash than the one stored. -/
def conflictingHeader : Header :=
  { Height := { RevisionNumber := 1, RevisionHeight := 7 }
    Time := 90000000000
    AppHash := [66]
    NextValidatorsHash := [9]
    TrustedHeight := { RevisionNumber := 1, RevisionHeight := 5 }
    value := [1, 66] }

/-- Sample context at time 100s for the update: the client "07-tendermint-1" at height
1-7 with consensus states at 1-5 (time 80s) and 1-7 (time 90s). -/
def updateContext : Context :=
  { sampleContext with
    consensusStates :=
      sampleContext.consensusStates.insert
        ("07-tendermint-1", { RevisionNumber := 1, RevisionHeight := 5 })
        { Timestamp := 80000000000, Root := [5], NextValidatorsHash := [9] } }

end client

/-! ## e2e: the private keys of the validators of a chain -/

namespace e2e

/-- The function `strings.Contains`. -/
def Contains (s substr : GoString) : Bool :=
  s.tails.any (fun t => substr.isPrefixOf t)

/-- The upper-case hex digit of a value below 16. -/
def upperHexDigit (n : Nat) : Byte :=
  if n < 10 then byte (48 + n) else byte (55 + n)

/-- The method `HexBytes.String` of CometBFT, the type of `FilePVKey.Address`:
`strings.ToUpper(hex.EncodeToString(bz))`, two upper-case hex digits for each byte. -/
def HexBytesString : Bytes → GoString
  | [] => []
  | b :: rest => upperHexDigit (b.val / 16) :: upperHexDigit (b.val % 16) :: HexBytesString rest

/-- The character set of bech32 (BIP-173), "qpzry9x8gf2tvdw0s3jn54khce6mua7l": the character
of each value below 32. -/
def bech32Charset : List Byte :=
  [113, 112, 122, 114, 121, 57, 120, 56, 103, 102, 50, 116, 118, 100, 119, 48,
   115, 51, 106, 110, 53, 52, 107, 104, 99, 101, 54, 109, 117, 97, 55, 108]

/-- The groups that the conversion takes out of the accumulator while it holds at least
`toBits` bits; the loop runs at most `fuel` times. -/
def drainBits (toBits : Nat) : Nat → Nat → Nat → List Nat → Nat × List Nat
  | 0, _, bits, ret => (bits, ret)
  | fuel + 1, acc, bits, ret =>
    if bits ≥ toBits ∧ toBits > 0 then
      drainBits toBits fuel acc (bits - toBits)
        (ret ++ [(acc >>> (bits - toBits)) &&& (2 ^ toBits - 1)])
    else (bits, ret)

/-- The loop of the bech32 function `ConvertBits` over the values that are left, with the
accumulator, the number of bits in it and the groups so far. -/
def convertBitsLoop (fromBits toBits : Nat) : List Nat → Nat → Nat → List Nat → Nat × Nat × List Nat
  | [], acc, bits, ret => (acc, bits, ret)
  | value :: rest, acc, bits, ret =>
    let acc' := ((acc <<< fromBits) ||| value) &&& (2 ^ (fromBits + toBits - 1) - 1)
    let drained := drainBits toBits (fromBits + toBits) acc' (bits + fromBits) ret
    convertBitsLoop fromBits toBits rest acc' drained.1 drained.2

/-- The bech32 function `ConvertBits` with padding: regroups values of `fromBits` bits into
values of `toBits` bits, the last group filled with zero bits. -/
def ConvertBits (data : List Nat) (fromBits toBits : Nat) : List Nat :=
  let r := convertBitsLoop fromBits toBits data 0 0 []
  if r.2.1 > 0 then r.2.2 ++ [(r.1 <<< (toBits - r.2.1)) &&& (2 ^ toBits - 1)] else r.2.2

/-- The generator of the bech32 checksum. -/
def bech32Generator : List Nat := [0x3b6a57b2, 0x26508e6d, 0x1ea119fa, 0x3d4233dd, 0x2a1462b3]

/-- One step of `bech32Polymod`. -/
def bech32PolymodStep (chk v : Nat) : Nat :=
  let b := chk >>> 25
  let chk' := ((chk &&& 0x1ffffff) <<< 5) ^^^ v
  (List.range 5).foldl
    (fun c i => if (b >>> i) &&& 1 = 1 then c ^^^ bech32Generator.getD i 0 else c) chk'

/-- The function `bech32Polymod` of BIP-173. -/
def bech32Polymod (values : List Nat) : Nat := values.foldl bech32PolymodStep 1

/-- The function `bech32HrpExpand` of BIP-173. -/
def bech32HrpExpand (hrp : GoString) : List Nat :=
  hrp.map (fun c => c.val >>> 5) ++ [0] ++ hrp.map (fun c => c.val &&& 31)

/-- The function `bech32CreateChecksum` of BIP-173: six values below 32. -/
def bech32CreateChecksum (hrp : GoString) (data : List Nat) : List Nat :=
  let polymod := bech32Polymod (bech32HrpExpand hrp ++ data ++ [0, 0, 0, 0, 0, 0]) ^^^ 1
  (List.range 6).map (fun i => (polymod >>> (5 * (5 - i))) &&& 31)

/-- The function `bech32.Encode`: the prefix, the separator "1", and the characters of the
data and of the checksum. -/
def bech32Encode (hrp : GoString) (data : List Nat) : GoString :=
  hrp ++ [49] ++ (data ++ bech32CreateChecksum hrp data).map (fun v => bech32Charset.getD v 0)

/-- The method `sdk.ConsAddress.String` of the SDK, which fills `Validator.Address` in the
responses of the consensus service: the bech32 encoding of the address bytes under the
consensus address prefix of the chain (`bech32.ConvertAndEncode`). -/
def ConsAddressString (bech32PrefixConsAddr : GoString) (address : Bytes) : GoString :=
  bech32Encode bech32PrefixConsAddr (ConvertBits (address.map (fun b => b.val)) 8 5)

/-- The type `privval.FilePVKey` of CometBFT, the content of `priv_validator_key.json`. -/
structure FilePVKey where
  Address : Bytes
  PubKey : Bytes
  PrivKey : Bytes
  deriving DecidableEq, Repr

/-- The type `ibcmock.PV`, a `tmtypes.PrivValidator` holding an ed25519 private key. -/
structure PV where
  PrivKey : Bytes
  deriving DecidableEq, Repr

/-- A container of the test (`types.Container` of docker): its ID and its names. -/
structure Container where
  ID : GoString
  Names : List GoString
  deriving DecidableEq, Repr

/-- The configuration of a chain (`ibc.ChainConfig`), with the fields the function reads. -/
structure ChainConfig where
  Name : GoString
  ChainID : GoString
  deriving DecidableEq, Repr

/-- The docker client behind `dockerutil`, and `tmjson.Unmarshal` into a key file;
`Except.error` is the error a function returns. -/
structure DockerClient where
  GetTestContainers : Except String (List Container)
  GetFileContentsFromContainer : GoString → GoString → Except String Bytes
  Unmarshal : Bytes → Except String FilePVKey

/-- The path of the key file of a validator, as `extractChainPrivateKeys` formats it:
"/var/cosmos-chain/%s/config/priv_validator_key.json". -/
def validatorPrivKeyPath (chainName : GoString) : GoString :=
  [47, 118, 97, 114, 47, 99, 111, 115, 109, 111, 115, 45, 99, 104, 97, 105, 110, 47]
    ++ chainName ++
  [47, 99, 111, 110, 102, 105, 103, 47, 112, 114, 105, 118, 95, 118, 97, 108, 105, 100, 97,
   116, 111, 114, 95, 107, 101, 121, 46, 106, 115, 111, 110]

/-- The first loop of `extractChainPrivateKeys` over the containers that are left;
`Except.error` is the failure of `Require().NoError` or the panic of `Names[0]`. -/
def collectFilePVs (docker : DockerClient) (chain : ChainConfig) :
    List Container → List FilePVKey → Except String (List FilePVKey)
  | [], filePvs => .ok filePvs
  | container :: rest, filePvs =>
    match container.Names[0]? with
    | none => .error "runtime error: index out of range [0] with length 0"
    | some name =>
      let isNodeForDifferentChain := !Contains name chain.ChainID
      let isFullNode := Contains name (chain.ChainID ++ [45, 102, 110])
      if isNodeForDifferentChain || isFullNode then collectFilePVs docker chain rest filePvs
      else
        match docker.GetFileContentsFromContainer container.ID
            (validatorPrivKeyPath chain.Name) with
        | .error err => .error err
        | .ok privKeyFileContents =>
          match docker.Unmarshal privKeyFileContents with
          | .error err => .error err
          | .ok filePV => collectFilePVs docker chain rest (filePvs ++ [filePV])

/-- The key files of `extractChainPrivateKeys` after its sort: one per validator
container, sorted by `Address.String()`. -/
def sortedFilePVs (docker : DockerClient) (chain : ChainConfig) :
    Except String (List FilePVKey) :=
  match docker.GetTestContainers with
  | .error err => .error err
  | .ok testContainers =>
    match collectFilePVs docker chain testContainers [] with
    | .error err => .error err
    | .ok filePvs =>
      .ok (SliceStable filePvs (fun pi pj =>
        decide (HexBytesString pi.Address < HexBytesString pj.Address)))

/-- The method `ClientTestSuite.extractChainPrivateKeys`; `Except.error` is the failure of
the test in `Require().NoError` or a panic. -/
def extractChainPrivateKeys (docker : DockerClient) (chain : ChainConfig) :
    Except String (List PV) :=
  match sortedFilePVs docker chain with
  | .error err => .error err
  | .ok filePvs => .ok (filePvs.map (fun filePV => { PrivKey := filePV.PrivKey }))

end e2e

namespace e2e

/-- The bytes of "cosmosvalcons", the default consensus address prefix. -/
def cosmosvalcons : GoString := [99, 111, 115, 109, 111, 115, 118, 97, 108, 99, 111, 110, 115]

/-- Sample chain "chainB" with chain ID "chainB-1". -/
def chainB : ChainConfig :=
  { Name := [99, 104, 97, 105, 110, 66], ChainID := [99, 104, 97, 105, 110, 66, 45, 49] }

/-- Sample key file of the validator whose address is 00 followed by nineteen bytes 11. -/
def keyFile00 : FilePVKey :=
  { Address := byte 0x00 :: List.replicate 19 (byte 0x11), PubKey := [10], PrivKey := [1] }

/-- Sample key file of the validator whose address is 08 followed by nineteen bytes 11. -/
def keyFile08 : FilePVKey :=
  { Address := byte 0x08 :: List.replicate 19 (byte 0x11), PubKey := [20], PrivKey := [2] }

/-- Sample docker client: the validator containers "/chainB-1-val-0" and
"/chainB-1-val-1", the full node "/chainB-1-fn-0" and the validator "/chainA-1-val-0" of
another chain; the content of a key file is the ID of its container. -/
def sampleDocker : DockerClient :=
  { GetTestContainers :=
      .ok [ { ID := [0], Names := [[47, 99, 104, 97, 105, 110, 66, 45, 49, 45, 118, 97, 108, 45, 48]] },
            { ID := [1], Names := [[47, 99, 104, 97, 105, 110, 66, 45, 49, 45, 118, 97, 108, 45, 49]] },
            { ID := [2], Names := [[47, 99, 104, 97, 105, 110, 66, 45, 49, 45, 102, 110, 45, 48]] },
            { ID := [3], Names := [[47, 99, 104, 97, 105, 110, 65, 45, 49, 45, 118, 97, 108, 45, 48]] } ]
    GetFileContentsFromContainer := fun containerID _ => .ok containerID
    Unmarshal := fun contents =>
      if contents = [0] then .ok keyFile00
      else if contents = [1] then .ok keyFile08
      else .error "invalid character" }

/-- The validator of a key file in a response of the consensus service: its address is
the consensus address of the key's address. -/
def validatorOf (filePV : FilePVKey) (votingPower : Int) : Validator :=
  { Address := ConsAddressString cosmosvalcons filePV.Address
    PubKey := filePV.PubKey
    VotingPower := votingPower
    ProposerPriority := 0 }

/-- Sample consensus service of "chainB": its two validators, with voting powers 10 and
20. -/
def chainBClient : ConsensusServiceClient :=
  { GetValidatorSetByHeight := fun req =>
      .ok { BlockHeight := req.Height
            Validators := [validatorOf keyFile00 10, validatorOf keyFile08 20] }
    GetBlockByHeight := fun _ => .error "rpc error: not implemented" }

end e2e

namespace client

/-- Sample context at time 100s with no client. -/
def freshContext : Context :=
  { BlockTime := 100000000000
    nextClientSequence := 0
    clientStates := ∅
    consensusStates := ∅
    upgrade := none
    em := { events := [] } }

/-- Sample consensus state of time 100s, for the creation of a client. -/
def freshConsensusState : TendermintConsensusState :=
  { Timestamp := 100000000000, Root := [5], NextValidatorsHash := [9] }

/-- The context after the creation of a client with the sample client state, whose
trusting period is 30s, in the fresh context. -/
def createdContext : Context :=
  (sampleKeeper.CreateClient freshContext sampleClientState freshConsensusState).2

/-- Sample header of time 120s at height 1-6, trusted from the height 1-5 of creation. -/
def updateHeader : Header :=
  { Height := { RevisionNumber := 1, RevisionHeight := 6 }
    Time := 120000000000
    AppHash := [6]
    NextValidatorsHash := [9]
    TrustedHeight := { RevisionNumber := 1, RevisionHeight := 5 }
    value := [1, 6] }

/-- The context after the update of the created client with the sample header at time
120s. -/
def updatedContext : Context :=
  match sampleKeeper.UpdateClient (createdContext.atTime 120000000000) "07-tendermint-0"
      updateHeader with
  | .ok result => result.2
  | .error _ => createdContext

/-- Sample context as the sample context, but the substitute "07-tendermint-1" has another
unbonding period than the subject. -/
def mismatchContext : Context :=
  { sampleContext with
    clientStates :=
      sampleContext.clientStates.insert "07-tendermint-1"
        { sampleClientState with
          LatestHeight := { RevisionNumber := 1, RevisionHeight := 7 }
          UnbondingPeriod := 90000000000 } }

end client

end ibc

/-! ## Theorems -/

namespace ibc

namespace controller

theorem assertChannels_owned (k : Keeper) (chs : List IdentifiedChannel) (store : Store)
    (hown : ∀ ch ∈ chs, capabilityOwned k ch) (hhops : ∀ ch ∈ chs, ch.ConnectionHops ≠ []) :
    assertChannels k chs store = .ok (none, enableAll store chs) := by
  induction chs generalizing store with
  | nil => rfl
  | cons ch rest ih =>
    obtain ⟨capability, hget, hauth⟩ := hown ch (List.mem_cons_self _ _)
    have hne := hhops ch (List.mem_cons_self _ _)
    obtain ⟨hop, hops, hhop⟩ := List.exists_cons_of_ne_nil hne
    have ihr := ih (SetMiddlewareEnabled store ch.PortId hop)
      (fun c hc => hown c (List.mem_cons_of_mem _ hc))
      (fun c hc => hhops c (List.mem_cons_of_mem _ hc))
    simp only [assertChannels, hget, hauth, hhop, enableAll, List.foldl_cons, List.headD_cons]
    simpa [enableAll] using ihr

theorem assertChannels_first_failure (k : Keeper) (pre : List IdentifiedChannel)
    (ch : IdentifiedChannel) (post : List IdentifiedChannel) (store : Store)
    (hown : ∀ c ∈ pre, capabilityOwned k c) (hhops : ∀ c ∈ pre, c.ConnectionHops ≠ [])
    (hch : ¬ capabilityOwned k ch) :
    ∃ e, assertChannels k (pre ++ ch :: post) store = .ok (some e, enableAll store pre) ∧
      (k.scopedKeeper.GetCapability (ChannelCapabilityPath ch.PortId ch.ChannelId) = none →
        e = Wrapf .ErrCapabilityNotFound
          ("failed to find capability: " ++ ChannelCapabilityPath ch.PortId ch.ChannelId)) ∧
      (k.scopedKeeper.GetCapability (ChannelCapabilityPath ch.PortId ch.ChannelId) ≠ none →
        e = Wrapf .ErrCapabilityNotOwned ("expected capability owner: " ++ SubModuleName)) := by
  induction pre generalizing store with
  | nil =>
    cases hget : k.scopedKeeper.GetCapability (ChannelCapabilityPath ch.PortId ch.ChannelId) with
    | none =>
      refine ⟨_, ?_, fun _ => rfl, fun h => absurd rfl h⟩
      simp [assertChannels, hget, enableAll]
    | some capability =>
      have hauth : k.scopedKeeper.AuthenticateCapability capability
          (ChannelCapabilityPath ch.PortId ch.ChannelId) = false := by
        cases h : k.scopedKeeper.AuthenticateCapability capability
          (ChannelCapabilityPath ch.PortId ch.ChannelId) with
        | false => rfl
        | true => exact absurd ⟨capability, hget, h⟩ hch
      refine ⟨_, ?_, ?_, fun _ => rfl⟩
      · simp [assertChannels, hget, hauth, enableAll]
      · intro h
        cases h
  | cons c rest ih =>
    obtain ⟨capability, hget, hauth⟩ := hown c (List.mem_cons_self _ _)
    obtain ⟨hop, hops, hhop⟩ := List.exists_cons_of_ne_nil (hhops c (List.mem_cons_self _ _))
    obtain ⟨e, he, h1, h2⟩ := ih (SetMiddlewareEnabled store c.PortId hop)
      (fun x hx => hown x (List.mem_cons_of_mem _ hx))
      (fun x hx => hhops x (List.mem_cons_of_mem _ hx))
    refine ⟨e, ?_, h1, h2⟩
    simp only [List.cons_append, assertChannels, hget, hauth, hhop, enableAll, List.foldl_cons,
      List.headD_cons]
    simpa [enableAll] using he

theorem assertChannels_split (k : Keeper) (chs : List IdentifiedChannel) (store : Store)
    (e : WrappedError) (st : Store) (h : assertChannels k chs store = .ok (some e, st)) :
    ∃ pre ch post, chs = pre ++ ch :: post ∧ (∀ c ∈ pre, capabilityOwned k c) ∧
      (∀ c ∈ pre, c.ConnectionHops ≠ []) ∧ ¬ capabilityOwned k ch ∧ st = enableAll store pre := by
  induction chs generalizing store with
  | nil => simp [assertChannels] at h
  | cons c rest ih =>
    by_cases hc : capabilityOwned k c
    · obtain ⟨capability, hget, hauth⟩ := hc
      cases hhop : c.ConnectionHops with
      | nil => simp [assertChannels, hget, hauth, hhop] at h
      | cons hop hops =>
        simp only [assertChannels, hget, hauth, hhop] at h
        obtain ⟨pre, ch, post, hsplit, hown, hhops, hch, hst⟩ := ih _ (by simpa using h)
        refine ⟨c :: pre, ch, post, by simp [hsplit], ?_, ?_, hch, ?_⟩
        · intro x hx
          rcases List.mem_cons.mp hx with rfl | hx
          · exact ⟨capability, hget, hauth⟩
          · exact hown x hx
        · intro x hx
          rcases List.mem_cons.mp hx with rfl | hx
          · simp [hhop]
          · exact hhops x hx
        · simp [hst, enableAll, hhop]
    · obtain ⟨e', he', -, -⟩ := assertChannels_first_failure k [] c rest store
        (by simp) (by simp) hc
      simp only [List.nil_append] at he'
      rw [he'] at h
      refine ⟨[], c, rest, rfl, by simp, by simp, hc, ?_⟩
      simp only [Except.ok.injEq, Prod.mk.injEq] at h
      exact h.2.symm

theorem exists_first_not_owned (k : Keeper) (chs : List IdentifiedChannel)
    (h : ¬ ∀ ch ∈ chs, capabilityOwned k ch) :
    ∃ pre ch post, chs = pre ++ ch :: post ∧ (∀ c ∈ pre, capabilityOwned k c) ∧
      ¬ capabilityOwned k ch := by
  induction chs with
  | nil => simp at h
  | cons c rest ih =>
    by_cases hc : capabilityOwned k c
    · have hrest : ¬ ∀ ch ∈ rest, capabilityOwned k ch := by
        intro hall
        apply h
        intro x hx
        rcases List.mem_cons.mp hx with rfl | hx
        · exact hc
        · exact hall x hx
      obtain ⟨pre, ch, post, hsplit, hown, hch⟩ := ih hrest
      refine ⟨c :: pre, ch, post, by simp [hsplit], ?_, hch⟩
      intro x hx
      rcases List.mem_cons.mp hx with rfl | hx
      · exact hc
      · exact hown x hx
    · exact ⟨[], c, rest, rfl, by simp, hc⟩

/-- C1: with a non-nil keeper and channels that each have a connection hop,
`AssertChannelCapabilityMigrations` returns nil exactly when the capability of every
channel is found and authenticated; otherwise it returns the error of the first failing
channel in list order, wrapping `ErrCapabilityNotFound` when that capability is missing
and `ErrCapabilityNotOwned` when it is found but not authenticated. -/
theorem AssertChannelCapabilityMigrations_nil_iff_owned (k : Keeper) (store : Store)
    (hhops : ∀ ch ∈ k.channelKeeper.GetAllChannelsWithPortPrefix ControllerPortPrefix,
      ch.ConnectionHops ≠ []) :
    ((∃ st, AssertChannelCapabilityMigrations (NewMigrator (some k)) store = .ok (none, st)) ↔
      ∀ ch ∈ k.channelKeeper.GetAllChannelsWithPortPrefix ControllerPortPrefix,
        capabilityOwned k ch) ∧
    (∀ pre ch post,
      k.channelKeeper.GetAllChannelsWithPortPrefix ControllerPortPrefix = pre ++ ch :: post →
      (∀ c ∈ pre, capabilityOwned k c) → ¬ capabilityOwned k ch →
      ∃ e st, AssertChannelCapabilityMigrations (NewMigrator (some k)) store = .ok (some e, st) ∧
        (k.scopedKeeper.GetCapability (ChannelCapabilityPath ch.PortId ch.ChannelId) = none →
          e = Wrapf .ErrCapabilityNotFound
            ("failed to find capability: " ++ ChannelCapabilityPath ch.PortId ch.ChannelId)) ∧
        (∀ capability,
          k.scopedKeeper.GetCapability (ChannelCapabilityPath ch.PortId ch.ChannelId)
            = some capability →
          k.scopedKeeper.AuthenticateCapability capability
            (ChannelCapabilityPath ch.PortId ch.ChannelId) = false ∧
          e = Wrapf .ErrCapabilityNotOwned ("expected capability owner: " ++ SubModuleName))) := by
  have hfail : ∀ pre ch post,
      k.channelKeeper.GetAllChannelsWithPortPrefix ControllerPortPrefix = pre ++ ch :: post →
      (∀ c ∈ pre, capabilityOwned k c) → ¬ capabilityOwned k ch →
      ∃ e st, AssertChannelCapabilityMigrations (NewMigrator (some k)) store = .ok (some e, st) ∧
        (k.scopedKeeper.GetCapability (ChannelCapabilityPath ch.PortId ch.ChannelId) = none →
          e = Wrapf .ErrCapabilityNotFound
            ("failed to find capability: " ++ ChannelCapabilityPath ch.PortId ch.ChannelId)) ∧
        (∀ capability,
          k.scopedKeeper.GetCapability (ChannelCapabilityPath ch.PortId ch.ChannelId)
            = some capability →
          k.scopedKeeper.AuthenticateCapability capability
            (ChannelCapabilityPath ch.PortId ch.ChannelId) = false ∧
          e = Wrapf .ErrCapabilityNotOwned ("expected capability owner: " ++ SubModuleName)) := by
    intro pre ch post hsplit hown hch
    have hpre : ∀ c ∈ pre, c.ConnectionHops ≠ [] := fun c hc =>
      hhops c (by rw [hsplit]; exact List.mem_append_left _ hc)
    obtain ⟨e, he, h1, h2⟩ := assertChannels_first_failure k pre ch post store hown hpre hch
    refine ⟨e, enableAll store pre, ?_, h1, ?_⟩
    · simp only [AssertChannelCapabilityMigrations, NewMigrator, hsplit]
      exact he
    · intro capability hget
      refine ⟨?_, h2 (by simp [hget])⟩
      cases hauth : k.scopedKeeper.AuthenticateCapability capability
          (ChannelCapabilityPath ch.PortId ch.ChannelId) with
      | false => rfl
      | true => exact absurd ⟨capability, hget, hauth⟩ hch
  refine ⟨⟨?_, ?_⟩, hfail⟩
  · rintro ⟨st, hst⟩
    by_contra hnot
    obtain ⟨pre, ch, post, hsplit, hown, hch⟩ := exists_first_not_owned k _ hnot
    obtain ⟨e, st', he, -⟩ := hfail pre ch post hsplit hown hch
    rw [he] at hst
    simp at hst
  · intro hown
    refine ⟨enableAll store
      (k.channelKeeper.GetAllChannelsWithPortPrefix ControllerPortPrefix), ?_⟩
    simp only [AssertChannelCapabilityMigrations, NewMigrator]
    exact assertChannels_owned k _ store hown hhops

/-- Witness of C1 on the sample keeper, whose second channel has no capability. -/
theorem AssertChannelCapabilityMigrations_nil_iff_owned_witness :
    (∀ ch ∈ sampleKeeper.channelKeeper.GetAllChannelsWithPortPrefix ControllerPortPrefix,
      ch.ConnectionHops ≠ []) ∧
    ((∃ st, AssertChannelCapabilityMigrations (NewMigrator (some sampleKeeper)) sampleStore
        = .ok (none, st)) ↔
      ∀ ch ∈ sampleKeeper.channelKeeper.GetAllChannelsWithPortPrefix ControllerPortPrefix,
        capabilityOwned sampleKeeper ch) :=
  ⟨by simp [sampleKeeper],
   (AssertChannelCapabilityMigrations_nil_iff_owned sampleKeeper sampleStore
      (by simp [sampleKeeper])).1⟩

/-- C2, counterexample: on the sample keeper the call returns the error of the second
channel although it has already set the middleware-enabled flag of the first channel. -/
theorem AssertChannelCapabilityMigrations_error_after_write :
    (AssertChannelCapabilityMigrations (NewMigrator (some sampleKeeper)) sampleStore).map
        (fun r => (r.1, r.2.middlewareEnabled "icacontroller-alice" "connection-0"))
      = .ok (some (Wrapf .ErrCapabilityNotFound
          "failed to find capability: capabilities/ports/icacontroller-bob/channels/channel-1"),
          true) ∧
    sampleStore.middlewareEnabled "icacontroller-alice" "connection-0" = false :=
  ⟨rfl, rfl⟩

/-- C2, amended: when `AssertChannelCapabilityMigrations` returns an error, the channel
list splits at the first failing channel, and the store reached is the initial store
with the middleware-enabled flag set for the channels before the failing one, each with
its first connection hop, and nothing else; no flag is set when the first channel fails. -/
theorem AssertChannelCapabilityMigrations_error_store (m : Migrator) (store : Store)
    (e : WrappedError) (st : Store)
    (h : AssertChannelCapabilityMigrations m store = .ok (some e, st)) :
    ∃ k pre ch post, m.keeper = some k ∧
      k.channelKeeper.GetAllChannelsWithPortPrefix ControllerPortPrefix = pre ++ ch :: post ∧
      (∀ c ∈ pre, capabilityOwned k c) ∧ (∀ c ∈ pre, c.ConnectionHops ≠ []) ∧
      ¬ capabilityOwned k ch ∧ st = enableAll store pre ∧ (pre = [] → st = store) := by
  cases hk : m.keeper with
  | none => simp [AssertChannelCapabilityMigrations, hk] at h
  | some k =>
    simp only [AssertChannelCapabilityMigrations, hk] at h
    obtain ⟨pre, ch, post, hsplit, hown, hhops, hch, hst⟩ := assertChannels_split k _ store e st h
    refine ⟨k, pre, ch, post, rfl, hsplit, hown, hhops, hch, hst, ?_⟩
    intro hnil
    simp [hst, hnil, enableAll]

/-- Witness of the amended C2 on the sample keeper: the error of the second channel is
returned with the flag of the first channel set. -/
theorem AssertChannelCapabilityMigrations_error_store_witness :
    AssertChannelCapabilityMigrations (NewMigrator (some sampleKeeper)) sampleStore
      = .ok (some (Wrapf .ErrCapabilityNotFound
          "failed to find capability: capabilities/ports/icacontroller-bob/channels/channel-1"),
          SetMiddlewareEnabled sampleStore "icacontroller-alice" "connection-0") ∧
    ∃ k pre ch post, (NewMigrator (some sampleKeeper)).keeper = some k ∧
      k.channelKeeper.GetAllChannelsWithPortPrefix ControllerPortPrefix = pre ++ ch :: post ∧
      (∀ c ∈ pre, capabilityOwned k c) ∧ (∀ c ∈ pre, c.ConnectionHops ≠ []) ∧
      ¬ capabilityOwned k ch ∧
      SetMiddlewareEnabled sampleStore "icacontroller-alice" "connection-0"
        = enableAll sampleStore pre ∧
      (pre = [] →
        SetMiddlewareEnabled sampleStore "icacontroller-alice" "connection-0" = sampleStore) :=
  ⟨rfl, AssertChannelCapabilityMigrations_error_store (NewMigrator (some sampleKeeper))
    sampleStore _ _ rfl⟩

end controller

namespace host

/-- C3: for the legacy parameter set `p` read from the x/params subspace, `MigrateParams`
returns the error of `p.Validate()` and leaves the keeper's own store unchanged when
validation fails; when validation succeeds it returns nil after `SetParams`, and then
`GetParams` returns exactly `p` (the codec unmarshalling what it marshalled). -/
theorem MigrateParams_validate_then_set (k : Keeper) (ctx : KVStore) (p : Params)
    (hread : k.legacySubspace.GetParamSet = .ok p) :
    (∀ err, p.Validate = some err →
      MigrateParams (NewMigrator (some k)) ctx = .ok (some err, ctx)) ∧
    (p.Validate = none → ∀ bz, k.cdc.Marshal p = .ok bz → k.cdc.Unmarshal bz = .ok p →
      ∃ ctx', MigrateParams (NewMigrator (some k)) ctx = .ok (none, ctx') ∧
        SetParams k ctx p = .ok ctx' ∧ GetParams k ctx' = .ok p) := by
  constructor
  · intro err herr
    simp [MigrateParams, NewMigrator, hread, herr]
  · intro hvalid bz hm hu
    refine ⟨ctx.Set ParamsKey bz, ?_, ?_, ?_⟩
    · simp [MigrateParams, NewMigrator, hread, hvalid, SetParams, hm]
    · simp [SetParams, hm]
    · simp [GetParams, KVStore.Get, KVStore.Set, AList.lookup_insert, hu]

/-- Witness of C3: the sample keeper migrates the valid parameter set with `HostEnabled`
set and an empty allow list, and returns the validation error of an allow list with a
blank entry without touching the store. -/
theorem MigrateParams_validate_then_set_witness :
    (sampleKeeper { HostEnabled := true, AllowMessages := [] }).legacySubspace.GetParamSet
      = .ok { HostEnabled := true, AllowMessages := [] } ∧
    (∃ ctx', MigrateParams
        (NewMigrator (some (sampleKeeper { HostEnabled := true, AllowMessages := [] }))) ∅
          = .ok (none, ctx') ∧
      SetParams (sampleKeeper { HostEnabled := true, AllowMessages := [] }) ∅
          { HostEnabled := true, AllowMessages := [] } = .ok ctx' ∧
      GetParams (sampleKeeper { HostEnabled := true, AllowMessages := [] }) ctx'
          = .ok { HostEnabled := true, AllowMessages := [] }) ∧
    MigrateParams (NewMigrator (some (sampleKeeper { HostEnabled := true, AllowMessages := [" "] })))
        ∅ = .ok (some (.emptyAllowMessage [" "]), ∅) :=
  ⟨rfl, (MigrateParams_validate_then_set
    (sampleKeeper { HostEnabled := true, AllowMessages := [] }) ∅
    { HostEnabled := true, AllowMessages := [] } rfl).2 rfl [1] rfl rfl,
    (MigrateParams_validate_then_set
      (sampleKeeper { HostEnabled := true, AllowMessages := [" "] }) ∅
      { HostEnabled := true, AllowMessages := [" "] } rfl).1 _ (by decide)⟩

end host

namespace KVStore

theorem Get_Set_self (store : KVStore) (key value : Bytes) :
    (store.Set key value).Get key = some value := by
  simp [KVStore.Get, KVStore.Set, AList.lookup_insert]

theorem Get_Set_ne (store : KVStore) (key key' value : Bytes) (h : key' ≠ key) :
    (store.Set key value).Get key' = store.Get key' := by
  simp [KVStore.Get, KVStore.Set, AList.lookup_insert_ne h]

theorem Has_eq_isSome (store : KVStore) (key : Bytes) :
    store.Has key = (store.Get key).isSome := rfl

end KVStore

namespace transfer

/-- C4: for a trace `t` that the codec unmarshals back to itself after marshalling,
`SetDenomTrace(t)` returns, and afterwards `GetDenomTrace(t.Hash())` returns `(t, true)`
and `HasDenomTrace(t.Hash())` returns true, whatever the store held before. -/
theorem SetDenomTrace_then_GetDenomTrace (sha : Sha256) (k : Keeper) (ctx : KVStore)
    (t : DenomTrace) (bz : Bytes) (hmarshal : k.cdc.Marshal t = .ok bz)
    (hunmarshal : k.cdc.Unmarshal bz = .ok t) :
    ∃ ctx', k.SetDenomTrace sha ctx t = .ok ctx' ∧
      k.GetDenomTrace ctx' (t.Hash sha) = .ok (t, true) ∧
      k.HasDenomTrace ctx' (t.Hash sha) = true := by
  refine ⟨ctx.Set (DenomTraceKey ++ t.Hash sha) bz, ?_, ?_, ?_⟩
  · simp [Keeper.SetDenomTrace, Keeper.MustMarshalDenomTrace, hmarshal, PrefixStore.Set]
  · simp [Keeper.GetDenomTrace, PrefixStore.Get, KVStore.Get_Set_self,
      Keeper.MustUnmarshalDenomTrace, hunmarshal]
  · simp [Keeper.HasDenomTrace, PrefixStore.Has, KVStore.Has_eq_isSome, KVStore.Get_Set_self]

/-- Witness of C4: the sample trace under the protobuf codec, written to the empty store. -/
theorem SetDenomTrace_then_GetDenomTrace_witness :
    sampleKeeper.cdc.Marshal sampleTrace = .ok sampleTrace.Marshal ∧
    sampleKeeper.cdc.Unmarshal sampleTrace.Marshal = .ok sampleTrace ∧
    ∃ ctx', sampleKeeper.SetDenomTrace sampleSha ∅ sampleTrace = .ok ctx' ∧
      sampleKeeper.GetDenomTrace ctx' (sampleTrace.Hash sampleSha) = .ok (sampleTrace, true) ∧
      sampleKeeper.HasDenomTrace ctx' (sampleTrace.Hash sampleSha) = true :=
  ⟨rfl, by decide,
    SetDenomTrace_then_GetDenomTrace sampleSha sampleKeeper ∅ sampleTrace sampleTrace.Marshal
      rfl (by decide)⟩

/-- C5, counterexample: with bytes under the denom-trace prefix that are not the encoding
of a trace, `HasDenomTrace` is true while `GetDenomTrace` panics in
`MustUnmarshalDenomTrace` and so does not report found = true. -/
theorem HasDenomTrace_true_GetDenomTrace_panics :
    sampleKeeper.HasDenomTrace corruptStore sampleHash = true ∧
    sampleKeeper.GetDenomTrace corruptStore sampleHash = .error "unexpected EOF" := by
  decide

/-- C5, amended: `GetDenomTrace(h)` returns `(DenomTrace{}, false)` exactly when nothing
is stored at `h` under the denom-trace prefix, and `HasDenomTrace(h)` is true exactly
when something is stored there.  On stored bytes `GetDenomTrace(h)` returns the
unmarshalled trace with found = true, or panics with the codec's error; so when the
stored bytes unmarshal, `HasDenomTrace(h)` is true exactly when `GetDenomTrace(h)`
reports found = true. -/
theorem GetDenomTrace_not_found_iff_absent (k : Keeper) (ctx : KVStore) (h : Bytes) :
    (k.GetDenomTrace ctx h = .ok ({ Path := [], BaseDenom := [] }, false) ↔
      ctx.Get (DenomTraceKey ++ h) = none) ∧
    (k.HasDenomTrace ctx h = true ↔ ∃ bz, ctx.Get (DenomTraceKey ++ h) = some bz) ∧
    (∀ bz, ctx.Get (DenomTraceKey ++ h) = some bz →
      (∀ t, k.cdc.Unmarshal bz = .ok t → k.GetDenomTrace ctx h = .ok (t, true)) ∧
      (∀ msg, k.cdc.Unmarshal bz = .error msg → k.GetDenomTrace ctx h = .error msg)) ∧
    ((∀ bz, ctx.Get (DenomTraceKey ++ h) = some bz → ∃ t, k.cdc.Unmarshal bz = .ok t) →
      (k.HasDenomTrace ctx h = true ↔ ∃ t, k.GetDenomTrace ctx h = .ok (t, true))) := by
  cases hget : ctx.Get (DenomTraceKey ++ h) with
  | none =>
    simp [Keeper.GetDenomTrace, Keeper.HasDenomTrace, PrefixStore.Get, PrefixStore.Has,
      KVStore.Has_eq_isSome, hget]
  | some bz =>
    cases hu : k.cdc.Unmarshal bz with
    | error msg =>
      simp [Keeper.GetDenomTrace, Keeper.HasDenomTrace, PrefixStore.Get, PrefixStore.Has,
        KVStore.Has_eq_isSome, hget, Keeper.MustUnmarshalDenomTrace, hu]
    | ok t =>
      simp [Keeper.GetDenomTrace, Keeper.HasDenomTrace, PrefixStore.Get, PrefixStore.Has,
        KVStore.Has_eq_isSome, hget, Keeper.MustUnmarshalDenomTrace, hu]

/-- C9: after `SetPort(p)` the call `GetPort` returns `p`; `GetPort` returns the empty
string when nothing is stored under the port key; and `SetPort` leaves the result of
`GetDenomTrace` unchanged for every hash. -/
theorem SetPort_then_GetPort (k : Keeper) (ctx : KVStore) (p : GoString) :
    k.GetPort (k.SetPort ctx p) = p ∧
    (ctx.Get PortKey = none → k.GetPort ctx = []) ∧
    (∀ h, k.GetDenomTrace (k.SetPort ctx p) h = k.GetDenomTrace ctx h) := by
  refine ⟨?_, ?_, ?_⟩
  · simp [Keeper.GetPort, Keeper.SetPort, KVStore.Get_Set_self]
  · intro hnone
    simp [Keeper.GetPort, hnone]
  · intro h
    have hne : DenomTraceKey ++ h ≠ PortKey := by
      simp [DenomTraceKey, PortKey]
    simp [Keeper.GetDenomTrace, Keeper.SetPort, PrefixStore.Get, KVStore.Get_Set_ne _ _ _ _ hne]

end transfer

namespace KVStore

theorem PrefixIterator_perm (store : KVStore) (pfx : Bytes) :
    (store.PrefixIterator pfx).Perm
      ((store.entries.map (fun e => (e.1, e.2))).filter (fun e => pfx.isPrefixOf e.1)) := by
  unfold KVStore.PrefixIterator KVStore.ascending
  exact (List.perm_insertionSort _ _).filter _

end KVStore

namespace transfer

theorem PrefixIterator_values_perm (store : KVStore) (pfx : Bytes) :
    ((store.PrefixIterator pfx).map (fun e => e.2)).Perm (valuesUnder store pfx) := by
  have h := (KVStore.PrefixIterator_perm store pfx).map (fun e => e.2)
  refine h.trans ?_
  unfold valuesUnder
  rw [List.filter_map, List.map_map]
  exact List.Perm.refl _

theorem iterateLoop_collect (k : Keeper) (l : List (Bytes × Bytes)) (acc : Traces)
    (hdec : ∀ e ∈ l, ∃ t, k.cdc.Unmarshal e.2 = .ok t) :
    ∃ ts, k.iterateLoop (fun (traces : Traces) denomTrace => (traces ++ [denomTrace], false))
        l acc = .ok (acc ++ ts) ∧
      ts.map (Except.ok (ε := String)) = l.map (fun e => k.cdc.Unmarshal e.2) := by
  induction l generalizing acc with
  | nil => exact ⟨[], by simp [Keeper.iterateLoop], rfl⟩
  | cons e rest ih =>
    obtain ⟨t, ht⟩ := hdec e (List.mem_cons_self _ _)
    obtain ⟨ts, hts, hmap⟩ := ih (acc ++ [t]) (fun x hx => hdec x (List.mem_cons_of_mem _ hx))
    refine ⟨t :: ts, ?_, ?_⟩
    · simp only [Keeper.iterateLoop, Keeper.MustUnmarshalDenomTrace, ht]
      simpa using hts
    · simp [ht, hmap]

theorem iterateLoop_panics (k : Keeper) (l : List (Bytes × Bytes)) (acc : Traces)
    (hbad : ∃ e ∈ l, ∃ msg, k.cdc.Unmarshal e.2 = .error msg) :
    ∃ msg, k.iterateLoop (fun (traces : Traces) denomTrace => (traces ++ [denomTrace], false))
        l acc = .error msg := by
  induction l generalizing acc with
  | nil => simp at hbad
  | cons e rest ih =>
    cases hu : k.cdc.Unmarshal e.2 with
    | error msg => exact ⟨msg, by simp [Keeper.iterateLoop, Keeper.MustUnmarshalDenomTrace, hu]⟩
    | ok t =>
      obtain ⟨x, hx, msg, hmsg⟩ := hbad
      rcases List.mem_cons.mp hx with rfl | hx
      · rw [hu] at hmsg
        cases hmsg
      · obtain ⟨msg', hmsg'⟩ := ih (acc ++ [t]) ⟨x, hx, msg, hmsg⟩
        exact ⟨msg', by simpa [Keeper.iterateLoop, Keeper.MustUnmarshalDenomTrace, hu] using hmsg'⟩

theorem Sort_perm (t : Traces) : t.Sort.Perm t := List.perm_insertionSort _ _

theorem Sort_sorted (t : Traces) :
    t.Sort.Sorted (fun a b => a.GetFullDenomPath ≤ b.GetFullDenomPath) := by
  haveI : IsTotal DenomTrace (fun a b => a.GetFullDenomPath ≤ b.GetFullDenomPath) :=
    ⟨fun a b => le_total _ _⟩
  haveI : IsTrans DenomTrace (fun a b => a.GetFullDenomPath ≤ b.GetFullDenomPath) :=
    ⟨fun _ _ _ hab hbc => le_trans hab hbc⟩
  exact List.sorted_insertionSort _ _

/-- C6, counterexample: on a store with bytes under the denom-trace prefix that are not
the encoding of a trace, `GetAllDenomTraces` panics instead of returning the traces. -/
theorem GetAllDenomTraces_panics_on_corrupt_store :
    sampleKeeper.GetAllDenomTraces corruptStore = .error "unexpected EOF" := by
  decide

/-- C6, amended: when every value stored under the denom-trace prefix unmarshals,
`GetAllDenomTraces` returns one trace for each such value and nothing else (its result
is a permutation of the unmarshalled values, so no value of another key prefix is
in it), sorted by full denomination path as `Traces.Sort` leaves it; when some value
under the prefix does not unmarshal, it panics. -/
theorem GetAllDenomTraces_sorted_permutation (k : Keeper) (ctx : KVStore) :
    ((∀ bz ∈ valuesUnder ctx DenomTraceKey, ∃ t, k.cdc.Unmarshal bz = .ok t) →
      ∃ traces, k.GetAllDenomTraces ctx = .ok traces ∧
        (traces.map (Except.ok (ε := String))).Perm
          ((valuesUnder ctx DenomTraceKey).map k.cdc.Unmarshal) ∧
        traces.Sorted (fun a b => a.GetFullDenomPath ≤ b.GetFullDenomPath)) ∧
    ((∃ bz ∈ valuesUnder ctx DenomTraceKey, ∃ msg, k.cdc.Unmarshal bz = .error msg) →
      ∃ msg, k.GetAllDenomTraces ctx = .error msg) := by
  have hperm := PrefixIterator_values_perm ctx DenomTraceKey
  constructor
  · intro hdec
    have hdec' : ∀ e ∈ ctx.PrefixIterator DenomTraceKey, ∃ t, k.cdc.Unmarshal e.2 = .ok t := by
      intro e he
      exact hdec e.2 (hperm.subset (List.mem_map_of_mem _ he))
    obtain ⟨ts, hts, hmap⟩ := iterateLoop_collect k _ [] hdec'
    refine ⟨ts.Sort, ?_, ?_, Sort_sorted ts⟩
    · simp only [Keeper.GetAllDenomTraces, Keeper.IterateDenomTraces, hts, List.nil_append]
    · refine ((Sort_perm ts).map _).trans ?_
      rw [hmap]
      have := hperm.map k.cdc.Unmarshal
      simpa [List.map_map] using this
  · rintro ⟨bz, hbz, msg, hmsg⟩
    have hmem : bz ∈ (ctx.PrefixIterator DenomTraceKey).map (fun e => e.2) :=
      hperm.symm.subset hbz
    obtain ⟨e, he, rfl⟩ := List.mem_map.mp hmem
    obtain ⟨msg', hmsg'⟩ := iterateLoop_panics k _ [] ⟨e, he, msg, hmsg⟩
    exact ⟨msg', by simp [Keeper.GetAllDenomTraces, Keeper.IterateDenomTraces, hmsg']⟩

end transfer

namespace transfer

/-- Witness of the amended C6: the sample store holds the port and two traces; both
values under the denom-trace prefix unmarshal, and the traces come back sorted. -/
theorem GetAllDenomTraces_sorted_permutation_witness :
    (∀ bz ∈ valuesUnder tracedStore DenomTraceKey, ∃ t, sampleKeeper.cdc.Unmarshal bz = .ok t) ∧
    sampleKeeper.GetAllDenomTraces tracedStore = .ok [sampleTrace, nativeTrace] ∧
    ∃ traces, sampleKeeper.GetAllDenomTraces tracedStore = .ok traces ∧
      (traces.map (Except.ok (ε := String))).Perm
        ((valuesUnder tracedStore DenomTraceKey).map sampleKeeper.cdc.Unmarshal) ∧
      traces.Sorted (fun a b => a.GetFullDenomPath ≤ b.GetFullDenomPath) := by
  have hvals : valuesUnder tracedStore DenomTraceKey
      = [sampleTrace.Marshal, nativeTrace.Marshal] := by decide
  have hdec : ∀ bz ∈ valuesUnder tracedStore DenomTraceKey,
      ∃ t, sampleKeeper.cdc.Unmarshal bz = .ok t := by
    intro bz hbz
    rw [hvals] at hbz
    rcases List.mem_cons.mp hbz with rfl | hbz
    · exact ⟨sampleTrace, by decide⟩
    · rcases List.mem_cons.mp hbz with rfl | hbz
      · exact ⟨nativeTrace, by decide⟩
      · cases hbz
  exact ⟨hdec, by decide, (GetAllDenomTraces_sorted_permutation sampleKeeper tracedStore).1 hdec⟩

theorem NewKeeper_returns_iff (cdc : BinaryCodec) (key : StoreKey)
    (paramSpace : Subspace) (ics4Wrapper : ICS4Wrapper) (channelKeeper : ChannelKeeper)
    (portKeeper : PortKeeper) (authKeeper : AccountKeeper) (bankKeeper : BankKeeper)
    (scopedKeeper : ScopedKeeper) :
    (∃ keeper, NewKeeper cdc key paramSpace ics4Wrapper channelKeeper portKeeper authKeeper
        bankKeeper scopedKeeper = .ok keeper) ↔
      authKeeper.GetModuleAddress ModuleName ≠ none := by
  cases haddr : authKeeper.GetModuleAddress ModuleName with
  | none => simp [NewKeeper, haddr]
  | some addr =>
    cases htable : paramSpace.HasKeyTable with
    | true => simp [NewKeeper, haddr, htable]
    | false =>
      have hlen : paramSpace.table.m = [] := by
        simpa [Subspace.HasKeyTable, List.length_eq_zero] using htable
      simp [NewKeeper, haddr, htable, Subspace.WithKeyTable, hlen]

/-- C7: `NewKeeper` panics with "the IBC transfer module account has not been set"
exactly when `authKeeper.GetModuleAddress(types.ModuleName)` returns nil, and returns
otherwise; the keeper it returns holds the collaborators it was given, a param subspace
with a key table (the given one when it already had a key table, otherwise the given one
extended with `types.ParamKeyTable()`), and `SeiAddressHandler{}` as address handler. -/
theorem NewKeeper_panics_iff_no_module_account (cdc : BinaryCodec) (key : StoreKey)
    (paramSpace : Subspace) (ics4Wrapper : ICS4Wrapper) (channelKeeper : ChannelKeeper)
    (portKeeper : PortKeeper) (authKeeper : AccountKeeper) (bankKeeper : BankKeeper)
    (scopedKeeper : ScopedKeeper) :
    (NewKeeper cdc key paramSpace ics4Wrapper channelKeeper portKeeper authKeeper bankKeeper
        scopedKeeper = .error "the IBC transfer module account has not been set" ↔
      authKeeper.GetModuleAddress ModuleName = none) ∧
    ((∃ keeper, NewKeeper cdc key paramSpace ics4Wrapper channelKeeper portKeeper authKeeper
        bankKeeper scopedKeeper = .ok keeper) ↔
      authKeeper.GetModuleAddress ModuleName ≠ none) ∧
    (∀ keeper, NewKeeper cdc key paramSpace ics4Wrapper channelKeeper portKeeper authKeeper
        bankKeeper scopedKeeper = .ok keeper →
      keeper.cdc = cdc ∧ keeper.storeKey = key ∧ keeper.ics4Wrapper = ics4Wrapper ∧
      keeper.channelKeeper = channelKeeper ∧ keeper.portKeeper = portKeeper ∧
      keeper.authKeeper = authKeeper ∧ keeper.bankKeeper = bankKeeper ∧
      keeper.scopedKeeper = scopedKeeper ∧
      keeper.paramSpace.HasKeyTable = true ∧
      (paramSpace.HasKeyTable = true → keeper.paramSpace = paramSpace) ∧
      (paramSpace.HasKeyTable = false →
        paramSpace.WithKeyTable ParamKeyTable = .ok keeper.paramSpace ∧
        keeper.paramSpace = { paramSpace with table := ParamKeyTable }) ∧
      keeper.addressHandler = some .SeiAddressHandler) := by
  cases haddr : authKeeper.GetModuleAddress ModuleName with
  | none => simp [NewKeeper, haddr]
  | some addr =>
    cases htable : paramSpace.HasKeyTable with
    | true =>
      refine ⟨by simp [NewKeeper, haddr, htable], by simp [NewKeeper, haddr, htable], ?_⟩
      intro keeper hk
      simp only [NewKeeper, haddr, htable, Bool.not_true, Bool.false_eq_true, if_false,
        Except.ok.injEq] at hk
      subst hk
      simp [htable]
    | false =>
      have hlen : paramSpace.table.m = [] := by
        simpa [Subspace.HasKeyTable, List.length_eq_zero] using htable
      have hwith : paramSpace.WithKeyTable ParamKeyTable
          = .ok { paramSpace with table := ParamKeyTable } := by
        simp [Subspace.WithKeyTable, hlen]
      refine ⟨by simp [NewKeeper, haddr, htable, hwith],
        by simp [NewKeeper, haddr, htable, hwith], ?_⟩
      intro keeper hk
      simp only [NewKeeper, haddr, htable, hwith, Bool.not_false, if_true,
        Except.ok.injEq] at hk
      subst hk
      refine ⟨rfl, rfl, rfl, rfl, rfl, rfl, rfl, rfl, rfl, ?_, ?_, rfl⟩
      · intro h
        cases h
      · intro _
        exact ⟨hwith, rfl⟩

/-- C8: with the module account set, `NewKeeperWithAddressHandler` panics with "the IBC
transfer module address handler has not been set" when the handler is nil; for a non-nil
handler `h` its result is the result of `NewKeeper` on the first nine arguments with the
address handler replaced by `h`, so it returns a keeper whose address handler is `h`
and whose other fields are those of the keeper `NewKeeper` returns. -/
theorem NewKeeperWithAddressHandler_sets_handler (cdc : BinaryCodec) (key : StoreKey)
    (paramSpace : Subspace) (ics4Wrapper : ICS4Wrapper) (channelKeeper : ChannelKeeper)
    (portKeeper : PortKeeper) (authKeeper : AccountKeeper) (bankKeeper : BankKeeper)
    (scopedKeeper : ScopedKeeper) :
    (authKeeper.GetModuleAddress ModuleName ≠ none →
      NewKeeperWithAddressHandler cdc key paramSpace ics4Wrapper channelKeeper portKeeper
        authKeeper bankKeeper scopedKeeper none
        = .error "the IBC transfer module address handler has not been set") ∧
    (∀ h : AddressHandler,
      NewKeeperWithAddressHandler cdc key paramSpace ics4Wrapper channelKeeper portKeeper
        authKeeper bankKeeper scopedKeeper (some h)
        = (NewKeeper cdc key paramSpace ics4Wrapper channelKeeper portKeeper authKeeper
            bankKeeper scopedKeeper).map (fun keeper => { keeper with addressHandler := some h })) ∧
    (∀ h : AddressHandler, authKeeper.GetModuleAddress ModuleName ≠ none →
      ∃ keeper keeper', NewKeeper cdc key paramSpace ics4Wrapper channelKeeper portKeeper
          authKeeper bankKeeper scopedKeeper = .ok keeper ∧
        NewKeeperWithAddressHandler cdc key paramSpace ics4Wrapper channelKeeper portKeeper
          authKeeper bankKeeper scopedKeeper (some h) = .ok keeper' ∧
        keeper'.addressHandler = some h ∧
        keeper'.cdc = keeper.cdc ∧ keeper'.storeKey = keeper.storeKey ∧
        keeper'.paramSpace = keeper.paramSpace ∧ keeper'.ics4Wrapper = keeper.ics4Wrapper ∧
        keeper'.channelKeeper = keeper.channelKeeper ∧ keeper'.portKeeper = keeper.portKeeper ∧
        keeper'.authKeeper = keeper.authKeeper ∧ keeper'.bankKeeper = keeper.bankKeeper ∧
        keeper'.scopedKeeper = keeper.scopedKeeper) := by
  have hret := (NewKeeper_returns_iff cdc key paramSpace ics4Wrapper channelKeeper portKeeper
    authKeeper bankKeeper scopedKeeper)
  refine ⟨?_, ?_, ?_⟩
  · intro haddr
    obtain ⟨keeper, hk⟩ := hret.mpr haddr
    simp [NewKeeperWithAddressHandler, hk]
  · intro h
    cases hk : NewKeeper cdc key paramSpace ics4Wrapper channelKeeper portKeeper authKeeper
        bankKeeper scopedKeeper with
    | error msg => simp [NewKeeperWithAddressHandler, hk, Except.map]
    | ok keeper => simp [NewKeeperWithAddressHandler, hk, Except.map]
  · intro h haddr
    obtain ⟨keeper, hk⟩ := hret.mpr haddr
    exact ⟨keeper, { keeper with addressHandler := some h }, hk,
      by simp [NewKeeperWithAddressHandler, hk], rfl, rfl, rfl, rfl, rfl, rfl, rfl, rfl, rfl, rfl⟩

end transfer

theorem digitChar_ne_comma (d : Nat) : digitChar d ≠ ',' := by
  unfold digitChar
  have h : d % 10 < 10 := Nat.mod_lt _ (by decide)
  generalize d % 10 = r at h
  interval_cases r <;> decide

theorem formatUintAux_no_comma (fuel n : Nat) (acc : List Char)
    (hacc : ∀ c ∈ acc, c ≠ ',') : ∀ c ∈ formatUintAux fuel n acc, c ≠ ',' := by
  induction fuel generalizing n acc with
  | zero => simpa [formatUintAux] using hacc
  | succ fuel ih =>
    have hcons : ∀ c ∈ digitChar n :: acc, c ≠ ',' := by
      intro c hc
      rcases List.mem_cons.mp hc with rfl | hc
      · exact digitChar_ne_comma n
      · exact hacc c hc
    unfold formatUintAux
    split
    · exact hcons
    · exact ih _ _ hcons

theorem formatUint_no_comma (n : Nat) : ∀ c ∈ (formatUint n).data, c ≠ ',' :=
  formatUintAux_no_comma _ _ [] (by simp)

theorem takeWhile_append_sep (a rest : List Char) (ha : ∀ c ∈ a, c ≠ ',') :
    (a ++ ',' :: rest).takeWhile (fun c => decide (c ≠ ',')) = a := by
  induction a with
  | nil => simp
  | cons x xs ih =>
    have hd : decide (x ≠ ',') = true := decide_eq_true (ha x (List.mem_cons_self _ _))
    simp only [List.cons_append, List.takeWhile_cons, hd, ↓reduceIte,
      ih (fun c hc => ha c (List.mem_cons_of_mem _ hc))]

theorem takeWhile_no_sep (a : List Char) (ha : ∀ c ∈ a, c ≠ ',') :
    a.takeWhile (fun c => decide (c ≠ ',')) = a := by
  induction a with
  | nil => simp
  | cons x xs ih =>
    have hd : decide (x ≠ ',') = true := decide_eq_true (ha x (List.mem_cons_self _ _))
    simp only [List.cons_append, List.takeWhile_cons, hd, ↓reduceIte,
      ih (fun c hc => ha c (List.mem_cons_of_mem _ hc))]

namespace client

theorem Height_String_no_comma (h : Height) : ∀ c ∈ h.String.data, c ≠ ',' := by
  intro c hc
  simp only [Height.String, String.data_append, List.mem_append] at hc
  rcases hc with (hc | hc) | hc
  · exact formatUint_no_comma _ c hc
  · have : c = '-' := by simpa using hc
    rw [this]
    decide
  · exact formatUint_no_comma _ c hc

theorem fillHeights_append (hs : List Height) (pre : List String) :
    fillHeights hs pre.length (pre ++ List.replicate hs.length "")
      = pre ++ hs.map Height.String := by
  induction hs generalizing pre with
  | nil => simp [fillHeights]
  | cons h rest ih =>
    have hset : (pre ++ List.replicate (rest.length + 1) "").set pre.length h.String
        = (pre ++ [h.String]) ++ List.replicate rest.length "" := by
      simp [List.replicate_succ, List.set_append]
    have := ih (pre ++ [h.String])
    simp only [List.length_append, List.length_singleton] at this
    simp only [fillHeights, List.length_cons, hset, List.map_cons]
    simpa using this

theorem fillHeights_eq_map (hs : List Height) :
    fillHeights hs 0 (List.replicate hs.length "") = hs.map Height.String := by
  simpa using fillHeights_append hs []

theorem foldl_join_shift (sep x y : String) (rest : List String) :
    rest.foldl (fun b s => b ++ sep ++ s) (x ++ y)
      = x ++ rest.foldl (fun b s => b ++ sep ++ s) y := by
  induction rest generalizing y with
  | nil => rfl
  | cons s rest ih =>
    simp only [List.foldl_cons]
    rw [String.append_assoc, String.append_assoc, ih, String.append_assoc]

theorem Join_cons_cons (a b : String) (rest : List String) (sep : String) :
    Join (a :: b :: rest) sep = a ++ (sep ++ Join (b :: rest) sep) := by
  have hb : Join (b :: rest) sep = rest.foldl (fun x s => x ++ sep ++ s) b := by
    cases rest <;> rfl
  rw [hb]
  simp only [Join, List.foldl_cons]
  rw [String.append_assoc, foldl_join_shift, foldl_join_shift]

theorem Join_takeWhile_first (a : String) (rest : List String)
    (ha : ∀ c ∈ a.data, c ≠ ',') :
    (Join (a :: rest) ",").data.takeWhile (fun c => decide (c ≠ ',')) = a.data := by
  cases rest with
  | nil => simpa [Join] using takeWhile_no_sep a.data ha
  | cons b rest =>
    rw [Join_cons_cons]
    simp only [String.data_append]
    exact takeWhile_append_sep a.data _ ha

/-- C10: when the client message marshals, `emitUpdateClientEvent` appends to the events
emitted so far exactly the update-client event and then the message event; in the
update-client event the `consensus_heights` attribute is the `String()` of each height of
`hs`, in order, joined by ","; the deprecated `consensus_height` attribute is the
`String()` of `hs[0]` for a non-empty `hs` and the empty string for an empty one; and for
a non-empty `hs` the deprecated attribute is the prefix of `consensus_heights` up to the
first comma.  When the message does not marshal, the call panics in
`MustMarshalClientMessage`. -/
theorem emitUpdateClientEvent_consensus_heights (em : EventManager)
    (clientID clientType : String) (hs : List Height) (cdc : BinaryCodec)
    (clientMsg : Option ClientMessage) :
    (∀ msg, MustMarshalClientMessage cdc clientMsg = .error msg →
      emitUpdateClientEvent em clientID clientType hs cdc clientMsg = .error msg) ∧
    (∀ bz, MustMarshalClientMessage cdc clientMsg = .ok bz →
      ∃ em' event,
        emitUpdateClientEvent em clientID clientType hs cdc clientMsg = .ok em' ∧
        em'.events = em.events ++
          [ event,
            { Type_ := EventTypeMessage,
              Attributes := [{ Key := AttributeKeyModule, Value := AttributeValueCategory }] } ] ∧
        event.Type_ = EventTypeUpdateClient ∧
        event.Attributes =
          [ { Key := AttributeKeyClientID, Value := clientID },
            { Key := AttributeKeyClientType, Value := clientType },
            { Key := AttributeKeyConsensusHeight,
              Value := (hs.head?.map Height.String).getD "" },
            { Key := AttributeKeyConsensusHeights, Value := Join (hs.map Height.String) "," },
            { Key := AttributeKeyHeader, Value := EncodeToString bz } ] ∧
        event.attribute AttributeKeyConsensusHeights
          = some (Join (hs.map Height.String) ",") ∧
        event.attribute AttributeKeyConsensusHeight
          = some ((hs.head?.map Height.String).getD "")) ∧
    (hs ≠ [] →
      (Join (hs.map Height.String) ",").data.takeWhile (fun c => decide (c ≠ ','))
        = ((hs.head?.map Height.String).getD "").data) := by
  refine ⟨?_, ?_, ?_⟩
  · intro msg hmsg
    simp [emitUpdateClientEvent, hmsg]
  · intro bz hbz
    refine ⟨{ events := em.events ++
          [ { Type_ := EventTypeUpdateClient,
              Attributes :=
                [ { Key := AttributeKeyClientID, Value := clientID },
                  { Key := AttributeKeyClientType, Value := clientType },
                  { Key := AttributeKeyConsensusHeight,
                    Value := (hs.head?.map Height.String).getD "" },
                  { Key := AttributeKeyConsensusHeights,
                    Value := Join (hs.map Height.String) "," },
                  { Key := AttributeKeyHeader, Value := EncodeToString bz } ] },
            { Type_ := EventTypeMessage,
              Attributes :=
                [{ Key := AttributeKeyModule, Value := AttributeValueCategory }] } ] },
      { Type_ := EventTypeUpdateClient,
        Attributes :=
          [ { Key := AttributeKeyClientID, Value := clientID },
            { Key := AttributeKeyClientType, Value := clientType },
            { Key := AttributeKeyConsensusHeight,
              Value := (hs.head?.map Height.String).getD "" },
            { Key := AttributeKeyConsensusHeights, Value := Join (hs.map Height.String) "," },
            { Key := AttributeKeyHeader, Value := EncodeToString bz } ] },
      ?_, rfl, rfl, rfl, ?_, ?_⟩
    · simp only [emitUpdateClientEvent, hbz, fillHeights_eq_map]
      cases hs <;> rfl
    · simp [Event.attribute, AttributeKeyClientID, AttributeKeyClientType,
        AttributeKeyConsensusHeight, AttributeKeyConsensusHeights, AttributeKeyHeader]
    · simp [Event.attribute, AttributeKeyClientID, AttributeKeyClientType,
        AttributeKeyConsensusHeight, AttributeKeyConsensusHeights, AttributeKeyHeader]
  · intro hne
    cases hs with
    | nil => exact absurd rfl hne
    | cons h rest =>
      simpa using Join_takeWhile_first h.String (rest.map Height.String)
        (Height_String_no_comma h)

/-- Example for C10: two heights of revision 1 give the attributes "1-5" and "1-5,1-7". -/
theorem emitUpdateClientEvent_two_heights :
    emitUpdateClientEvent { events := [] } "07-tendermint-0" "07-tendermint"
        [{ RevisionNumber := 1, RevisionHeight := 5 }, { RevisionNumber := 1, RevisionHeight := 7 }]
        sampleCodec (some { typeURL := "/ibc.lightclients.tendermint.v1.Header", value := [0, 171] })
      = .ok { events :=
          [ { Type_ := "update_client"
              Attributes :=
                [ { Key := "client_id", Value := "07-tendermint-0" },
                  { Key := "client_type", Value := "07-tendermint" },
                  { Key := "consensus_height", Value := "1-5" },
                  { Key := "consensus_heights", Value := "1-5,1-7" },
                  { Key := "header", Value := "00ab" } ] },
            { Type_ := "message", Attributes := [{ Key := "module", Value := "ibc_client" }] } ] } := by
  decide

end client

namespace client

/-- Witness of C10: a tendermint header message under the sample codec, with two heights:
the two events are appended, with the attributes "1-5" and "1-5,1-7". -/
theorem emitUpdateClientEvent_consensus_heights_witness :
    MustMarshalClientMessage sampleCodec
        (some { typeURL := "/ibc.lightclients.tendermint.v1.Header", value := [0, 171] })
      = .ok [0, 171] ∧
    emitUpdateClientEvent { events := [] } "07-tendermint-0" "07-tendermint"
        [{ RevisionNumber := 1, RevisionHeight := 5 }, { RevisionNumber := 1, RevisionHeight := 7 }]
        sampleCodec (some { typeURL := "/ibc.lightclients.tendermint.v1.Header", value := [0, 171] })
      = .ok { events :=
          [ { Type_ := "update_client"
              Attributes :=
                [ { Key := "client_id", Value := "07-tendermint-0" },
                  { Key := "client_type", Value := "07-tendermint" },
                  { Key := "consensus_height", Value := "1-5" },
                  { Key := "consensus_heights", Value := "1-5,1-7" },
                  { Key := "header", Value := "00ab" } ] },
            { Type_ := "message", Attributes := [{ Key := "module", Value := "ibc_client" }] } ] } ∧
    ∃ em' event,
      emitUpdateClientEvent { events := [] } "07-tendermint-0" "07-tendermint"
        [{ RevisionNumber := 1, RevisionHeight := 5 }, { RevisionNumber := 1, RevisionHeight := 7 }]
        sampleCodec (some { typeURL := "/ibc.lightclients.tendermint.v1.Header", value := [0, 171] })
        = .ok em' ∧
      em'.events = ([] : List Event) ++
        [ event,
          { Type_ := EventTypeMessage,
            Attributes := [{ Key := AttributeKeyModule, Value := AttributeValueCategory }] } ] ∧
      event.attribute AttributeKeyConsensusHeights = some "1-5,1-7" ∧
      event.attribute AttributeKeyConsensusHeight = some "1-5" :=
  ⟨rfl, by decide,
    match (emitUpdateClientEvent_consensus_heights { events := [] } "07-tendermint-0"
      "07-tendermint"
      [{ RevisionNumber := 1, RevisionHeight := 5 },
        { RevisionNumber := 1, RevisionHeight := 7 }]
      sampleCodec
      (some { typeURL := "/ibc.lightclients.tendermint.v1.Header", value := [0, 171] })).2.1
      [0, 171] rfl with
    | ⟨em', event, h, hevents, _, _, hheights, hheight⟩ =>
      ⟨em', event, h, hevents, hheights.trans (by decide), hheight.trans (by decide)⟩⟩

end client

namespace transfer

/-- Witness of the amended C5 on the sample store: both stored traces unmarshal, so for the
hash of the sample trace `HasDenomTrace` agrees with the found flag of `GetDenomTrace`. -/
theorem GetDenomTrace_not_found_iff_absent_witness :
    (sampleKeeper.HasDenomTrace tracedStore (sampleTrace.Hash sampleSha) = true ↔
      ∃ t, sampleKeeper.GetDenomTrace tracedStore (sampleTrace.Hash sampleSha) = .ok (t, true)) ∧
    sampleKeeper.GetDenomTrace tracedStore (sampleTrace.Hash sampleSha)
      = .ok (sampleTrace, true) ∧
    sampleKeeper.GetDenomTrace tracedStore sampleHash
      = .ok ({ Path := [], BaseDenom := [] }, false) :=
  ⟨(GetDenomTrace_not_found_iff_absent sampleKeeper tracedStore
      (sampleTrace.Hash sampleSha)).2.2.2
      (fun bz hbz => ⟨sampleTrace, by
        have h : tracedStore.Get (DenomTraceKey ++ sampleTrace.Hash sampleSha)
            = some sampleTrace.Marshal := by decide
        rw [h] at hbz
        cases hbz
        decide⟩),
    by decide, by decide⟩

/-- Witness of C7: with the module account set and a subspace without a key table,
`NewKeeper` returns the keeper with the transfer key table. -/
theorem NewKeeper_panics_iff_no_module_account_witness :
    NewKeeper protoCodec { name := "transfer" } { name := "transfer", table := { m := [] } }
        { handle := 1 } { handle := 2 } { handle := 3 } sampleKeeper.authKeeper { handle := 4 }
        { handle := 5 } = .ok sampleKeeper ∧
    sampleKeeper.paramSpace.HasKeyTable = true ∧
    sampleKeeper.addressHandler = some .SeiAddressHandler :=
  ⟨rfl,
    ((NewKeeper_panics_iff_no_module_account protoCodec { name := "transfer" }
      { name := "transfer", table := { m := [] } } { handle := 1 } { handle := 2 } { handle := 3 }
      sampleKeeper.authKeeper { handle := 4 } { handle := 5 }).2.2 sampleKeeper rfl).2.2.2.2.2.2.2.2.1,
    rfl⟩

/-- Witness of C8: with the module account set, a nil handler panics and the handler
`other 9` is installed. -/
theorem NewKeeperWithAddressHandler_sets_handler_witness :
    NewKeeperWithAddressHandler protoCodec { name := "transfer" }
        { name := "transfer", table := { m := [] } } { handle := 1 } { handle := 2 }
        { handle := 3 } sampleKeeper.authKeeper { handle := 4 } { handle := 5 } none
      = .error "the IBC transfer module address handler has not been set" ∧
    NewKeeperWithAddressHandler protoCodec { name := "transfer" }
        { name := "transfer", table := { m := [] } } { handle := 1 } { handle := 2 }
        { handle := 3 } sampleKeeper.authKeeper { handle := 4 } { handle := 5 } (some (.other 9))
      = .ok { sampleKeeper with addressHandler := some (.other 9) } :=
  ⟨(NewKeeperWithAddressHandler_sets_handler protoCodec { name := "transfer" }
      { name := "transfer", table := { m := [] } } { handle := 1 } { handle := 2 } { handle := 3 }
      sampleKeeper.authKeeper { handle := 4 } { handle := 5 }).1 (by decide),
    rfl⟩

/-- Witness of C9 on the sample store: the port is replaced and the traces stay
readable. -/
theorem SetPort_then_GetPort_witness :
    sampleKeeper.GetPort (sampleKeeper.SetPort tracedStore [105, 98, 99]) = [105, 98, 99] ∧
    sampleKeeper.GetPort ∅ = [] ∧
    sampleKeeper.GetDenomTrace (sampleKeeper.SetPort tracedStore [105, 98, 99])
        (sampleTrace.Hash sampleSha) = .ok (sampleTrace, true) :=
  ⟨(SetPort_then_GetPort sampleKeeper tracedStore [105, 98, 99]).1,
    (SetPort_then_GetPort sampleKeeper ∅ [105, 98, 99]).2.1 rfl, by decide⟩

end transfer

namespace client

set_option maxRecDepth 100000 in
theorem hex_digits_of_byte : ∀ v : Byte,
    fromHexChar (hextable.getD (v.val >>> 4) '0') = some (v.val >>> 4) ∧
    fromHexChar (hextable.getD (v.val &&& 0x0f) '0') = some (v.val &&& 0x0f) ∧
    byte ((v.val >>> 4) <<< 4 ||| (v.val &&& 0x0f)) = v ∧
    hextable.getD (v.val >>> 4) '0' ∈ hextable ∧
    hextable.getD (v.val &&& 0x0f) '0' ∈ hextable := by
  decide

theorem hexDecode_hexEncode (bz : Bytes) : hexDecode (hexEncode bz) = .ok bz := by
  induction bz with
  | nil => rfl
  | cons v rest ih =>
    obtain ⟨h1, h2, h3, -, -⟩ := hex_digits_of_byte v
    simp only [hexEncode, hexDecode, h1, h2, ih, h3]

theorem hexEncode_length (bz : Bytes) : (hexEncode bz).length = 2 * bz.length := by
  induction bz with
  | nil => rfl
  | cons v rest ih => simp only [hexEncode, List.length_cons, ih]; omega

theorem hexEncode_mem_hextable (bz : Bytes) : ∀ c ∈ hexEncode bz, c ∈ hextable := by
  induction bz with
  | nil => simp [hexEncode]
  | cons v rest ih =>
    obtain ⟨-, -, -, h4, h5⟩ := hex_digits_of_byte v
    intro c hc
    simp only [hexEncode, List.mem_cons] at hc
    rcases hc with rfl | rfl | hc
    · exact h4
    · exact h5
    · exact ih c hc

theorem hextable_ascii : ∀ c ∈ hextable, c.toNat < 128 := by decide

/-- C11: when the client message marshals to `bz`, `emitUpdateClientEvent` appends to the
events emitted so far the update-client event and the message event, and the header
attribute of the update-client event is `hex.EncodeToString(bz)`: its characters are all
among `0123456789abcdef` (so they are ASCII), there are exactly twice as many of them as
`bz` has bytes, and `hex.DecodeString` returns `bz` from it. -/
theorem emitUpdateClientEvent_header_is_hex (em : EventManager)
    (clientID clientType : String) (hs : List Height) (cdc : BinaryCodec)
    (clientMsg : Option ClientMessage) (bz : Bytes)
    (hmarshal : MustMarshalClientMessage cdc clientMsg = .ok bz) :
    ∃ em' event header,
      emitUpdateClientEvent em clientID clientType hs cdc clientMsg = .ok em' ∧
      em'.events = em.events ++
        [ event,
          { Type_ := EventTypeMessage,
            Attributes := [{ Key := AttributeKeyModule, Value := AttributeValueCategory }] } ] ∧
      event.Type_ = EventTypeUpdateClient ∧
      event.attribute AttributeKeyHeader = some header ∧
      { Key := AttributeKeyHeader, Value := header } ∈ event.Attributes ∧
      header = EncodeToString bz ∧
      (∀ c ∈ header.data, c ∈ hextable ∧ c.toNat < 128) ∧
      header.length = 2 * bz.length ∧
      DecodeString header = .ok bz := by
  refine ⟨{ events := em.events ++
        [ { Type_ := EventTypeUpdateClient,
            Attributes :=
              [ { Key := AttributeKeyClientID, Value := clientID },
                { Key := AttributeKeyClientType, Value := clientType },
                { Key := AttributeKeyConsensusHeight,
                  Value := (hs.head?.map Height.String).getD "" },
                { Key := AttributeKeyConsensusHeights,
                  Value := Join (hs.map Height.String) "," },
                { Key := AttributeKeyHeader, Value := EncodeToString bz } ] },
          { Type_ := EventTypeMessage,
            Attributes := [{ Key := AttributeKeyModule, Value := AttributeValueCategory }] } ] },
    { Type_ := EventTypeUpdateClient,
      Attributes :=
        [ { Key := AttributeKeyClientID, Value := clientID },
          { Key := AttributeKeyClientType, Value := clientType },
          { Key := AttributeKeyConsensusHeight,
            Value := (hs.head?.map Height.String).getD "" },
          { Key := AttributeKeyConsensusHeights, Value := Join (hs.map Height.String) "," },
          { Key := AttributeKeyHeader, Value := EncodeToString bz } ] },
    EncodeToString bz, ?_, rfl, rfl, ?_, ?_, rfl, ?_, ?_, ?_⟩
  · simp only [emitUpdateClientEvent, hmarshal, fillHeights_eq_map]
    cases hs <;> rfl
  · simp [Event.attribute, AttributeKeyClientID, AttributeKeyClientType,
      AttributeKeyConsensusHeight, AttributeKeyConsensusHeights, AttributeKeyHeader]
  · simp
  · intro c hc
    have hmem := hexEncode_mem_hextable bz c hc
    exact ⟨hmem, hextable_ascii c hmem⟩
  · exact hexEncode_length bz
  · exact hexDecode_hexEncode bz

/-- Witness of C11: a two-byte message under the sample codec gives the header "00ab" in
the appended update-client event. -/
theorem emitUpdateClientEvent_header_is_hex_witness :
    MustMarshalClientMessage sampleCodec
        (some { typeURL := "/ibc.lightclients.tendermint.v1.Header", value := [0, 171] })
      = .ok [0, 171] ∧
    EncodeToString [0, 171] = "00ab" ∧
    ∃ em' event header,
      emitUpdateClientEvent { events := [] } "07-tendermint-0" "07-tendermint" []
        sampleCodec (some { typeURL := "/ibc.lightclients.tendermint.v1.Header", value := [0, 171] })
        = .ok em' ∧
      em'.events = ([] : List Event) ++
        [ event,
          { Type_ := EventTypeMessage,
            Attributes := [{ Key := AttributeKeyModule, Value := AttributeValueCategory }] } ] ∧
      event.attribute AttributeKeyHeader = some header ∧
      header = "00ab" ∧
      DecodeString header = .ok [0, 171] :=
  ⟨rfl, by decide,
    match emitUpdateClientEvent_header_is_hex { events := [] } "07-tendermint-0"
      "07-tendermint" [] sampleCodec
      (some { typeURL := "/ibc.lightclients.tendermint.v1.Header", value := [0, 171] })
      [0, 171] rfl with
    | ⟨em', event, header, h, hevents, _, hattr, _, hhex, _, _, hdecode⟩ =>
      ⟨em', event, header, h, hevents, hattr, hhex.trans (by decide), hdecode⟩⟩

end client

namespace e2e

theorem orderedInsert_filter_address (x : Validator) (l : List Validator) (addr : GoString) :
    (l.orderedInsert (fun a b => decide (b.Address < a.Address) = false) x).filter
        (fun v => decide (v.Address = addr))
      = if x.Address = addr then x :: l.filter (fun v => decide (v.Address = addr))
        else l.filter (fun v => decide (v.Address = addr)) := by
  induction l with
  | nil => by_cases h : x.Address = addr <;> simp [h]
  | cons y rest ih =>
    by_cases hxy : y.Address < x.Address
    · have hne : y.Address ≠ x.Address := ne_of_lt hxy
      simp only [List.orderedInsert, hxy, decide_True, Bool.true_eq_false, if_false,
        List.filter_cons, ih]
      by_cases hx : x.Address = addr
      · have hy : ¬ y.Address = addr := fun h => hne (h.trans hx.symm)
        simp [hx, hy]
      · simp [hx]
    · simp only [List.orderedInsert, hxy, decide_False, if_true, List.filter_cons]
      by_cases hx : x.Address = addr <;> simp [hx]

theorem SliceStable_filter_address (l : List Validator) (addr : GoString) :
    (SliceStable l (fun vi vj => decide (vi.Address < vj.Address))).filter
        (fun v => decide (v.Address = addr))
      = l.filter (fun v => decide (v.Address = addr)) := by
  induction l with
  | nil => rfl
  | cons x rest ih =>
    have h := orderedInsert_filter_address x
      (SliceStable rest (fun vi vj => decide (vi.Address < vj.Address))) addr
    simp only [SliceStable, List.insertionSort] at h ih ⊢
    rw [h, ih]
    by_cases hx : x.Address = addr <;> simp [hx]

theorem SliceStable_perm (l : List Validator) :
    (SliceStable l (fun vi vj => decide (vi.Address < vj.Address))).Perm l :=
  List.perm_insertionSort _ _

theorem SliceStable_sorted (l : List Validator) :
    (SliceStable l (fun vi vj => decide (vi.Address < vj.Address))).Sorted
      (fun a b => a.Address ≤ b.Address) := by
  haveI : IsTotal Validator (fun a b => decide (b.Address < a.Address) = false) :=
    ⟨fun a b => by
      rcases le_total a.Address b.Address with h | h
      · exact Or.inl (by simpa using h)
      · exact Or.inr (by simpa using h)⟩
  haveI : IsTrans Validator (fun a b => decide (b.Address < a.Address) = false) :=
    ⟨fun a b c hab hbc => by
      have h1 : a.Address ≤ b.Address := by simpa using hab
      have h2 : b.Address ≤ c.Address := by simpa using hbc
      simpa using le_trans h1 h2⟩
  have h := List.sorted_insertionSort (fun a b : Validator => decide (b.Address < a.Address) = false) l
  exact h.imp (fun hab => by simpa using hab)

/-- C12: when the query succeeds, `GetValidatorSetByHeight` returns the validators of the
response sorted by address: a permutation of them in which every entry's address is at
most the address of the next entry (and of every later entry), and in which validators
with equal addresses keep their order from the response; when the query fails it returns
`(nil, err)`. -/
theorem GetValidatorSetByHeight_stable_sorted (tmService : ConsensusServiceClient)
    (height : Nat) :
    (∀ err, tmService.GetValidatorSetByHeight { Height := int64 height } = .error err →
      GetValidatorSetByHeight tmService height = .error err) ∧
    (∀ res, tmService.GetValidatorSetByHeight { Height := int64 height } = .ok res →
      ∃ vals, GetValidatorSetByHeight tmService height = .ok vals ∧
        vals.Perm res.Validators ∧
        vals.Sorted (fun a b => a.Address ≤ b.Address) ∧
        (∀ i (h : i + 1 < vals.length),
          (vals.get ⟨i, Nat.lt_of_succ_lt h⟩).Address ≤ (vals.get ⟨i + 1, h⟩).Address) ∧
        (∀ addr, vals.filter (fun v => decide (v.Address = addr))
          = res.Validators.filter (fun v => decide (v.Address = addr)))) := by
  constructor
  · intro err herr
    simp [GetValidatorSetByHeight, herr]
  · intro res hres
    refine ⟨SliceStable res.Validators (fun vi vj => decide (vi.Address < vj.Address)),
      by simp [GetValidatorSetByHeight, hres], SliceStable_perm _, SliceStable_sorted _, ?_,
      SliceStable_filter_address _⟩
    intro i h
    exact (SliceStable_sorted res.Validators).rel_get_of_lt (a := ⟨i, Nat.lt_of_succ_lt h⟩)
      (b := ⟨i + 1, h⟩) (by simp [Fin.lt_def])

/-- Witness of C12 on the sample client: the validator with the smaller address comes
first and the two validators with equal addresses keep their order. -/
theorem GetValidatorSetByHeight_stable_sorted_witness :
    sampleClient.GetValidatorSetByHeight { Height := int64 7 }
      = .ok { BlockHeight := 7, Validators := sampleValidators } ∧
    GetValidatorSetByHeight sampleClient 7
      = .ok [ { Address := [97, 98], PubKey := [2], VotingPower := 20, ProposerPriority := 0 },
              { Address := [99], PubKey := [1], VotingPower := 10, ProposerPriority := 0 },
              { Address := [99], PubKey := [3], VotingPower := 30, ProposerPriority := 0 } ] ∧
    GetValidatorSetByHeight sampleClient 100
      = .error "rpc error: height must not be greater than the current height" ∧
    ∃ vals, GetValidatorSetByHeight sampleClient 7 = .ok vals ∧
      vals.Perm sampleValidators ∧
      vals.Sorted (fun a b => a.Address ≤ b.Address) :=
  ⟨by decide, by decide, by decide,
    by
      obtain ⟨vals, h1, h2, h3, -⟩ := (GetValidatorSetByHeight_stable_sorted sampleClient 7).2
        { BlockHeight := 7, Validators := sampleValidators } (by decide)
      exact ⟨vals, h1, h2, h3⟩⟩

end e2e

namespace host

/-- C16: `Params.Validate` returns an error for every parameter set whose allow list has
an entry that is empty or consists of white space only, whatever `HostEnabled` is, and
nil for every parameter set whose entries are all non-blank, among them `DefaultParams()`
and the parameter sets with an empty (or nil) allow list. -/
theorem Params_Validate_error_iff_blank_entry (hostEnabled : Bool) (allowMsgs : List String) :
    ((∃ m ∈ allowMsgs, ∀ c ∈ m.data, isSpace c = true) →
      (NewParams hostEnabled allowMsgs).Validate ≠ none) ∧
    ((∀ m ∈ allowMsgs, ∃ c ∈ m.data, isSpace c = false) →
      (NewParams hostEnabled allowMsgs).Validate = none) ∧
    DefaultParams.Validate = none ∧
    (NewParams hostEnabled []).Validate = none := by
  refine ⟨?_, ?_, by decide, by simp [NewParams, Params.Validate]⟩
  · rintro ⟨m, hm, hblank⟩
    have hany : allowMsgs.any isBlank = true :=
      List.any_eq_true.mpr ⟨m, hm, List.all_eq_true.mpr hblank⟩
    simp [NewParams, Params.Validate, hany]
  · intro hall
    have hany : allowMsgs.any isBlank = false := by
      rw [Bool.eq_false_iff]
      intro h
      obtain ⟨m, hm, hblank⟩ := List.any_eq_true.mp h
      obtain ⟨c, hc, hspace⟩ := hall m hm
      have := List.all_eq_true.mp hblank c hc
      rw [hspace] at this
      cases this
    simp [NewParams, Params.Validate, hany]

/-- Witness of C16: the four parameter sets of the test. -/
theorem Params_Validate_error_iff_blank_entry_witness :
    DefaultParams.Validate = none ∧
    (NewParams false []).Validate = none ∧
    (NewParams true [""]).Validate ≠ none ∧
    (NewParams true [" "]).Validate ≠ none ∧
    (NewParams false ["/cosmos.staking.v1beta1.MsgDelegate"]).Validate = none :=
  ⟨(Params_Validate_error_iff_blank_entry true []).2.2.1,
    (Params_Validate_error_iff_blank_entry false []).2.2.2,
    (Params_Validate_error_iff_blank_entry true [""]).1 ⟨"", by simp, by simp⟩,
    (Params_Validate_error_iff_blank_entry true [" "]).1 ⟨" ", by simp, by decide⟩,
    (Params_Validate_error_iff_blank_entry false ["/cosmos.staking.v1beta1.MsgDelegate"]).2.1
      (fun m hm => ⟨'/', by
        have : m = "/cosmos.staking.v1beta1.MsgDelegate" := by simpa using hm
        rw [this]
        decide, by decide⟩)⟩

end host

namespace transfer

/-- C13: `ValidateBasic` returns nil exactly when the denomination is non-empty and valid,
the amount parses as an integer that is strictly positive and fits in 256 bits, and the
sender and the receiver are not blank; the memo does not affect the result.  So 2^64 is
an accepted amount, while "", "0", "-1" and 2^256 are rejected. -/
theorem ValidateBasic_nil_iff (v : DenomValidator) (ftpd : FungibleTokenPacketData) :
    (ftpd.ValidateBasic v = none ↔
      ftpd.Denom ≠ "" ∧ v.ValidatePrefixedDenom ftpd.Denom = none ∧
      (∃ amount : Int, parseInteger ftpd.Amount = some amount ∧ 0 < amount ∧
        amount.natAbs < 2 ^ 256) ∧
      host.isBlank ftpd.Sender = false ∧ host.isBlank ftpd.Receiver = false) ∧
    (∀ memo, FungibleTokenPacketData.ValidateBasic v { ftpd with Memo := memo }
      = ftpd.ValidateBasic v) ∧
    (∀ denom sender receiver memo,
      host.isBlank sender = false → host.isBlank receiver = false →
      v.ValidatePrefixedDenom denom = none →
      (NewFungibleTokenPacketData denom "18446744073709551616" sender receiver memo).ValidateBasic v
        = none ∧
      (NewFungibleTokenPacketData denom "" sender receiver memo).ValidateBasic v ≠ none ∧
      (NewFungibleTokenPacketData denom "0" sender receiver memo).ValidateBasic v ≠ none ∧
      (NewFungibleTokenPacketData denom "-1" sender receiver memo).ValidateBasic v ≠ none ∧
      (NewFungibleTokenPacketData denom
        "115792089237316195423570985008687907853269984665640564039457584007913129639936"
        sender receiver memo).ValidateBasic v ≠ none) := by
  refine ⟨?_, fun memo => rfl, ?_⟩
  · have hdenom : v.ValidatePrefixedDenom ftpd.Denom = none → ftpd.Denom ≠ "" := by
      intro h heq
      rw [heq] at h
      exact v.empty_invalid h
    unfold FungibleTokenPacketData.ValidateBasic NewIntFromString
    cases hparse : parseInteger ftpd.Amount with
    | none => simp
    | some i =>
      by_cases hbig : i.natAbs ≥ 2 ^ 256
      · simp only [hbig, if_true]
        constructor
        · intro h
          cases h
        · rintro ⟨-, -, ⟨amount, hamount, -, hlt⟩, -, -⟩
          cases hamount
          exact absurd hbig (Nat.not_le_of_lt hlt)
      · simp only [hbig, if_false]
        by_cases hpos : 0 < i
        · by_cases hs : host.isBlank ftpd.Sender = true
          · simp [hpos, hs]
          · by_cases hr : host.isBlank ftpd.Receiver = true
            · simp [hpos, hs, hr]
            · have hs' : host.isBlank ftpd.Sender = false := Bool.eq_false_iff.mpr hs
              have hr' : host.isBlank ftpd.Receiver = false := Bool.eq_false_iff.mpr hr
              rw [hs', hr']
              simp only [hpos, not_true_eq_false, if_false, Bool.false_eq_true]
              constructor
              · intro h
                exact ⟨hdenom h, h, ⟨i, rfl, hpos, Nat.lt_of_not_ge hbig⟩, trivial, trivial⟩
              · intro h
                exact h.2.1
        · simp only [hpos, not_false_eq_true, if_true]
          constructor
          · intro h
            cases h
          · rintro ⟨-, -, ⟨amount, hamount, hpos', -⟩, -, -⟩
            cases hamount
            exact absurd hpos' hpos
  · intro denom sender receiver memo hs hr hd
    have h1 : NewIntFromString "18446744073709551616" = some 18446744073709551616 := by decide
    have h2 : NewIntFromString "" = none := by decide
    have h3 : NewIntFromString "0" = some 0 := by decide
    have h4 : NewIntFromString "-1" = some (-1) := by decide
    have h5 : NewIntFromString
        "115792089237316195423570985008687907853269984665640564039457584007913129639936"
        = none := by decide
    refine ⟨?_, ?_, ?_, ?_, ?_⟩ <;>
      simp [FungibleTokenPacketData.ValidateBasic, NewFungibleTokenPacketData, h1, h2, h3, h4, h5,
        hs, hr, hd]

/-- Witness of C13: the packets of the test under the sample denomination check. -/
theorem ValidateBasic_nil_iff_witness :
    (NewFungibleTokenPacketData "transfer/gaiachannel/atom" "100" "cosmos1sender"
      "cosmos1receiver" "").ValidateBasic sampleDenomValidator = none ∧
    (NewFungibleTokenPacketData "transfer/gaiachannel/atom" "100" "cosmos1sender"
      "cosmos1receiver" "memo").ValidateBasic sampleDenomValidator = none ∧
    (NewFungibleTokenPacketData "transfer/gaiachannel/atom" "18446744073709551616"
      "cosmos1sender" "cosmos1receiver" "").ValidateBasic sampleDenomValidator = none ∧
    (NewFungibleTokenPacketData "" "100" "cosmos1sender" "cosmos1receiver" "").ValidateBasic
      sampleDenomValidator ≠ none ∧
    (NewFungibleTokenPacketData "transfer/gaiachannel/atom" "100" "  " "cosmos1receiver"
      "").ValidateBasic sampleDenomValidator ≠ none ∧
    (NewFungibleTokenPacketData "transfer/gaiachannel/atom" "100" "cosmos1sender" ""
      "").ValidateBasic sampleDenomValidator ≠ none :=
  ⟨((ValidateBasic_nil_iff sampleDenomValidator
      (NewFungibleTokenPacketData "transfer/gaiachannel/atom" "100" "cosmos1sender"
        "cosmos1receiver" "")).1).mpr
      ⟨by decide, by decide, ⟨100, by decide, by decide, by decide⟩, by decide, by decide⟩,
    by decide, by decide, by decide, by decide, by decide⟩

end transfer

namespace KVStore

theorem Get_Delete_self (store : KVStore) (key : Bytes) : (store.Delete key).Get key = none := by
  simp [KVStore.Get, KVStore.Delete, AList.lookup_erase]

theorem mem_PrefixIterator (store : KVStore) (pfx : Bytes) (e : Bytes × Bytes) :
    e ∈ store.PrefixIterator pfx ↔ store.Get e.1 = some e.2 ∧ pfx.isPrefixOf e.1 = true := by
  rw [(PrefixIterator_perm store pfx).mem_iff, List.mem_filter, List.mem_map]
  constructor
  · rintro ⟨⟨s, hs, rfl⟩, hp⟩
    refine ⟨?_, hp⟩
    have : s.2 ∈ store.lookup s.1 := AList.mem_lookup_iff.mpr (by cases s; exact hs)
    exact this
  · rintro ⟨hget, hp⟩
    refine ⟨⟨⟨e.1, e.2⟩, ?_, rfl⟩, hp⟩
    exact AList.mem_lookup_iff.mp hget

theorem PrefixIterator_keys_nodup (store : KVStore) (pfx : Bytes) :
    ((store.PrefixIterator pfx).map (fun e => e.1)).Nodup := by
  have hperm := (PrefixIterator_perm store pfx).map (fun e => e.1)
  rw [hperm.nodup_iff]
  have hsub : (((store.entries.map (fun e => (e.1, e.2))).filter
      (fun e => pfx.isPrefixOf e.1)).map (fun e => e.1)).Sublist
      ((store.entries.map (fun e => (e.1, e.2))).map (fun e => e.1)) :=
    (List.filter_sublist _).map _
  refine hsub.nodup ?_
  have hkeys : (store.entries.map (fun e => (e.1, e.2))).map (fun e => e.1) = store.entries.keys := by
    simp [List.keys, List.map_map, Function.comp_def]
  rw [hkeys]
  exact store.nodupKeys

end KVStore

namespace transfer

theorem TotalEscrowForDenomKey_eq (denom : GoString) :
    TotalEscrowForDenomKey denom = (KeyTotalEscrowPrefix ++ [0x2f]) ++ denom := by
  simp [TotalEscrowForDenomKey]

theorem TrimPrefix_append (pfx s : GoString) : TrimPrefix (pfx ++ s) pfx = s := by
  have h : pfx.isPrefixOf (pfx ++ s) = true := by
    rw [List.isPrefixOf_iff_prefix]
    exact List.prefix_append _ _
  simp [TrimPrefix, h]

theorem eq_append_TrimPrefix (pfx s : GoString) (h : pfx.isPrefixOf s = true) :
    s = pfx ++ TrimPrefix s pfx := by
  have hp : pfx <+: s := List.isPrefixOf_iff_prefix.mp h
  simp only [TrimPrefix, h, if_true]
  exact (List.prefix_iff_eq_append.mp hp).symm

theorem iterateTokensLoop_collect (cdc : IntProtoCodec) (l : List (Bytes × Bytes))
    (acc : List Coin) :
    iterateTokensLoop cdc (fun (escrows : List Coin) denomEscrow => (escrows ++ [denomEscrow], false))
      l acc = acc ++ l.filterMap (escrowCoin cdc) := by
  induction l generalizing acc with
  | nil => simp [iterateTokensLoop]
  | cons e rest ih =>
    by_cases hd : TrimPrefix e.1 (KeyTotalEscrowPrefix ++ [0x2f]) = []
    · simp [iterateTokensLoop, escrowCoin, hd, ih]
    · cases hu : cdc.Unmarshal e.2 with
      | error msg => simp [iterateTokensLoop, escrowCoin, hd, hu, ih]
      | ok amount => simp [iterateTokensLoop, escrowCoin, hd, hu, ih]

theorem GetAllTotalEscrowed_eq (cdc : IntProtoCodec) (ctx : KVStore) :
    GetAllTotalEscrowed cdc ctx
      = (ctx.PrefixIterator (KeyTotalEscrowPrefix ++ [0x2f])).filterMap (escrowCoin cdc) := by
  simp [GetAllTotalEscrowed, IterateTokensInEscrow, iterateTokensLoop_collect,
    TotalEscrowForDenomKey]

theorem escrowCoin_key (cdc : IntProtoCodec) (e : Bytes × Bytes) (coin : Coin)
    (hp : (KeyTotalEscrowPrefix ++ [0x2f]).isPrefixOf e.1 = true)
    (hc : escrowCoin cdc e = some coin) :
    e.1 = TotalEscrowForDenomKey coin.Denom ∧ coin.Denom ≠ [] ∧
      cdc.Unmarshal e.2 = .ok coin.Amount := by
  unfold escrowCoin at hc
  by_cases hd : TrimPrefix e.1 (KeyTotalEscrowPrefix ++ [0x2f]) = []
  · simp [hd] at hc
  · cases hu : cdc.Unmarshal e.2 with
    | error msg => simp [hd, hu] at hc
    | ok amount =>
      simp only [hd, hu, if_false, Option.some.injEq] at hc
      subst hc
      refine ⟨?_, hd, rfl⟩
      rw [TotalEscrowForDenomKey_eq]
      exact eq_append_TrimPrefix _ _ hp

theorem escrow_keys_sublist (cdc : IntProtoCodec) (l : List (Bytes × Bytes))
    (hl : ∀ e ∈ l, (KeyTotalEscrowPrefix ++ [0x2f]).isPrefixOf e.1 = true) :
    ((l.filterMap (escrowCoin cdc)).map (fun c => TotalEscrowForDenomKey c.Denom)).Sublist
      (l.map (fun e => e.1)) := by
  induction l with
  | nil => simp
  | cons e rest ih =>
    have ihr := ih (fun x hx => hl x (List.mem_cons_of_mem _ hx))
    cases hc : escrowCoin cdc e with
    | none =>
      simp only [List.filterMap_cons, hc, List.map_cons]
      exact ihr.cons _
    | some coin =>
      have hkey := (escrowCoin_key cdc e coin (hl e (List.mem_cons_self _ _)) hc).1
      simp only [List.filterMap_cons, hc, List.map_cons, ← hkey]
      exact ihr.cons₂ _

/-- C14: for a non-negative amount `a` that the codec marshals to non-empty bytes and
unmarshals back, `SetTotalEscrowForDenom(coin(d, a))` followed by
`GetTotalEscrowForDenom(d)` returns the amount `a` (a zero amount needs no codec: its key
is removed); for a denomination with nothing stored the total is zero; and building the
coin with a negative amount panics with "negative coin amount: ...", so that the setter
is not reached and the store stays as it was. -/
theorem SetTotalEscrowForDenom_then_Get (cdc : IntProtoCodec) (ctx : KVStore)
    (denom : GoString) (amount : Int) :
    (0 ≤ amount →
      (amount ≠ 0 → ∃ bz, cdc.Marshal amount = .ok bz ∧ bz ≠ [] ∧
        cdc.Unmarshal bz = .ok amount) →
      ∃ coin ctx', NewCoin denom amount = .ok coin ∧
        SetTotalEscrowForDenom cdc ctx coin = .ok ctx' ∧
        GetTotalEscrowForDenom cdc ctx' denom = .ok { Denom := denom, Amount := amount }) ∧
    (ctx.Get (TotalEscrowForDenomKey denom) = none →
      GetTotalEscrowForDenom cdc ctx denom = .ok { Denom := denom, Amount := 0 }) ∧
    (amount < 0 →
      NewCoin denom amount = .error ("negative coin amount: " ++ formatInt amount)) ∧
    NewCoin denom (-1) = .error "negative coin amount: -1" := by
  refine ⟨?_, ?_, ?_, rfl⟩
  · intro hnonneg hcodec
    have hnot : ¬ amount < 0 := not_lt.mpr hnonneg
    by_cases hzero : amount = 0
    · subst hzero
      refine ⟨{ Denom := denom, Amount := 0 }, ctx.Delete (TotalEscrowForDenomKey denom), ?_, ?_, ?_⟩
      · simp [NewCoin]
      · simp [SetTotalEscrowForDenom]
      · simp [GetTotalEscrowForDenom, KVStore.Get_Delete_self, NewCoin]
    · obtain ⟨bz, hm, hne, hu⟩ := hcodec hzero
      have hlen : bz.length ≠ 0 := fun h => hne (List.length_eq_zero.mp h)
      refine ⟨{ Denom := denom, Amount := amount },
        ctx.Set (TotalEscrowForDenomKey denom) bz, ?_, ?_, ?_⟩
      · simp [NewCoin, hnot]
      · simp [SetTotalEscrowForDenom, hnot, hzero, hm]
      · simp [GetTotalEscrowForDenom, KVStore.Get_Set_self, hlen, hu, NewCoin, hnot]
  · intro hnone
    simp [GetTotalEscrowForDenom, hnone, NewCoin]
  · intro hneg
    simp [NewCoin, hneg]

/-- Witness of C14: the amount 10^20, above 2^63, under the sample codec. -/
theorem SetTotalEscrowForDenom_then_Get_witness :
    (∃ coin ctx', NewCoin uatom 100000000000000000000 = .ok coin ∧
      SetTotalEscrowForDenom sampleIntCodec ∅ coin = .ok ctx' ∧
      GetTotalEscrowForDenom sampleIntCodec ctx' uatom
        = .ok { Denom := uatom, Amount := 100000000000000000000 }) ∧
    GetTotalEscrowForDenom sampleIntCodec ∅ uatom = .ok { Denom := uatom, Amount := 0 } ∧
    NewCoin uatom (-1) = .error "negative coin amount: -1" :=
  ⟨(SetTotalEscrowForDenom_then_Get sampleIntCodec ∅ uatom 100000000000000000000).1
      (by decide) (fun _ => ⟨decimalBytes 100000000000000000000, by decide, by decide, by decide⟩),
    (SetTotalEscrowForDenom_then_Get sampleIntCodec ∅ uatom 0).2.1 (by decide),
    by decide⟩

/-- C15: `GetAllTotalEscrowed` returns one coin `(denom, amount)` for each entry stored
under `TotalEscrowForDenomKey(denom)` with a non-empty denomination and an amount as
value, and nothing else: no coin occurs twice, and a coin is in the result exactly when
its amount is stored under the key of its non-empty denomination.  Entries under other
keys and the entry of the empty denomination contribute nothing, so a store with only
such entries gives the empty result. -/
theorem GetAllTotalEscrowed_exact (cdc : IntProtoCodec) (ctx : KVStore) :
    (GetAllTotalEscrowed cdc ctx).Nodup ∧
    ((GetAllTotalEscrowed cdc ctx).map (fun c => c.Denom)).Nodup ∧
    (∀ denom amount, ({ Denom := denom, Amount := amount } : Coin) ∈ GetAllTotalEscrowed cdc ctx ↔
      denom ≠ [] ∧ ∃ bz, ctx.Get (TotalEscrowForDenomKey denom) = some bz ∧
        cdc.Unmarshal bz = .ok amount) ∧
    ((∀ denom, denom ≠ [] → ctx.Get (TotalEscrowForDenomKey denom) = none) →
      GetAllTotalEscrowed cdc ctx = []) := by
  have hmem : ∀ denom amount,
      ({ Denom := denom, Amount := amount } : Coin) ∈ GetAllTotalEscrowed cdc ctx ↔
      denom ≠ [] ∧ ∃ bz, ctx.Get (TotalEscrowForDenomKey denom) = some bz ∧
        cdc.Unmarshal bz = .ok amount := by
    intro denom amount
    rw [GetAllTotalEscrowed_eq, List.mem_filterMap]
    constructor
    · rintro ⟨e, he, hc⟩
      obtain ⟨hget, hp⟩ := (KVStore.mem_PrefixIterator ctx _ e).mp he
      obtain ⟨hkey, hne, hu⟩ := escrowCoin_key cdc e _ hp hc
      exact ⟨hne, e.2, by rw [← hkey]; exact hget, hu⟩
    · rintro ⟨hne, bz, hget, hu⟩
      refine ⟨(TotalEscrowForDenomKey denom, bz), ?_, ?_⟩
      · rw [KVStore.mem_PrefixIterator]
        refine ⟨hget, ?_⟩
        rw [TotalEscrowForDenomKey_eq, List.isPrefixOf_iff_prefix]
        exact List.prefix_append _ _
      · simp only [escrowCoin, TotalEscrowForDenomKey_eq, TrimPrefix_append, hne, if_false, hu]
  have hkeys : ((GetAllTotalEscrowed cdc ctx).map
      (fun c => TotalEscrowForDenomKey c.Denom)).Nodup := by
    rw [GetAllTotalEscrowed_eq]
    refine (escrow_keys_sublist cdc _ ?_).nodup (KVStore.PrefixIterator_keys_nodup ctx _)
    intro e he
    exact ((KVStore.mem_PrefixIterator ctx _ e).mp he).2
  have hdenoms : ((GetAllTotalEscrowed cdc ctx).map (fun c => c.Denom)).Nodup := by
    have h := hkeys
    rw [show (fun c : Coin => TotalEscrowForDenomKey c.Denom)
        = (fun d => TotalEscrowForDenomKey d) ∘ (fun c : Coin => c.Denom) from rfl,
      ← List.map_map] at h
    exact List.Nodup.of_map _ h
  refine ⟨List.Nodup.of_map _ hdenoms, hdenoms, hmem, ?_⟩
  intro hnone
  rw [List.eq_nil_iff_forall_not_mem]
  rintro ⟨denom, amount⟩ hin
  obtain ⟨hne, bz, hget, -⟩ := (hmem denom amount).mp hin
  rw [hnone denom hne] at hget
  cases hget

/-- Witness of C15 on the sample store of the test: the totals of "uatom" and
"ibc/123-456" are returned, the entries of the empty denomination and of the wrong prefix
are not. -/
theorem GetAllTotalEscrowed_exact_witness :
    GetAllTotalEscrowed sampleIntCodec escrowStore
      = [{ Denom := ibcDenom, Amount := 50 }, { Denom := uatom, Amount := 100 }] ∧
    (GetAllTotalEscrowed sampleIntCodec escrowStore).Nodup ∧
    (({ Denom := uatom, Amount := 100 } : Coin) ∈ GetAllTotalEscrowed sampleIntCodec escrowStore ↔
      uatom ≠ [] ∧ ∃ bz, escrowStore.Get (TotalEscrowForDenomKey uatom) = some bz ∧
        sampleIntCodec.Unmarshal bz = .ok 100) ∧
    GetAllTotalEscrowed sampleIntCodec
      (((∅ : KVStore).Set (TotalEscrowForDenomKey []) (decimalBytes 0)).Set
        ([119, 114, 111, 110, 103, 45, 112, 114, 101, 102, 105, 120, 47] ++ uatom)
        (decimalBytes 0)) = [] :=
  ⟨by decide, (GetAllTotalEscrowed_exact sampleIntCodec escrowStore).1,
    (GetAllTotalEscrowed_exact sampleIntCodec escrowStore).2.2.1 uatom 100, by decide⟩

end transfer

namespace client

/-- C17: for each of the three codec pairs, packing a non-nil value succeeds and unpacking
the result succeeds and returns the value that was packed; packing nil returns an error
with a nil `Any`, and unpacking that nil `Any` returns an error too. -/
theorem Pack_then_Unpack (pm : ProtoMarshaler) :
    (∀ x : ClientState, ∃ any, PackClientState pm (some x) = (some any, none) ∧
      UnpackClientState (some any) = (some x, none)) ∧
    (∀ x : ConsensusState, ∃ any, PackConsensusState pm (some x) = (some any, none) ∧
      UnpackConsensusState (some any) = (some x, none)) ∧
    (∀ x : ClientMessage, ∃ any, PackClientMessage pm (some x) = (some any, none) ∧
      UnpackClientMessage (some any) = (some x, none)) ∧
    ((∃ err, PackClientState pm none = (none, some err)) ∧
      ∃ err, UnpackClientState (PackClientState pm none).1 = (none, some err)) ∧
    ((∃ err, PackConsensusState pm none = (none, some err)) ∧
      ∃ err, UnpackConsensusState (PackConsensusState pm none).1 = (none, some err)) ∧
    ((∃ err, PackClientMessage pm none = (none, some err)) ∧
      ∃ err, UnpackClientMessage (PackClientMessage pm none).1 = (none, some err)) := by
  refine ⟨fun x => ⟨_, rfl, rfl⟩, fun x => ⟨_, rfl, rfl⟩, fun x => ⟨_, rfl, rfl⟩,
    ⟨⟨_, rfl⟩, ⟨_, rfl⟩⟩, ⟨⟨_, rfl⟩, ⟨_, rfl⟩⟩, ⟨⟨_, rfl⟩, ⟨_, rfl⟩⟩⟩

/-- Witness of C17: a tendermint client state under the sample marshaler, and an `Any`
that holds a consensus state, which does not unpack as a client state. -/
theorem Pack_then_Unpack_witness :
    (∃ any, PackClientState sampleMarshaler
        (some { ClientType := "07-tendermint",
                GetLatestHeight := { RevisionNumber := 1, RevisionHeight := 5 } })
        = (some any, none) ∧
      UnpackClientState (some any)
        = (some { ClientType := "07-tendermint",
                  GetLatestHeight := { RevisionNumber := 1, RevisionHeight := 5 } }, none)) ∧
    (PackClientState sampleMarshaler
        (some { ClientType := "07-tendermint",
                GetLatestHeight := { RevisionNumber := 1, RevisionHeight := 5 } })).1
      = some { TypeUrl := "/ibc.lightclients.07-tendermint.ClientState", Value := [1],
               cachedValue := some (.clientState
                 { ClientType := "07-tendermint",
                   GetLatestHeight := { RevisionNumber := 1, RevisionHeight := 5 } }) } ∧
    (UnpackClientState (PackConsensusState sampleMarshaler
        (some { ClientType := "06-solomachine", Timestamp := 10, value := [2] })).1).2
      = some (.ErrUnpackAny
          "cannot unpack Any into ClientState /ibc.lightclients.06-solomachine.ConsensusState") :=
  ⟨(Pack_then_Unpack sampleMarshaler).1 _, by decide, by decide⟩

end client

namespace core

/-- C19: `NewKeeper` panics when the staking keeper is empty (a zero struct value or a
pointer to one, of whatever type), when the upgrade keeper is empty, or when the scoped
keeper is the zero `ScopedKeeper`; and it returns a keeper exactly when none of the three
is empty, as with a non-empty `MockStakingKeeper`. -/
theorem NewKeeper_panics_iff_empty (stakingKeeper upgradeKeeper : KeeperInterface)
    (scopedKeeper : StructValue) :
    (isEmpty stakingKeeper = true →
      ∃ msg, NewKeeper stakingKeeper upgradeKeeper scopedKeeper = .error msg) ∧
    (isEmpty upgradeKeeper = true →
      ∃ msg, NewKeeper stakingKeeper upgradeKeeper scopedKeeper = .error msg) ∧
    (scopedKeeper.IsZero = true →
      ∃ msg, NewKeeper stakingKeeper upgradeKeeper scopedKeeper = .error msg) ∧
    ((∃ keeper, NewKeeper stakingKeeper upgradeKeeper scopedKeeper = .ok keeper) ↔
      isEmpty stakingKeeper = false ∧ isEmpty upgradeKeeper = false ∧
      scopedKeeper.IsZero = false) ∧
    (∀ (typeName : String) (fields : List FieldValue),
      (∀ f ∈ fields, f.IsZero = true) →
      isEmpty (.value { typeName := typeName, fields := fields }) = true ∧
      isEmpty (.pointer { typeName := typeName, fields := fields }) = true) ∧
    (∀ mockField : String, isEmpty (MockStakingKeeper mockField) = true ↔ mockField = "") := by
  refine ⟨?_, ?_, ?_, ?_, ?_, ?_⟩
  · intro h
    simp [NewKeeper, h]
  · intro h
    cases hs : isEmpty stakingKeeper <;> simp [NewKeeper, h, hs]
  · intro h
    cases hs : isEmpty stakingKeeper <;> cases hu : isEmpty upgradeKeeper <;>
      simp [NewKeeper, h, hs, hu]
  · cases hs : isEmpty stakingKeeper <;> cases hu : isEmpty upgradeKeeper <;>
      cases hc : scopedKeeper.IsZero <;> simp [NewKeeper, hs, hu, hc]
  · intro typeName fields hzero
    have : fields.all FieldValue.IsZero = true := List.all_eq_true.mpr hzero
    exact ⟨by simp [isEmpty, StructValue.IsZero, this], by simp [isEmpty, StructValue.IsZero, this]⟩
  · intro mockField
    simp [isEmpty, MockStakingKeeper, StructValue.IsZero, FieldValue.IsZero]

/-- Witness of C19: the seven cases of the test. -/
theorem NewKeeper_panics_iff_empty_witness :
    (∃ msg, NewKeeper (.value emptyStakingKeeper) appUpgradeKeeper appScopedKeeper
      = .error msg) ∧
    (∃ msg, NewKeeper (.pointer emptyStakingKeeper) appUpgradeKeeper appScopedKeeper
      = .error msg) ∧
    (∃ msg, NewKeeper (MockStakingKeeper "") appUpgradeKeeper appScopedKeeper = .error msg) ∧
    (∃ msg, NewKeeper appStakingKeeper (.value emptyUpgradeKeeper) appScopedKeeper
      = .error msg) ∧
    (∃ msg, NewKeeper appStakingKeeper (.pointer emptyUpgradeKeeper) appScopedKeeper
      = .error msg) ∧
    (∃ msg, NewKeeper appStakingKeeper appUpgradeKeeper emptyScopedKeeper = .error msg) ∧
    (∃ keeper, NewKeeper (MockStakingKeeper "not empty") appUpgradeKeeper appScopedKeeper
      = .ok keeper) :=
  ⟨(NewKeeper_panics_iff_empty _ appUpgradeKeeper appScopedKeeper).1 (by decide),
    (NewKeeper_panics_iff_empty _ appUpgradeKeeper appScopedKeeper).1 (by decide),
    (NewKeeper_panics_iff_empty _ appUpgradeKeeper appScopedKeeper).1 (by decide),
    (NewKeeper_panics_iff_empty appStakingKeeper _ appScopedKeeper).2.1 (by decide),
    (NewKeeper_panics_iff_empty appStakingKeeper _ appScopedKeeper).2.1 (by decide),
    (NewKeeper_panics_iff_empty appStakingKeeper appUpgradeKeeper _).2.2.1 (by decide),
    (NewKeeper_panics_iff_empty (MockStakingKeeper "not empty") appUpgradeKeeper
      appScopedKeeper).2.2.2.1.mpr (by decide)⟩

end core

namespace host

theorem Split_of_not_mem (sep : Byte) (a : GoString) (h : sep ∉ a) : Split a sep = [a] := by
  induction a with
  | nil => rfl
  | cons b rest ih =>
    have hb : b ≠ sep := fun e => h (by simp [e])
    have hrest : sep ∉ rest := fun e => h (List.mem_cons_of_mem _ e)
    simp [Split, hb, ih hrest]

theorem Split_append_sep (sep : Byte) (a rest : GoString) (h : sep ∉ a) :
    Split (a ++ sep :: rest) sep = a :: Split rest sep := by
  induction a with
  | nil => simp [Split]
  | cons b tl ih =>
    have hb : b ≠ sep := fun e => h (by simp [e])
    have htl : sep ∉ tl := fun e => h (List.mem_cons_of_mem _ e)
    simp [Split, hb, ih htl]

theorem Split_KeyOwnerAccount (portID connectionID : GoString)
    (hp : isIdentifier portID) (hc : isIdentifier connectionID) :
    Split (KeyOwnerAccount portID connectionID) 0x2f = [OwnerKeyPrefix, portID, connectionID] := by
  have hkey : KeyOwnerAccount portID connectionID
      = OwnerKeyPrefix ++ (0x2f : Byte) :: (portID ++ (0x2f : Byte) :: connectionID) := by
    simp [KeyOwnerAccount]
  rw [hkey, Split_append_sep _ _ _ (by decide), Split_append_sep _ _ _ hp,
    Split_of_not_mem _ _ hc]

theorem OwnerKeyPrefix_isPrefixOf (portID connectionID : GoString) :
    OwnerKeyPrefix.isPrefixOf (KeyOwnerAccount portID connectionID) = true := by
  rw [List.isPrefixOf_iff_prefix]
  simp [KeyOwnerAccount, List.append_assoc]

theorem accountOfEntry_KeyOwnerAccount (portID connectionID address : GoString)
    (hp : isIdentifier portID) (hc : isIdentifier connectionID) :
    accountOfEntry (KeyOwnerAccount portID connectionID, address)
      = { ConnectionId := connectionID, PortId := portID, AccountAddress := address } := by
  simp [accountOfEntry, Split_KeyOwnerAccount _ _ hp hc]

theorem getAllInterchainAccountsLoop_collect (l : List (Bytes × Bytes))
    (h : ∀ e ∈ l, ∃ portID connectionID, isIdentifier portID ∧ isIdentifier connectionID ∧
      e.1 = KeyOwnerAccount portID connectionID)
    (interchainAccounts : List RegisteredInterchainAccount) :
    getAllInterchainAccountsLoop l interchainAccounts
      = .ok (interchainAccounts ++ l.map accountOfEntry) := by
  induction l generalizing interchainAccounts with
  | nil => simp [getAllInterchainAccountsLoop]
  | cons e rest ih =>
    obtain ⟨p, c, hp, hc, hkey⟩ := h e (List.mem_cons_self _ _)
    have hrest := ih (fun e' he' => h e' (List.mem_cons_of_mem _ he'))
    rw [getAllInterchainAccountsLoop]
    simp only [hkey, Split_KeyOwnerAccount _ _ hp hc]
    simp [hrest, accountOfEntry, hkey, Split_KeyOwnerAccount _ _ hp hc]

theorem mem_PrefixIterator_registered (ctx : KVStore) (hreg : ownerKeysRegistered ctx)
    (e : Bytes × Bytes) (he : e ∈ ctx.PrefixIterator OwnerKeyPrefix) :
    ∃ portID connectionID, isIdentifier portID ∧ isIdentifier connectionID ∧
      e.1 = KeyOwnerAccount portID connectionID := by
  obtain ⟨hget, hpre⟩ := (KVStore.mem_PrefixIterator ctx _ e).mp he
  exact hreg e.1 hpre (by rw [hget]; simp)

theorem GetAllInterchainAccounts_eq (ctx : KVStore) (hreg : ownerKeysRegistered ctx) :
    GetAllInterchainAccounts ctx
      = .ok ((ctx.PrefixIterator OwnerKeyPrefix).map accountOfEntry) := by
  rw [GetAllInterchainAccounts,
    getAllInterchainAccountsLoop_collect _ (mem_PrefixIterator_registered ctx hreg)]
  simp

theorem ownerKeysRegistered_empty : ownerKeysRegistered ∅ := by
  intro key _ hget
  exact absurd rfl hget

theorem ownerKeysRegistered_Set (ctx : KVStore) (connectionID portID address : GoString)
    (hreg : ownerKeysRegistered ctx) (hc : isIdentifier connectionID)
    (hp : isIdentifier portID) :
    ownerKeysRegistered (SetInterchainAccountAddress ctx connectionID portID address) := by
  intro key hpre hget
  by_cases hkey : key = KeyOwnerAccount portID connectionID
  · exact ⟨portID, connectionID, hp, hc, hkey⟩
  · refine hreg key hpre ?_
    simpa [SetInterchainAccountAddress, KVStore.Set, KVStore.Get, AList.lookup_insert_ne hkey]
      using hget

/-- C20: after `SetInterchainAccountAddress(c, p, a)` the call
`GetInterchainAccountAddress(c, p)` returns `(a, true)`; for a connection and a port with
nothing registered it returns the empty string and false; and, on a store whose owner
keys are those of registered connections and ports (identifiers have no "/"; the empty
store is such a store and registering keeps it one), `GetAllInterchainAccounts` returns
without panic exactly one account for each registered pair: no pair of a connection and a
port occurs twice, and an account is in the result exactly when its address is the one
stored for its connection and its port. -/
theorem InterchainAccountAddress_registry (ctx : KVStore) (c p a : GoString) :
    GetInterchainAccountAddress (SetInterchainAccountAddress ctx c p a) c p = (a, true) ∧
    (ctx.Get (KeyOwnerAccount p c) = none →
      GetInterchainAccountAddress ctx c p = ([], false)) ∧
    (ownerKeysRegistered ctx →
      ∃ accounts, GetAllInterchainAccounts ctx = .ok accounts ∧
        (accounts.map (fun acc => (acc.ConnectionId, acc.PortId))).Nodup ∧
        ∀ acc, acc ∈ accounts ↔
          isIdentifier acc.ConnectionId ∧ isIdentifier acc.PortId ∧
          GetInterchainAccountAddress ctx acc.ConnectionId acc.PortId
            = (acc.AccountAddress, true)) ∧
    ownerKeysRegistered (∅ : KVStore) ∧
    (ownerKeysRegistered ctx → isIdentifier c → isIdentifier p →
      ownerKeysRegistered (SetInterchainAccountAddress ctx c p a)) := by
  have hgetiff : ∀ (s : KVStore) (c' p' a' : GoString),
      GetInterchainAccountAddress s c' p' = (a', true) ↔
        s.Get (KeyOwnerAccount p' c') = some a' := by
    intro s c' p' a'
    unfold GetInterchainAccountAddress
    cases hl : s.Get (KeyOwnerAccount p' c') with
    | none =>
      have : s.Has (KeyOwnerAccount p' c') = false := by
        simpa [KVStore.Has, KVStore.Get] using hl
      simp [this]
    | some bz =>
      have : s.Has (KeyOwnerAccount p' c') = true := by
        simp only [KVStore.Get] at hl
        simp [KVStore.Has, hl]
      simp [this, hl]
  refine ⟨?_, ?_, ?_, ownerKeysRegistered_empty, fun hreg hc hp =>
    ownerKeysRegistered_Set ctx c p a hreg hc hp⟩
  · rw [hgetiff]
    simp [SetInterchainAccountAddress, KVStore.Get_Set_self]
  · intro hnone
    have : ctx.Has (KeyOwnerAccount p c) = false := by
      simpa [KVStore.Has, KVStore.Get] using hnone
    simp [GetInterchainAccountAddress, this]
  · intro hreg
    refine ⟨_, GetAllInterchainAccounts_eq ctx hreg, ?_, ?_⟩
    · have hkeys := KVStore.PrefixIterator_keys_nodup ctx OwnerKeyPrefix
      have hmap : (ctx.PrefixIterator OwnerKeyPrefix).map (fun e => e.1)
          = (((ctx.PrefixIterator OwnerKeyPrefix).map accountOfEntry).map
              (fun acc => (acc.ConnectionId, acc.PortId))).map
              (fun cp => KeyOwnerAccount cp.2 cp.1) := by
        rw [List.map_map, List.map_map]
        refine List.map_congr_left ?_
        intro e he
        obtain ⟨p', c', hp', hc', hkey⟩ := mem_PrefixIterator_registered ctx hreg e he
        have he' : e = (KeyOwnerAccount p' c', e.2) := by rw [← hkey]
        rw [he']
        simp [accountOfEntry_KeyOwnerAccount _ _ _ hp' hc']
      rw [hmap] at hkeys
      exact List.Nodup.of_map _ hkeys
    · intro acc
      rw [hgetiff, List.mem_map]
      constructor
      · rintro ⟨e, he, rfl⟩
        obtain ⟨p', c', hp', hc', hkey⟩ := mem_PrefixIterator_registered ctx hreg e he
        have he' : e = (KeyOwnerAccount p' c', e.2) := by rw [← hkey]
        have hget := ((KVStore.mem_PrefixIterator ctx _ e).mp he).1
        rw [he', accountOfEntry_KeyOwnerAccount _ _ _ hp' hc']
        refine ⟨hc', hp', ?_⟩
        rw [← hkey]
        exact hget
      · rintro ⟨hc', hp', hget⟩
        refine ⟨(KeyOwnerAccount acc.PortId acc.ConnectionId, acc.AccountAddress), ?_, ?_⟩
        · rw [KVStore.mem_PrefixIterator]
          exact ⟨hget, OwnerKeyPrefix_isPrefixOf _ _⟩
        · rw [accountOfEntry_KeyOwnerAccount _ _ _ hp' hc']

end host

namespace host

/-- Witness of C20: "test-acc-addr" registered for "test-port" on "connection-0" in the
empty store, and the two accounts of the sample store. -/
theorem InterchainAccountAddress_registry_witness :
    GetInterchainAccountAddress
      (SetInterchainAccountAddress ∅ connection0 testPort testAccAddr) connection0 testPort
        = (testAccAddr, true) ∧
    GetInterchainAccountAddress ∅ connection0 testPort = ([], false) ∧
    ownerKeysRegistered (SetInterchainAccountAddress ∅ connection0 testPort testAccAddr) ∧
    GetAllInterchainAccounts accountStore
      = .ok [{ ConnectionId := connection0, PortId := alicePort, AccountAddress := [7, 7] },
          { ConnectionId := connection0, PortId := testPort, AccountAddress := testAccAddr }] :=
  ⟨(InterchainAccountAddress_registry ∅ connection0 testPort testAccAddr).1,
    (InterchainAccountAddress_registry ∅ connection0 testPort testAccAddr).2.1 rfl,
    (InterchainAccountAddress_registry ∅ connection0 testPort testAccAddr).2.2.2.2
      (InterchainAccountAddress_registry ∅ connection0 testPort testAccAddr).2.2.2.1
      (by decide) (by decide),
    by decide⟩

end host

namespace client

/-- C18: the handler returned by `NewClientProposalHandler` returns an error for a nil
content and for a content of another type, such as a `CommunityPoolSpendProposal`, and
leaves the whole context, the client states included, as it was; and it returns nil for a
`ClientUpdateProposal` whose subject client is Frozen and whose substitute client is
Active with matching client parameters. -/
theorem NewClientProposalHandler_contract (k : Keeper) (ctx : Context) :
    ((NewClientProposalHandler k ctx none).1 ≠ none ∧
      (NewClientProposalHandler k ctx none).2 = ctx) ∧
    (∀ typeName,
      (NewClientProposalHandler k ctx (some (Content.other typeName))).1 ≠ none ∧
      (NewClientProposalHandler k ctx (some (Content.other typeName))).2 = ctx) ∧
    (∀ (p : ClientUpdateProposal) (subject substitute : TendermintClientState),
      k.GetClientState ctx p.SubjectClientId = some subject →
      k.GetClientState ctx p.SubstituteClientId = some substitute →
      k.GetClientStatus ctx subject p.SubjectClientId = Status.Frozen →
      k.GetClientStatus ctx substitute p.SubstituteClientId = Status.Active →
      IsMatchingClientState subject substitute = true →
      (NewClientProposalHandler k ctx (some (Content.clientUpdate p))).1 = none) := by
  refine ⟨⟨by simp [NewClientProposalHandler], rfl⟩,
    fun typeName => ⟨by simp [NewClientProposalHandler], rfl⟩, ?_⟩
  intro p subject substitute hsubject hsubstitute _ hactive hmatch
  have hcons : ∃ consState,
      k.GetClientConsensusState ctx p.SubstituteClientId substitute.LatestHeight
        = some consState := by
    cases hc : k.GetClientConsensusState ctx p.SubstituteClientId substitute.LatestHeight with
    | none =>
      unfold Keeper.GetClientStatus at hactive
      rw [hc] at hactive
      by_cases hf : substitute.FrozenHeight.IsZero = true <;> simp [hf] at hactive
    | some consState => exact ⟨consState, rfl⟩
  obtain ⟨consState, hc⟩ := hcons
  simp [NewClientProposalHandler, Keeper.ClientUpdateProposal, hsubject, hsubstitute, hactive,
    CheckSubstituteAndUpdateState, hmatch, hc]

/-- Witness of C18: in the sample context the handler rejects a nil content and a
`CommunityPoolSpendProposal` without a change, and accepts the substitution of the frozen
subject by the Active substitute. -/
theorem NewClientProposalHandler_contract_witness :
    NewClientProposalHandler sampleKeeper sampleContext none
      = (some (ProposalError.ErrUnknownRequest "unrecognized ibc proposal content type: <nil>"),
          sampleContext) ∧
    (NewClientProposalHandler sampleKeeper sampleContext
      (some (Content.other "*types.CommunityPoolSpendProposal"))).2 = sampleContext ∧
    (NewClientProposalHandler sampleKeeper sampleContext
      (some (Content.clientUpdate sampleProposal))).1 = none :=
  ⟨rfl,
    ((NewClientProposalHandler_contract sampleKeeper sampleContext).2.1
      "*types.CommunityPoolSpendProposal").2,
    (NewClientProposalHandler_contract sampleKeeper sampleContext).2.2 sampleProposal
      { sampleClientState with FrozenHeight := sampleClientState.LatestHeight }
      { sampleClientState with LatestHeight := { RevisionNumber := 1, RevisionHeight := 7 } }
      (by decide) (by decide) (by decide) (by decide) (by decide)⟩

end client

namespace client

theorem Height.LT_iff (h other : Height) :
    h.LT other = true ↔
      h.RevisionNumber < other.RevisionNumber ∨
        (h.RevisionNumber = other.RevisionNumber ∧ h.RevisionHeight < other.RevisionHeight) := by
  unfold Height.LT Height.Compare
  by_cases hn : h.RevisionNumber = other.RevisionNumber
  · by_cases hlt : h.RevisionHeight < other.RevisionHeight
    · simp [hn, hlt]
    · by_cases heq : h.RevisionHeight = other.RevisionHeight
      · simp [hn, heq]
      · simp [hn, hlt, heq]
  · by_cases hlt : h.RevisionNumber < other.RevisionNumber
    · simp [hn, hlt]
    · have : ¬ (h.RevisionNumber < other.RevisionNumber ∨
          (h.RevisionNumber = other.RevisionNumber ∧
            h.RevisionHeight < other.RevisionHeight)) := by
        rintro (h1 | ⟨h1, _⟩)
        · exact hlt h1
        · exact hn h1
      simp [hn, hlt]

theorem Height.LTE_iff (h other : Height) :
    h.LTE other = true ↔
      h.RevisionNumber < other.RevisionNumber ∨
        (h.RevisionNumber = other.RevisionNumber ∧ h.RevisionHeight ≤ other.RevisionHeight) := by
  unfold Height.LTE Height.Compare
  by_cases hn : h.RevisionNumber = other.RevisionNumber
  · by_cases hlt : h.RevisionHeight < other.RevisionHeight
    · simp [hn, hlt, Nat.le_of_lt hlt]
    · by_cases heq : h.RevisionHeight = other.RevisionHeight
      · simp [hn, heq]
      · have hle : ¬ h.RevisionHeight ≤ other.RevisionHeight := by omega
        simp [hn, hlt, heq, hle]
  · by_cases hlt : h.RevisionNumber < other.RevisionNumber
    · simp [hn, hlt]
    · simp [hn, hlt]

theorem Height.ext_fields (h other : Height) (hn : h.RevisionNumber = other.RevisionNumber)
    (hh : h.RevisionHeight = other.RevisionHeight) : h = other := by
  cases h; cases other; simp_all

/-- C24: the comparison of heights is a strict total order, first by revision number and
then by revision height: `h1 < h2` holds exactly when the revision number of `h1` is
smaller, or the revision numbers are equal and the revision height of `h1` is smaller;
for all heights exactly one of `h1 < h2`, `h1 = h2`, `h2 < h1` holds; the order is
transitive; and `h1 < h2` holds if and only if `h2 ≤ h1` does not. -/
theorem Height_strict_total_order (h1 h2 h3 : Height) :
    (h1.LT h2 = true ↔
      h1.RevisionNumber < h2.RevisionNumber ∨
        (h1.RevisionNumber = h2.RevisionNumber ∧ h1.RevisionHeight < h2.RevisionHeight)) ∧
    ((h1.LT h2 = true ∧ h1 ≠ h2 ∧ h2.LT h1 = false) ∨
      (h1.LT h2 = false ∧ h1 = h2 ∧ h2.LT h1 = false) ∨
      (h1.LT h2 = false ∧ h1 ≠ h2 ∧ h2.LT h1 = true)) ∧
    (h1.LT h2 = true → h2.LT h3 = true → h1.LT h3 = true) ∧
    (h1.LT h2 = true ↔ ¬ h2.LTE h1 = true) ∧
    (h1.LTE h2 = true ↔ h1.LT h2 = true ∨ h1 = h2) ∧
    (h1.GT h2 = h2.LT h1) ∧ (h1.GTE h2 = h2.LTE h1) ∧ (h1.EQ h2 = true ↔ h1 = h2) := by
  have hext : h1 = h2 ↔
      h1.RevisionNumber = h2.RevisionNumber ∧ h1.RevisionHeight = h2.RevisionHeight :=
    ⟨fun e => by subst e; exact ⟨rfl, rfl⟩, fun e => Height.ext_fields h1 h2 e.1 e.2⟩
  refine ⟨Height.LT_iff h1 h2, ?_, ?_, ?_, ?_, ?_, ?_, ?_⟩
  · have h12 := Height.LT_iff h1 h2
    have h21 := Height.LT_iff h2 h1
    by_cases a : h1.LT h2 = true
    · left
      refine ⟨a, ?_, ?_⟩
      · intro e
        have := h12.mp a
        rw [hext] at e
        omega
      · have := h12.mp a
        cases hb : h2.LT h1 with
        | false => rfl
        | true =>
          have := h21.mp hb
          omega
    · have a' : h1.LT h2 = false := by simpa using a
      by_cases b : h2.LT h1 = true
      · right; right
        refine ⟨a', ?_, b⟩
        intro e
        have := h21.mp b
        rw [hext] at e
        omega
      · have b' : h2.LT h1 = false := by simpa using b
        right; left
        refine ⟨a', ?_, b'⟩
        rw [hext]
        have na : ¬ (h1.RevisionNumber < h2.RevisionNumber ∨
            (h1.RevisionNumber = h2.RevisionNumber ∧
              h1.RevisionHeight < h2.RevisionHeight)) := fun x => a (h12.mpr x)
        have nb : ¬ (h2.RevisionNumber < h1.RevisionNumber ∨
            (h2.RevisionNumber = h1.RevisionNumber ∧
              h2.RevisionHeight < h1.RevisionHeight)) := fun x => b (h21.mpr x)
        omega
  · intro a b
    have ha := (Height.LT_iff h1 h2).mp a
    have hb := (Height.LT_iff h2 h3).mp b
    refine (Height.LT_iff h1 h3).mpr ?_
    omega
  · rw [Height.LT_iff, Height.LTE_iff]
    omega
  · rw [Height.LT_iff, Height.LTE_iff, hext]
    omega
  · unfold Height.GT Height.LT Height.Compare
    by_cases hn : h1.RevisionNumber = h2.RevisionNumber
    · by_cases hlt : h1.RevisionHeight < h2.RevisionHeight
      · have h1' : ¬ h2.RevisionHeight < h1.RevisionHeight := by omega
        have h2' : ¬ h2.RevisionHeight = h1.RevisionHeight := by omega
        simp [hn, hlt, h1', h2']
      · by_cases heq : h1.RevisionHeight = h2.RevisionHeight
        · simp [hn, heq]
        · have h1' : h2.RevisionHeight < h1.RevisionHeight := by omega
          simp [hn, hlt, heq, h1']
    · have hn' : ¬ h2.RevisionNumber = h1.RevisionNumber := fun e => hn e.symm
      by_cases hlt : h1.RevisionNumber < h2.RevisionNumber
      · have h1' : ¬ h2.RevisionNumber < h1.RevisionNumber := by omega
        simp [hn, hn', hlt, h1']
      · have h1' : h2.RevisionNumber < h1.RevisionNumber := by omega
        simp [hn, hn', hlt, h1']
  · unfold Height.GTE Height.LTE Height.Compare
    by_cases hn : h1.RevisionNumber = h2.RevisionNumber
    · by_cases hlt : h1.RevisionHeight < h2.RevisionHeight
      · have h1' : ¬ h2.RevisionHeight < h1.RevisionHeight := by omega
        have h2' : ¬ h2.RevisionHeight = h1.RevisionHeight := by omega
        simp [hn, hlt, h1', h2']
      · by_cases heq : h1.RevisionHeight = h2.RevisionHeight
        · simp [hn, heq]
        · have h1' : h2.RevisionHeight < h1.RevisionHeight := by omega
          simp [hn, hlt, heq, h1']
    · have hn' : ¬ h2.RevisionNumber = h1.RevisionNumber := fun e => hn e.symm
      by_cases hlt : h1.RevisionNumber < h2.RevisionNumber
      · have h1' : ¬ h2.RevisionNumber < h1.RevisionNumber := by omega
        simp [hn, hn', hlt, h1']
      · have h1' : h2.RevisionNumber < h1.RevisionNumber := by omega
        simp [hn, hn', hlt, h1']
  · rw [hext]
    unfold Height.EQ Height.Compare
    by_cases hn : h1.RevisionNumber = h2.RevisionNumber
    · by_cases hlt : h1.RevisionHeight < h2.RevisionHeight
      · have : ¬ h1.RevisionHeight = h2.RevisionHeight := by omega
        simp [hn, hlt, this]
      · by_cases heq : h1.RevisionHeight = h2.RevisionHeight
        · simp [hn, heq]
        · simp [hn, hlt, heq]
    · by_cases hlt : h1.RevisionNumber < h2.RevisionNumber
      · simp [hn, hlt]
      · simp [hn, hlt]

end client

namespace client

/-- Instance of C24 at the heights 1-5, 1-7 and 2-0. -/
theorem Height_strict_total_order_witness :
    Height.LT { RevisionNumber := 1, RevisionHeight := 5 }
      { RevisionNumber := 1, RevisionHeight := 7 } = true ∧
    Height.LT { RevisionNumber := 1, RevisionHeight := 7 }
      { RevisionNumber := 2, RevisionHeight := 0 } = true ∧
    Height.LT { RevisionNumber := 1, RevisionHeight := 5 }
      { RevisionNumber := 2, RevisionHeight := 0 } = true :=
  ⟨by decide, by decide,
    (Height_strict_total_order { RevisionNumber := 1, RevisionHeight := 5 }
      { RevisionNumber := 1, RevisionHeight := 7 }
      { RevisionNumber := 2, RevisionHeight := 0 }).2.2.1 (by decide) (by decide)⟩

end client

namespace e2e

/-- Counterexample of C26: a successful response with a nil `SdkBlock` for which no header
is returned: with `Block` nil as well the method panics. -/
theorem GetBlockHeaderByHeight_nil_block_panics :
    ¬ (∀ (tmService : ConsensusServiceClient) (height : Nat) (res : GetBlockByHeightResponse),
        tmService.GetBlockByHeight { Height := int64 height } = .ok res →
        res.SdkBlock = none →
        ∃ header, GetBlockHeaderByHeight tmService height = .ok (.ok header)) := by
  intro h
  obtain ⟨header, hh⟩ := h emptyBlockClient 1 { Block := none, SdkBlock := none } rfl rfl
  have hpanic : GetBlockHeaderByHeight emptyBlockClient 1
      = .error "runtime error: invalid memory address or nil pointer dereference" := rfl
  rw [hpanic] at hh
  cases hh

/-- C26, amended: on a successful response `GetBlockHeaderByHeight` returns the header of
the `SdkBlock` field when that field is non-nil, and the header of the `Block` field when
`SdkBlock` is nil and `Block` is not; a header of the `Block` field is returned only when
`SdkBlock` is nil; and when the query fails with `err` it returns `(nil, err)`. -/
theorem GetBlockHeaderByHeight_selects_field (tmService : ConsensusServiceClient)
    (height : Nat) :
    (∀ res sdkBlock, tmService.GetBlockByHeight { Height := int64 height } = .ok res →
      res.SdkBlock = some sdkBlock →
      GetBlockHeaderByHeight tmService height = .ok (.ok (Header.sdk sdkBlock.Header))) ∧
    (∀ res block, tmService.GetBlockByHeight { Height := int64 height } = .ok res →
      res.SdkBlock = none → res.Block = some block →
      GetBlockHeaderByHeight tmService height = .ok (.ok (Header.tm block.Header))) ∧
    (∀ res h, tmService.GetBlockByHeight { Height := int64 height } = .ok res →
      GetBlockHeaderByHeight tmService height = .ok (.ok (Header.tm h)) →
      res.SdkBlock = none ∧ ∃ block, res.Block = some block ∧ block.Header = h) ∧
    (∀ err, tmService.GetBlockByHeight { Height := int64 height } = .error err →
      GetBlockHeaderByHeight tmService height = .ok (.error err)) := by
  refine ⟨?_, ?_, ?_, ?_⟩
  · intro res sdkBlock hq hs
    simp [GetBlockHeaderByHeight, hq, hs]
  · intro res block hq hs hb
    simp [GetBlockHeaderByHeight, hq, hs, hb]
  · intro res h hq hr
    unfold GetBlockHeaderByHeight at hr
    rw [hq] at hr
    cases hs : res.SdkBlock with
    | some sdkBlock => simp [hs] at hr
    | none =>
      cases hb : res.Block with
      | none => simp [hs, hb] at hr
      | some block =>
        simp [hs, hb] at hr
        exact ⟨rfl, block, rfl, hr⟩
  · intro err hq
    simp [GetBlockHeaderByHeight, hq]

/-- Instance of C26 at the sample client: at height 5 the header of `Block`, at height 20
the header of `SdkBlock`, at height 200 the error of the query. -/
theorem GetBlockHeaderByHeight_selects_field_witness :
    GetBlockHeaderByHeight sampleClient 5 = .ok (.ok (Header.tm (sampleTmHeader 5))) ∧
    GetBlockHeaderByHeight sampleClient 20 = .ok (.ok (Header.sdk (sampleSdkHeader 20))) ∧
    GetBlockHeaderByHeight sampleClient 200
      = .ok (.error "rpc error: height must not be greater than the current height") :=
  ⟨(GetBlockHeaderByHeight_selects_field sampleClient 5).2.1
      { Block := some { Header := sampleTmHeader 5, value := [] }, SdkBlock := none }
      { Header := sampleTmHeader 5, value := [] } (by decide) rfl rfl,
    (GetBlockHeaderByHeight_selects_field sampleClient 20).1
      { Block := some { Header := sampleTmHeader 20, value := [] },
        SdkBlock := some { Header := sampleSdkHeader 20, value := [] } }
      { Header := sampleSdkHeader 20, value := [] } (by decide) rfl,
    (GetBlockHeaderByHeight_selects_field sampleClient 200).2.2.2 _ (by decide)⟩

end e2e

namespace client

/-- C27: each of the seven emit functions of the client keeper appends exactly two events
to the events emitted so far: first the event of its own type, then the message event,
whose single attribute is module = `AttributeValueCategory` (the update-client function
does so when its client message marshals, as C10 and C11 state); the create-client event
and the upgrade-client event carry the same three attributes, that is the client ID, the
client type and the `String()` of the latest height; and the upgrade-client-proposal
event and the upgrade-chain event render the plan height as the same base-10 string. -/
theorem emit_functions_append_two_events (em : EventManager) (clientID clientType title : String)
    (clientState : ClientState) (height : Int) (hs : List Height) (cdc : BinaryCodec)
    (clientMsg : Option ClientMessage) :
    (emitCreateClientEvent em clientID clientState).events
      = em.events ++
        [ NewEvent EventTypeCreateClient
            [ NewAttribute AttributeKeyClientID clientID,
              NewAttribute AttributeKeyClientType clientState.ClientType,
              NewAttribute AttributeKeyConsensusHeight clientState.GetLatestHeight.String ],
          messageEvent ] ∧
    (∀ bz, MustMarshalClientMessage cdc clientMsg = .ok bz →
      ∃ em' attrs, emitUpdateClientEvent em clientID clientType hs cdc clientMsg = .ok em' ∧
        em'.events = em.events ++ [NewEvent EventTypeUpdateClient attrs, messageEvent]) ∧
    (emitUpgradeClientEvent em clientID clientState).events
      = em.events ++
        [ NewEvent EventTypeUpgradeClient
            [ NewAttribute AttributeKeyClientID clientID,
              NewAttribute AttributeKeyClientType clientState.ClientType,
              NewAttribute AttributeKeyConsensusHeight clientState.GetLatestHeight.String ],
          messageEvent ] ∧
    (emitUpdateClientProposalEvent em clientID clientType).events
      = em.events ++
        [ NewEvent EventTypeUpdateClientProposal
            [ NewAttribute AttributeKeySubjectClientID clientID,
              NewAttribute AttributeKeyClientType clientType ],
          messageEvent ] ∧
    (emitUpgradeClientProposalEvent em title height).events
      = em.events ++
        [ NewEvent EventTypeUpgradeClientProposal
            [ NewAttribute AttributeKeyUpgradePlanTitle title,
              NewAttribute AttributeKeyUpgradePlanHeight (formatInt height) ],
          messageEvent ] ∧
    (emitSubmitMisbehaviourEvent em clientID clientState).events
      = em.events ++
        [ NewEvent EventTypeSubmitMisbehaviour
            [ NewAttribute AttributeKeyClientID clientID,
              NewAttribute AttributeKeyClientType clientState.ClientType ],
          messageEvent ] ∧
    (EmitUpgradeChainEvent em height).events
      = em.events ++
        [ NewEvent EventTypeUpgradeChain
            [ NewAttribute AttributeKeyUpgradePlanHeight (formatInt height),
              NewAttribute AttributeKeyUpgradeStore UpgradeStoreKey ],
          messageEvent ] ∧
    (messageEvent.Type_ = EventTypeMessage ∧
      messageEvent.Attributes = [NewAttribute AttributeKeyModule AttributeValueCategory]) ∧
    (∀ e₁ e₂,
      (emitUpgradeClientProposalEvent em title height).events[em.events.length]? = some e₁ →
      (EmitUpgradeChainEvent em height).events[em.events.length]? = some e₂ →
      e₁.attribute AttributeKeyUpgradePlanHeight = some (formatInt height) ∧
      e₂.attribute AttributeKeyUpgradePlanHeight = some (formatInt height)) := by
  refine ⟨rfl, ?_, rfl, rfl, rfl, rfl, rfl, ⟨rfl, rfl⟩, ?_⟩
  · intro bz hbz
    simp only [emitUpdateClientEvent, hbz]
    exact ⟨_, _, rfl, rfl⟩
  · intro e₁ e₂ h₁ h₂
    simp only [emitUpgradeClientProposalEvent, EmitUpgradeChainEvent, EventManager.EmitEvents,
      List.getElem?_append_right (Nat.le_refl _), Nat.sub_self, List.getElem?_cons_zero,
      Option.some.injEq] at h₁ h₂
    subst h₁
    subst h₂
    constructor <;>
      simp [Event.attribute, NewEvent, NewAttribute, AttributeKeyUpgradePlanHeight,
        AttributeKeyUpgradePlanTitle, List.find?]

end client

namespace client

theorem GetClientStatus_of_not_frozen (k : Keeper) (ctx : Context) (clientID : String)
    (clientState : TendermintClientState) (consensusState : TendermintConsensusState)
    (hfrozen : clientState.FrozenHeight.IsZero = true)
    (hcons : k.GetClientConsensusState ctx clientID clientState.LatestHeight
      = some consensusState) :
    k.GetClientStatus ctx clientState clientID
      = if (ctx.BlockTime : Int) - (consensusState.Timestamp : Int)
            > (clientState.TrustingPeriod : Int)
        then Status.Expired else Status.Active := by
  simp [Keeper.GetClientStatus, hfrozen, hcons]

theorem GetClientStatus_of_frozen (k : Keeper) (ctx : Context) (clientID : String)
    (clientState : TendermintClientState) (hfrozen : clientState.FrozenHeight.IsZero = false) :
    k.GetClientStatus ctx clientState clientID = Status.Frozen := by
  simp [Keeper.GetClientStatus, hfrozen]

theorem Height.IsZero_of_LTE_false (h other : Height) (hlte : h.LTE other = false) :
    h.IsZero = false := by
  cases hz : h.IsZero with
  | false => rfl
  | true =>
    have hz' : h.RevisionNumber = 0 ∧ h.RevisionHeight = 0 := by
      simpa [Height.IsZero] using hz
    have : h.LTE other = true := by
      rw [Height.LTE_iff]
      omega
    rw [this] at hlte
    cases hlte

/-- C23: for a client that is not frozen, with a consensus state at its latest height,
`Status` is Expired exactly when the block time minus the timestamp of that consensus
state exceeds the trusting period, and Active otherwise.  A client that is created, in
any context, which `CreateClient` does for valid trust parameters, and never updated
reports Expired at every time that exceeds the timestamp of its consensus state by more
than the trusting period and Active at every other time; and after an update a client
reports Active as long as the time does not exceed the time of the update's header by
more than the trusting period, and Expired afterwards. -/
theorem Status_expired_iff (k : Keeper) (ctx : Context) (clientID : String)
    (clientState : TendermintClientState)
    (hfrozen : clientState.FrozenHeight.IsZero = true) :
    (∀ consensusState,
      k.GetClientConsensusState ctx clientID clientState.LatestHeight = some consensusState →
      (k.GetClientStatus ctx clientState clientID = Status.Expired ↔
        (ctx.BlockTime : Int) - (consensusState.Timestamp : Int)
          > (clientState.TrustingPeriod : Int)) ∧
      (k.GetClientStatus ctx clientState clientID = Status.Active ↔
        ¬ ((ctx.BlockTime : Int) - (consensusState.Timestamp : Int)
          > (clientState.TrustingPeriod : Int)))) ∧
    (∀ consensusState,
      clientState.TrustingPeriod < clientState.UnbondingPeriod →
      0 < clientState.TrustLevel.Numerator →
      clientState.TrustLevel.Numerator ≤ clientState.TrustLevel.Denominator →
      ∃ ctx', k.CreateClient ctx clientState consensusState
        = (.ok (FormatClientIdentifier Tendermint ctx.nextClientSequence), ctx')) ∧
    (∀ consensusState createdID ctx' now,
      k.CreateClient ctx clientState consensusState = (.ok createdID, ctx') →
      k.Status (ctx'.atTime now) createdID
        = some (if (now : Int) - (consensusState.Timestamp : Int)
                    > (clientState.TrustingPeriod : Int)
                then Status.Expired else Status.Active)) ∧
    (∀ header ctx' now,
      k.GetClientState ctx clientID = some clientState →
      CheckMisbehaviour (k.GetClientConsensusState ctx clientID header.Height) header = false →
      k.UpdateClient ctx clientID header = .ok (none, ctx') →
      k.Status (ctx'.atTime now) clientID
        = some (if (now : Int) - (header.Time : Int) > (clientState.TrustingPeriod : Int)
                then Status.Expired else Status.Active)) := by
  refine ⟨?_, ?_, ?_, ?_⟩
  · intro consensusState hcons
    have hstatus := GetClientStatus_of_not_frozen k ctx clientID clientState consensusState
      hfrozen hcons
    constructor
    · rw [hstatus]
      by_cases h : (ctx.BlockTime : Int) - (consensusState.Timestamp : Int)
          > (clientState.TrustingPeriod : Int) <;> simp [h]
    · rw [hstatus]
      by_cases h : (ctx.BlockTime : Int) - (consensusState.Timestamp : Int)
          > (clientState.TrustingPeriod : Int) <;> simp [h]
  · intro consensusState hperiod hpos hle
    have h1 : ¬ clientState.TrustingPeriod ≥ clientState.UnbondingPeriod := by omega
    have h2 : ¬ (clientState.TrustLevel.Numerator = 0 ∨
        clientState.TrustLevel.Numerator > clientState.TrustLevel.Denominator) := by omega
    exact ⟨_, by simp only [Keeper.CreateClient, h1, h2, if_false]; rfl⟩
  · intro consensusState createdID ctx' now hcreate
    unfold Keeper.CreateClient at hcreate
    split at hcreate
    · simp at hcreate
    · split at hcreate
      · simp at hcreate
      · simp only [Prod.mk.injEq, Except.ok.injEq] at hcreate
        obtain ⟨hid, hctx⟩ := hcreate
        subst hctx
        subst hid
        simp [Keeper.Status, Keeper.GetClientState, Context.atTime, Keeper.GetClientStatus,
          Keeper.GetClientConsensusState, hfrozen]
  · intro header ctx' now hclient hmis hupdate
    unfold Keeper.UpdateClient at hupdate
    simp only [hclient, hfrozen, Bool.not_true, Bool.false_eq_true, if_false] at hupdate
    split at hupdate
    · simp at hupdate
    · split at hupdate
      · simp at hupdate
      · rename_i trusted newCons hverify
        simp only [hmis, Bool.false_eq_true, if_false] at hupdate
        split at hupdate
        · simp at hupdate
        · split at hupdate
          · simp at hupdate
          · rename_i em hem
            simp only [Except.ok.injEq, Prod.mk.injEq, true_and] at hupdate
            subst hupdate
            have hnew : newCons = header.ConsensusState := by
              unfold Verifier.VerifyHeader at hverify
              split at hverify
              · simp at hverify
              · split at hverify
                · simp at hverify
                · split at hverify
                  · simp at hverify
                  · split at hverify
                    · simp at hverify
                    · split at hverify
                      · simp at hverify
                      · simpa using hverify.symm
            subst hnew
            simp [Keeper.Status, Keeper.GetClientState, Context.atTime, Keeper.GetClientStatus,
              Keeper.GetClientConsensusState, hfrozen, Header.ConsensusState]

/-- Witness of C23, the scenario of the spec: a client created in a fresh context at time
100s with a trusting period of 30s is Active at 120s and, never updated, Expired at
135s; after an update at 120s with a header of time 120s it is Active at 135s. -/
theorem Status_expired_iff_witness :
    sampleKeeper.CreateClient freshContext sampleClientState freshConsensusState
      = (.ok "07-tendermint-0", createdContext) ∧
    sampleKeeper.Status (createdContext.atTime 120000000000) "07-tendermint-0"
      = some Status.Active ∧
    sampleKeeper.Status (createdContext.atTime 135000000000) "07-tendermint-0"
      = some Status.Expired ∧
    sampleKeeper.UpdateClient (createdContext.atTime 120000000000) "07-tendermint-0"
      updateHeader = .ok (none, updatedContext) ∧
    sampleKeeper.Status (updatedContext.atTime 135000000000) "07-tendermint-0"
      = some Status.Active :=
  ⟨rfl,
    ((Status_expired_iff sampleKeeper freshContext "07-tendermint-0" sampleClientState
      (by decide)).2.2.1 freshConsensusState "07-tendermint-0" createdContext 120000000000
      rfl).trans (by decide),
    ((Status_expired_iff sampleKeeper freshContext "07-tendermint-0" sampleClientState
      (by decide)).2.2.1 freshConsensusState "07-tendermint-0" createdContext 135000000000
      rfl).trans (by decide),
    rfl,
    ((Status_expired_iff sampleKeeper (createdContext.atTime 120000000000) "07-tendermint-0"
      sampleClientState (by decide)).2.2.2 updateHeader updatedContext 135000000000
      (by decide) (by decide) rfl).trans (by decide)⟩

end client

namespace client

/-- C21: an `UpdateClient` whose header passes the verification (validly signed by the
trusted validator set) at a height that has a consensus state already, such as the
client's latest height, and whose app hash differs from the commitment root of that
consensus state, is not an error: the call succeeds; the client is not updated, that is its latest height and its
consensus states are as before, but frozen, so that its status is Frozen afterwards; and
exactly the misbehaviour event with the client ID and the client type, followed by the
message event, is emitted. -/
theorem UpdateClient_conflicting_header_freezes (k : Keeper) (ctx : Context)
    (clientID : String) (header : Header) (clientState : TendermintClientState)
    (trusted existing : TendermintConsensusState)
    (hclient : k.GetClientState ctx clientID = some clientState)
    (hfrozen : clientState.FrozenHeight.IsZero = true)
    (hexisting : k.GetClientConsensusState ctx clientID header.Height = some existing)
    (hconflict : existing.Root ≠ header.AppHash)
    (htrusted : k.GetClientConsensusState ctx clientID header.TrustedHeight = some trusted)
    (hverify : k.verifier.VerifyHeader ctx.BlockTime clientState trusted header false
      = .ok header.ConsensusState) :
    ∃ ctx', k.UpdateClient ctx clientID header = .ok (none, ctx') ∧
      k.Status ctx' clientID = some Status.Frozen ∧
      k.GetClientState ctx' clientID
        = some { clientState with FrozenHeight := header.Height } ∧
      (∀ id height, k.GetClientConsensusState ctx' id height
        = k.GetClientConsensusState ctx id height) ∧
      (∀ id, id ≠ clientID → k.GetClientState ctx' id = k.GetClientState ctx id) ∧
      ctx'.em.events = ctx.em.events ++
        [ NewEvent EventTypeSubmitMisbehaviour
            [ NewAttribute AttributeKeyClientID clientID,
              NewAttribute AttributeKeyClientType Tendermint ],
          messageEvent ] := by
  have hlte : header.Height.LTE header.TrustedHeight = false := by
    cases hl : header.Height.LTE header.TrustedHeight with
    | false => rfl
    | true => simp [Verifier.VerifyHeader, hl] at hverify
  have hnonzero : header.Height.IsZero = false :=
    Height.IsZero_of_LTE_false _ _ hlte
  have hmis : CheckMisbehaviour (k.GetClientConsensusState ctx clientID header.Height) header
      = true := by
    simp [CheckMisbehaviour, hexisting, hconflict]
  refine ⟨{ ctx with
      clientStates :=
        ctx.clientStates.insert clientID { clientState with FrozenHeight := header.Height }
      em := emitSubmitMisbehaviourEvent ctx.em clientID
        ({ clientState with FrozenHeight := header.Height } : TendermintClientState).exported },
    ?_, ?_, ?_, ?_, ?_, ?_⟩
  · simp only [Keeper.UpdateClient, hclient, hfrozen, htrusted, hverify, hmis, Bool.not_true,
      Bool.false_eq_true, if_false, if_true]
  · simp [Keeper.Status, Keeper.GetClientState, Keeper.GetClientStatus, hnonzero]
  · simp [Keeper.GetClientState]
  · intro id height
    rfl
  · intro id hid
    simp [Keeper.GetClientState, AList.lookup_insert_ne hid]
  · rfl

/-- Witness of C21: the sample client "07-tendermint-1" at height 1-7 receives a header
at 1-7 with another app hash and is frozen. -/
theorem UpdateClient_conflicting_header_freezes_witness :
    ∃ ctx', sampleKeeper.UpdateClient updateContext "07-tendermint-1" conflictingHeader
        = .ok (none, ctx') ∧
      sampleKeeper.Status ctx' "07-tendermint-1" = some Status.Frozen :=
  match UpdateClient_conflicting_header_freezes sampleKeeper updateContext "07-tendermint-1"
      conflictingHeader
      { sampleClientState with LatestHeight := { RevisionNumber := 1, RevisionHeight := 7 } }
      { Timestamp := 80000000000, Root := [5], NextValidatorsHash := [9] }
      { Timestamp := 90000000000, Root := [7], NextValidatorsHash := [9] }
      (by decide) (by decide) (by decide) (by decide) (by decide) (by decide) with
  | ⟨ctx', h, hstatus, _⟩ => ⟨ctx', h, hstatus⟩

end client

namespace client

theorem GetClientStatus_active_iff (k : Keeper) (ctx : Context) (clientID : String)
    (clientState : TendermintClientState) :
    k.GetClientStatus ctx clientState clientID = Status.Active ↔
      clientState.FrozenHeight.IsZero = true ∧
      ∃ consensusState,
        k.GetClientConsensusState ctx clientID clientState.LatestHeight = some consensusState ∧
        ¬ ((ctx.BlockTime : Int) - (consensusState.Timestamp : Int)
          > (clientState.TrustingPeriod : Int)) := by
  unfold Keeper.GetClientStatus
  cases hz : clientState.FrozenHeight.IsZero with
  | false => simp
  | true =>
    cases hc : k.GetClientConsensusState ctx clientID clientState.LatestHeight with
    | none => simp
    | some consensusState =>
      by_cases ht : (ctx.BlockTime : Int) - (consensusState.Timestamp : Int)
          > (clientState.TrustingPeriod : Int)
      · simp only [Bool.not_true, Bool.false_eq_true, if_false, ht, if_true, true_and,
          Option.some.injEq, exists_eq_left']
        simp [ht]
      · simp only [Bool.not_true, Bool.false_eq_true, if_false, ht, true_and,
          Option.some.injEq, exists_eq_left']
        simp [ht]

/-- Counterexample of C22: in the sample context with a substitute whose unbonding period
differs from the subject's, the subject is Frozen and the substitute is Active, but the
proposal fails and the subject is still Frozen afterwards. -/
theorem ClientUpdateProposal_mismatch_stays_frozen :
    sampleKeeper.Status mismatchContext sampleProposal.SubjectClientId
      = some Status.Frozen ∧
    sampleKeeper.Status mismatchContext sampleProposal.SubstituteClientId
      = some Status.Active ∧
    (sampleKeeper.ClientUpdateProposal mismatchContext sampleProposal).1
      = some (ProposalError.ErrInvalidSubstitute
          "subject client state does not match substitute client state") ∧
    sampleKeeper.Status (sampleKeeper.ClientUpdateProposal mismatchContext sampleProposal).2
      sampleProposal.SubjectClientId = some Status.Frozen := by
  refine ⟨by decide, by decide, by decide, by decide⟩

/-- C22, amended: for a subject client that is Frozen or Expired and a substitute client
that is Active with matching client parameters, `ClientUpdateProposal` succeeds;
afterwards the subject's status is Active, its frozen height is cleared, its latest
height is the substitute's and the substitute's consensus state at that height is copied
to it; and the substitute's client state is as before and its status is still Active.
With a substitute that is not Active, and also with one whose parameters do not match,
the proposal fails and the context, the subject's client state included, is unchanged. -/
theorem ClientUpdateProposal_substitution (k : Keeper) (ctx : Context)
    (p : ClientUpdateProposal) (subject substitute : TendermintClientState)
    (hsubject : k.GetClientState ctx p.SubjectClientId = some subject)
    (hsubstitute : k.GetClientState ctx p.SubstituteClientId = some substitute)
    (hstatus : k.GetClientStatus ctx subject p.SubjectClientId = Status.Frozen ∨
      k.GetClientStatus ctx subject p.SubjectClientId = Status.Expired) :
    (k.GetClientStatus ctx substitute p.SubstituteClientId = Status.Active →
      IsMatchingClientState subject substitute = true →
      ∃ ctx' consensusState,
        k.ClientUpdateProposal ctx p = (none, ctx') ∧
        k.Status ctx' p.SubjectClientId = some Status.Active ∧
        (∃ updated, k.GetClientState ctx' p.SubjectClientId = some updated ∧
          updated.FrozenHeight = ZeroHeight ∧
          updated.LatestHeight = substitute.LatestHeight) ∧
        k.GetClientConsensusState ctx p.SubstituteClientId substitute.LatestHeight
          = some consensusState ∧
        k.GetClientConsensusState ctx' p.SubjectClientId substitute.LatestHeight
          = some consensusState ∧
        k.GetClientState ctx' p.SubstituteClientId = some substitute ∧
        k.Status ctx' p.SubstituteClientId = some Status.Active) ∧
    (k.GetClientStatus ctx substitute p.SubstituteClientId ≠ Status.Active →
      (k.ClientUpdateProposal ctx p).1 ≠ none ∧ (k.ClientUpdateProposal ctx p).2 = ctx) ∧
    (IsMatchingClientState subject substitute = false →
      (k.ClientUpdateProposal ctx p).1 ≠ none ∧ (k.ClientUpdateProposal ctx p).2 = ctx) := by
  have hsuccess : k.GetClientStatus ctx substitute p.SubstituteClientId = Status.Active →
      IsMatchingClientState subject substitute = true →
      ∃ ctx' consensusState,
        k.ClientUpdateProposal ctx p = (none, ctx') ∧
        k.Status ctx' p.SubjectClientId = some Status.Active ∧
        (∃ updated, k.GetClientState ctx' p.SubjectClientId = some updated ∧
          updated.FrozenHeight = ZeroHeight ∧
          updated.LatestHeight = substitute.LatestHeight) ∧
        k.GetClientConsensusState ctx p.SubstituteClientId substitute.LatestHeight
          = some consensusState ∧
        k.GetClientConsensusState ctx' p.SubjectClientId substitute.LatestHeight
          = some consensusState ∧
        k.GetClientState ctx' p.SubstituteClientId = some substitute ∧
        k.Status ctx' p.SubstituteClientId = some Status.Active := by
    intro hactive hmatch
    obtain ⟨hzero, consensusState, hcons, hfresh⟩ :=
      (GetClientStatus_active_iff k ctx p.SubstituteClientId substitute).mp hactive
    have hne : p.SubstituteClientId ≠ p.SubjectClientId := by
      intro e
      rw [e, hsubject] at hsubstitute
      cases hsubstitute
      rw [e] at hactive
      rcases hstatus with h | h <;> rw [hactive] at h <;> cases h
    have hkey : ∀ height height' : Height,
        (p.SubstituteClientId, height) ≠ (p.SubjectClientId, height') := by
      intro height height' e
      exact hne (Prod.mk.inj e).1
    refine ⟨{ ctx with
        clientStates :=
          ctx.clientStates.insert p.SubjectClientId
            { substitute with TrustLevel := subject.TrustLevel, FrozenHeight := ZeroHeight }
        consensusStates :=
          ctx.consensusStates.insert (p.SubjectClientId, substitute.LatestHeight)
            consensusState
        em := emitUpdateClientProposalEvent ctx.em p.SubjectClientId
          substitute.exported.ClientType }, consensusState, ?_, ?_, ?_, hcons, ?_, ?_, ?_⟩
    · simp [Keeper.ClientUpdateProposal, hsubject, hsubstitute, hactive,
        CheckSubstituteAndUpdateState, hmatch, hcons]
    · have hz : ZeroHeight.IsZero = true := rfl
      simp [Keeper.Status, Keeper.GetClientState, Keeper.GetClientStatus,
        Keeper.GetClientConsensusState, hz, hfresh]
    · exact ⟨{ substitute with TrustLevel := subject.TrustLevel, FrozenHeight := ZeroHeight },
        by simp [Keeper.GetClientState], rfl, rfl⟩
    · simp [Keeper.GetClientConsensusState]
    · simpa [Keeper.GetClientState, AList.lookup_insert_ne hne] using hsubstitute
    · have hstate : (AList.insert p.SubjectClientId
          ({ substitute with TrustLevel := subject.TrustLevel, FrozenHeight := ZeroHeight } :
            TendermintClientState) ctx.clientStates).lookup p.SubstituteClientId
          = some substitute := by
        rw [AList.lookup_insert_ne hne]
        exact hsubstitute
      have hc' : (AList.insert (p.SubjectClientId, substitute.LatestHeight) consensusState
          ctx.consensusStates).lookup (p.SubstituteClientId, substitute.LatestHeight)
          = some consensusState := by
        rw [AList.lookup_insert_ne (hkey _ _)]
        exact hcons
      simp [Keeper.Status, Keeper.GetClientState, Keeper.GetClientStatus,
        Keeper.GetClientConsensusState, hstate, hc', hzero, hfresh]
  have hmismatch : IsMatchingClientState subject substitute = false →
      (k.ClientUpdateProposal ctx p).1 ≠ none ∧ (k.ClientUpdateProposal ctx p).2 = ctx := by
    intro hmatch
    by_cases hactive : k.GetClientStatus ctx substitute p.SubstituteClientId = Status.Active
    · simp [Keeper.ClientUpdateProposal, hsubject, hsubstitute, hactive,
        CheckSubstituteAndUpdateState, hmatch]
    · simp [Keeper.ClientUpdateProposal, hsubject, hsubstitute, hactive]
  refine ⟨hsuccess, ?_, hmismatch⟩
  intro hnot
  simp [Keeper.ClientUpdateProposal, hsubject, hsubstitute, hnot]

/-- Witness of C22: in the sample context the frozen subject "07-tendermint-0" is Active
after the substitution by the Active substitute "07-tendermint-1", which stays Active. -/
theorem ClientUpdateProposal_substitution_witness :
    ∃ ctx', sampleKeeper.ClientUpdateProposal sampleContext sampleProposal = (none, ctx') ∧
      sampleKeeper.Status ctx' "07-tendermint-0" = some Status.Active ∧
      sampleKeeper.Status ctx' "07-tendermint-1" = some Status.Active :=
  match (ClientUpdateProposal_substitution sampleKeeper sampleContext sampleProposal
      { sampleClientState with FrozenHeight := sampleClientState.LatestHeight }
      { sampleClientState with LatestHeight := { RevisionNumber := 1, RevisionHeight := 7 } }
      (by decide) (by decide) (Or.inl (by decide))).1 (by decide) (by decide) with
  | ⟨ctx', _, h, hs, _, _, _, _, hsub⟩ => ⟨ctx', h, hs, hsub⟩

end client

namespace e2e

set_option maxRecDepth 100000 in
theorem sortedFilePVs_sample : sortedFilePVs sampleDocker chainB = .ok [keyFile00, keyFile08] := by
  decide

set_option maxRecDepth 100000 in
theorem ConsAddressString_keyFile00 :
    (ConsAddressString cosmosvalcons keyFile00.Address).take 15 = cosmosvalcons ++ [49, 113] := by
  decide

set_option maxRecDepth 100000 in
theorem ConsAddressString_keyFile08 :
    (ConsAddressString cosmosvalcons keyFile08.Address).take 15 = cosmosvalcons ++ [49, 112] := by
  decide

set_option maxRecDepth 100000 in
theorem GetValidatorSetByHeight_chainB :
    GetValidatorSetByHeight chainBClient 10
      = .ok [validatorOf keyFile08 20, validatorOf keyFile00 10] := by
  decide

set_option maxRecDepth 100000 in
theorem HexBytesString_keyFile_lt :
    HexBytesString keyFile00.Address < HexBytesString keyFile08.Address := by
  decide

/-- C25, the code at a chain with two validators whose addresses start with the bytes 00
and 08: `extractChainPrivateKeys` sorts the key files by the upper-case hex of the address
and returns the key of 00.. first, while `GetValidatorSetByHeight` sorts by
`Validator.Address`, the bech32 consensus address, whose character set is not in the
order of its values, and returns the validator of 08.. ("cosmosvalcons1p...") before the
validator of 00.. ("cosmosvalcons1q...").  So the private key at index 0 is not the key
of the validator at index 0. -/
theorem extractChainPrivateKeys_order_differs :
    extractChainPrivateKeys sampleDocker chainB
      = .ok [{ PrivKey := keyFile00.PrivKey }, { PrivKey := keyFile08.PrivKey }] ∧
    sortedFilePVs sampleDocker chainB = .ok [keyFile00, keyFile08] ∧
    GetValidatorSetByHeight chainBClient 10
      = .ok [validatorOf keyFile08 20, validatorOf keyFile00 10] ∧
    (validatorOf keyFile08 20).Address.take 15 = cosmosvalcons ++ [49, 112] ∧
    (validatorOf keyFile00 10).Address.take 15 = cosmosvalcons ++ [49, 113] ∧
    HexBytesString keyFile00.Address < HexBytesString keyFile08.Address ∧
    keyFile00.PrivKey ≠ keyFile08.PrivKey := by
  refine ⟨?_, sortedFilePVs_sample, GetValidatorSetByHeight_chainB,
    ConsAddressString_keyFile08, ConsAddressString_keyFile00, HexBytesString_keyFile_lt,
    by decide⟩
  simp only [extractChainPrivateKeys, sortedFilePVs_sample]
  rfl

end e2e

end ibc
